import Mathlib

/-
Shallow embedding of the nayi-rs block-device validation core.

Sources:
  src/src/ali/validation/blockdev/dm/mod.rs   (DM validators, kind predicates)
  src/src/manifest/validation/blk/mod.rs      (orchestrator validate_blk, fs stage)
  src/src/errors.rs                           (error taxonomy)

Modelling conventions:
  - Rust LinkedList<BlockDev> becomes List BlockDev; back() = List.getLast?.
  - Rust HashMap<String, V> becomes an association list List (String × V)
    with functional lookup/removal; iteration order is the list order.
  - The host file-existence probe (utils::fs::file_exists) becomes membership
    in an explicit list of existing host paths.
  - Fallible code returns Except VErr; a Rust panic (expect/unwrap) is
    modelled by the distinguished error constructor VErr.panik, so that
    returned errors and panics stay distinguishable.
-/

inductive DmType
  | luks
  | lvmPv
  | lvmVg
  | lvmLv
deriving DecidableEq, Repr

inductive BlockDevType
  | disk
  | partition
  | unknownBlock
  | dm (t : DmType)
  | fs (name : String)
deriving DecidableEq, Repr

structure BlockDev where
  device : String
  device_type : BlockDevType
deriving DecidableEq, Repr

abbrev BlockDevPath := List BlockDev

abbrev BlockDevPaths := List BlockDevPath

def TYPE_DISK : BlockDevType := .disk

def TYPE_PART : BlockDevType := .partition

def TYPE_UNKNOWN : BlockDevType := .unknownBlock

def TYPE_LUKS : BlockDevType := .dm .luks

def TYPE_PV : BlockDevType := .dm .lvmPv

def TYPE_VG : BlockDevType := .dm .lvmVg

def TYPE_LV : BlockDevType := .dm .lvmLv

/-- Error taxonomy of errors.rs; `rsBug` stands for the NayiRsBug/AliRsBug
internal-bug constructor, and `panik` models a Rust panic raised by
expect/unwrap (not a returned error value). -/
inductive VErr
  | badManifest (s : String)
  | noSuchDevice (s : String)
  | rsBug (s : String)
  | panik (s : String)
deriving DecidableEq, Repr

inductive PartitionTable
  | gpt
  | mbr
deriving DecidableEq, Repr

structure ManifestPartition where
  label : String
  size : Option String
  part_type : String
deriving DecidableEq, Repr

structure ManifestDisk where
  device : String
  table : PartitionTable
  partitions : List ManifestPartition
deriving DecidableEq, Repr

structure ManifestLuks where
  name : String
  device : String
deriving DecidableEq, Repr

structure ManifestLvmVg where
  name : String
  pvs : List String
deriving DecidableEq, Repr

structure ManifestLvmLv where
  name : String
  vg : String
  size : Option String
deriving DecidableEq, Repr

structure ManifestLvm where
  pvs : Option (List String)
  vgs : Option (List ManifestLvmVg)
  lvs : Option (List ManifestLvmLv)
deriving DecidableEq, Repr

inductive Dm
  | luks (l : ManifestLuks)
  | lvm (l : ManifestLvm)
deriving DecidableEq, Repr

structure ManifestFs where
  device : String
  mnt : String
  fs_type : String
deriving DecidableEq, Repr

structure Manifest where
  disks : Option (List ManifestDisk)
  dm : Option (List Dm)
  rootfs : ManifestFs
  filesystems : Option (List ManifestFs)
  swap : Option (List String)
deriving DecidableEq, Repr

/-- is_luks_base, dm/mod.rs lines 522-531. -/
def is_luks_base (t : BlockDevType) : Bool :=
  match t with
  | .unknownBlock | .disk | .partition | .dm .lvmLv => true
  | _ => false

/-- is_pv_base, dm/mod.rs lines 533-542. -/
def is_pv_base (t : BlockDevType) : Bool :=
  match t with
  | .unknownBlock | .disk | .partition | .dm .luks => true
  | _ => false

/-- is_vg_base, dm/mod.rs lines 544-547. -/
def is_vg_base (t : BlockDevType) : Bool :=
  match t with
  | .dm .lvmPv => true
  | _ => false

/-- is_lv_base, dm/mod.rs lines 549-552. -/
def is_lv_base (t : BlockDevType) : Bool :=
  match t with
  | .dm .lvmVg => true
  | _ => false

/-- is_fs_base, manifest/validation/blk/mod.rs lines 222-231. -/
def is_fs_base (t : BlockDevType) : Bool :=
  match t with
  | .disk | .partition | .unknownBlock | .dm .luks | .dm .lvmLv => true
  | _ => false

/-- Association-list lookup standing for HashMap::get. -/
def lookupS {α : Type} : List (String × α) → String → Option α
  | [], _ => none
  | (k, v) :: t, q => if k = q then some v else lookupS t q

/-- Association-list key removal standing for HashMap::remove. -/
def removeS {α : Type} (m : List (String × α)) (k : String) : List (String × α) :=
  m.filter (fun kv => kv.1 ≠ k)

/-- Short-circuiting fold standing for a Rust for-loop over `l` mutating a
state of type σ, with early return on error. -/
def foldE {σ α : Type} (f : σ → α → Except VErr σ) : σ → List α → Except VErr σ
  | s, [] => .ok s
  | s, a :: t =>
    match f s a with
    | .error e => .error e
    | .ok s2 => foldE f s2 t

/-- Rust str::contains (substring containment). -/
def substrOf (needle hay : String) : Bool :=
  decide (needle.toList <:+: hay.toList)

/-- Modelled from the spec: the size parser `parse_human_bytes` (used by
validate_lv_size) is not under src/. Spec 4.D size parser: accepts an integer
plus a suffix (B, K, M, G, T, P, E or their IEC variants), whitespace- and
case-insensitive, and accepts the literal N%FREE; malformed input is an
error. -/
def parse_human_bytes (s : String) : Except VErr Unit :=
  let cs := (s.toList.filter (fun c => !(c = ' ' || c = '\t'))).map Char.toUpper
  let ds := cs.takeWhile Char.isDigit
  let rest := cs.drop ds.length
  let units : List Char := ['K', 'M', 'G', 'T', 'P', 'E']
  let okSuffix : Bool :=
    match rest with
    | [] => true
    | ['B'] => true
    | [u] => units.contains u
    | [u, 'B'] => units.contains u
    | [u, 'I', 'B'] => units.contains u
    | ['%', 'F', 'R', 'E', 'E'] => true
    | _ => false
  if ds ≠ [] && okSuffix then .ok ()
  else .error (.badManifest ("bad size string: " ++ s))

/-- Insert an LV into the per-VG grouping, preserving first-seen key order
and per-key declaration order (the vg_lvs map of validate_lv_size). -/
def vg_lvs_insert (m : List (String × List ManifestLvmLv)) (k : String)
    (lv : ManifestLvmLv) : List (String × List ManifestLvmLv) :=
  match m with
  | [] => [(k, [lv])]
  | (k2, g) :: t =>
    if k2 = k then (k2, g ++ [lv]) :: t else (k2, g) :: vg_lvs_insert t k lv

/-- First pass of validate_lv_size (dm/mod.rs lines 85-112): check each
declared size parses and group LVs by their vg field. -/
def collect_vg_lvs : List (String × List ManifestLvmLv) → List Dm →
    Except VErr (List (String × List ManifestLvmLv))
  | acc, [] => .ok acc
  | acc, .luks _ :: t => collect_vg_lvs acc t
  | acc, .lvm lvm :: t =>
    match lvm.lvs with
    | none => collect_vg_lvs acc t
    | some lvs =>
      match foldE (fun m lv =>
          match lv.size with
          | some sz =>
            match parse_human_bytes sz with
            | .error _ => .error (.badManifest ("bad lv size " ++ sz))
            | .ok _ => .ok (vg_lvs_insert m lv.vg lv)
          | none => .ok (vg_lvs_insert m lv.vg lv)) acc lvs with
      | .error e => .error e
      | .ok m2 => collect_vg_lvs m2 t

/-- Inner loop of the second pass of validate_lv_size (dm/mod.rs lines
124-131): with `last` the final index, reject a sizeless LV at any other
index. -/
def check_lv_group_go (vg : String) (last : Nat) :
    Nat → List ManifestLvmLv → Except VErr Unit
  | _, [] => .ok ()
  | i, lv :: t =>
    if lv.size = none ∧ i ≠ last then
      .error (.badManifest ("lv " ++ lv.name ++ " on vg " ++ vg ++ " has None size"))
    else check_lv_group_go vg last (i + 1) t

/-- Second pass of validate_lv_size (dm/mod.rs lines 114-132) for one VG
group. -/
def check_lv_group (vg : String) (lvs : List ManifestLvmLv) : Except VErr Unit :=
  if lvs.length ≤ 1 then .ok ()
  else check_lv_group_go vg (lvs.length - 1) 0 lvs

/-- validate_lv_size, dm/mod.rs lines 84-135. -/
def validate_lv_size (dms : List Dm) : Except VErr Unit :=
  match collect_vg_lvs [] dms with
  | .error e => .error e
  | .ok groups => foldE (fun _ kv => check_lv_group kv.1 kv.2) () groups

/-- Second-to-last node of a path: what two pop_back calls reach in the
LUKS validator. -/
def secondFromLast (p : BlockDevPath) : Option BlockDev :=
  p.dropLast.getLast?

/-- Inner search of the find_some_vg loop (dm/mod.rs lines 166-202) over the
paths of one sys_lvms entry: find the first path whose tip device equals the
LUKS base; reject a tip that is not a legal LUKS base; panic (expect) when
the path has fewer than two nodes; internal-bug error when the second-to-last
node is not a VG. -/
def luks_find_vg_paths (msg base : String) :
    BlockDevPaths → Except VErr (Option BlockDev)
  | [] => .ok none
  | p :: ps =>
    match p.getLast? with
    | none => luks_find_vg_paths msg base ps
    | some tm =>
      if tm.device ≠ base then luks_find_vg_paths msg base ps
      else if !(is_luks_base tm.device_type) then
        .error (.badManifest (msg ++ ": luks base " ++ base ++ " cannot have this type"))
      else
        match secondFromLast p with
        | none => .error (.panik "no vg after 2 pops")
        | some v =>
          if v.device_type ≠ TYPE_VG then
            .error (.rsBug (msg ++ ": unexpected device type - expecting a VG"))
          else .ok (some v)

/-- The find_some_vg loop over all sys_lvms entries (dm/mod.rs lines
166-202), stopping at the first found VG. -/
def luks_find_vg (msg base : String) :
    List (String × BlockDevPaths) → Except VErr (Option BlockDev)
  | [] => .ok none
  | (_, ps) :: t =>
    match luks_find_vg_paths msg base ps with
    | .error e => .error e
    | .ok (some v) => .ok (some v)
    | .ok none => luks_find_vg msg base t

/-- Inner loop of the new_pv phase (dm/mod.rs lines 213-249) over one
entry's paths: find the first path whose tip device equals the LUKS base and
whose VG (second-to-last, after the same pop checks) matches the found VG;
clear it in place and return the cleared list together with the adopted
clone extended by the LUKS node. -/
def luks_adopt_paths (msg base : String) (vg luks_dev : BlockDev) :
    BlockDevPaths → Except VErr (Option (BlockDevPaths × BlockDevPath))
  | [] => .ok none
  | p :: ps =>
    match p.getLast? with
    | none =>
      match luks_adopt_paths msg base vg luks_dev ps with
      | .error e => .error e
      | .ok none => .ok none
      | .ok (some (ps2, newp)) => .ok (some (p :: ps2, newp))
    | some tm =>
      if tm.device ≠ base then
        match luks_adopt_paths msg base vg luks_dev ps with
        | .error e => .error e
        | .ok none => .ok none
        | .ok (some (ps2, newp)) => .ok (some (p :: ps2, newp))
      else
        match secondFromLast p with
        | none => .error (.panik "no vg after 2 pops")
        | some mv =>
          if mv.device_type ≠ TYPE_VG then
            .error (.rsBug (msg ++ ": unexpected device type - expecting a VG"))
          else if mv.device ≠ vg.device then
            match luks_adopt_paths msg base vg luks_dev ps with
            | .error e => .error e
            | .ok none => .ok none
            | .ok (some (ps2, newp)) => .ok (some (p :: ps2, newp))
          else .ok (some (([] : BlockDevPath) :: ps, p ++ [luks_dev]))

/-- The new_pv phase over all sys_lvms entries (dm/mod.rs lines 211-252):
at most one path per entry is adopted (continue on the labelled outer loop);
adopted clones are pushed in entry order. -/
def luks_adopt_sys (msg base : String) (vg luks_dev : BlockDev) :
    List (String × BlockDevPaths) →
    Except VErr (List (String × BlockDevPaths) × BlockDevPaths)
  | [] => .ok ([], [])
  | (k, ps) :: t =>
    match luks_adopt_paths msg base vg luks_dev ps with
    | .error e => .error e
    | .ok none =>
      match luks_adopt_sys msg base vg luks_dev t with
      | .error e => .error e
      | .ok (t2, pushed) => .ok ((k, ps) :: t2, pushed)
    | .ok (some (ps2, newp)) =>
      match luks_adopt_sys msg base vg luks_dev t with
      | .error e => .error e
      | .ok (t2, pushed) => .ok ((k, ps2) :: t2, newp :: pushed)

/-- The manifest-store search of the LUKS validator (dm/mod.rs lines
257-274): append the LUKS node to every path whose tip device equals the
base; error on a matching tip that is not a legal LUKS base; panic (expect)
on an empty path. Also returns whether any match was found. -/
def luks_append_valids (msg luks_name base : String) (luks_dev : BlockDev) :
    BlockDevPaths → Except VErr (BlockDevPaths × Bool)
  | [] => .ok ([], false)
  | p :: ps =>
    match p.getLast? with
    | none => .error (.panik "no back node in linked list in v")
    | some tm =>
      if tm.device ≠ base then
        match luks_append_valids msg luks_name base luks_dev ps with
        | .error e => .error e
        | .ok (ps2, f) => .ok (p :: ps2, f)
      else if !(is_luks_base tm.device_type) then
        .error (.badManifest
          (msg ++ ": luks " ++ luks_name ++ " base " ++ base ++ " cannot have this type"))
      else
        match luks_append_valids msg luks_name base luks_dev ps with
        | .error e => .error e
        | .ok (ps2, _) => .ok ((p ++ [luks_dev]) :: ps2, true)

/-- collect_valid_luks, dm/mod.rs lines 139-302. -/
def collect_valid_luks (luks : ManifestLuks) (hostFiles : List String)
    (sys_fs_devs sys_fs_ready : List (String × BlockDevType))
    (sys_lvms : List (String × BlockDevPaths)) (valids : BlockDevPaths) :
    Except VErr
      (List (String × BlockDevType) × List (String × BlockDevPaths) × BlockDevPaths) :=
  let base := luks.device
  let luks_path := "/dev/mapper/" ++ luks.name
  let msg := "dm luks validation failed"
  if luks_path ∈ hostFiles then
    .error (.badManifest (msg ++ ": device " ++ luks_path ++ " already exists"))
  else if (lookupS sys_fs_devs base).isSome then
    .error (.badManifest
      (msg ++ ": luks " ++ luks.name ++ " base " ++ base ++ " was already in use"))
  else
    let luks_dev : BlockDev := ⟨luks_path, TYPE_LUKS⟩
    match luks_find_vg msg base sys_lvms with
    | .error e => .error e
    | .ok (some vg) =>
      match luks_adopt_sys msg base vg luks_dev sys_lvms with
      | .error e => .error e
      | .ok (sys2, pushed) => .ok (sys_fs_ready, sys2, valids ++ pushed)
    | .ok none =>
      match luks_append_valids msg luks.name base luks_dev valids with
      | .error e => .error e
      | .ok (v2, true) => .ok (sys_fs_ready, sys_lvms, v2)
      | .ok (_, false) =>
        let unknown_base : BlockDev := ⟨base, TYPE_UNKNOWN⟩
        if (lookupS sys_fs_ready base).isSome then
          .ok (removeS sys_fs_ready base, sys_lvms, valids ++ [[unknown_base, luks_dev]])
        else if base ∉ hostFiles then
          .error (.noSuchDevice base)
        else
          .ok (sys_fs_ready, sys_lvms, valids ++ [[unknown_base, luks_dev]])

/-- First VG-typed node among one sys_lvms entry's paths (the
iter().flatten() scans of dm/mod.rs lines 321-332 and 429-440). -/
def pv_find_sys_vg (paths : BlockDevPaths) : Option BlockDev :=
  paths.flatten.find? (fun n => n.device_type == TYPE_VG)

/-- The manifest-store loop of collect_valid_pv (dm/mod.rs lines 335-363):
append a PV node to the first path whose tip device equals pv_path, with the
duplicate-PV and base-kind checks; panic (expect) on an empty path. -/
def pv_append_valids (msg pv_path : String) :
    BlockDevPaths → Except VErr (Option BlockDevPaths)
  | [] => .ok none
  | p :: ps =>
    match p.getLast? with
    | none => .error (.panik "no back node in linked list from manifest_devs")
    | some tm =>
      if tm.device ≠ pv_path then
        match pv_append_valids msg pv_path ps with
        | .error e => .error e
        | .ok none => .ok none
        | .ok (some ps2) => .ok (some (p :: ps2))
      else if tm.device_type = TYPE_PV then
        .error (.badManifest (msg ++ ": duplicate pv " ++ pv_path ++ " in manifest"))
      else if !(is_pv_base tm.device_type) then
        .error (.badManifest (msg ++ ": pv " ++ pv_path ++ " base cannot have this type"))
      else .ok (some ((p ++ [⟨pv_path, TYPE_PV⟩]) :: ps))

/-- collect_valid_pv, dm/mod.rs lines 306-403. -/
def collect_valid_pv (pv_path : String) (hostFiles : List String)
    (sys_fs_devs sys_fs_ready : List (String × BlockDevType))
    (sys_lvms : List (String × BlockDevPaths)) (valids : BlockDevPaths) :
    Except VErr
      (List (String × BlockDevType) × List (String × BlockDevPaths) × BlockDevPaths) :=
  let msg := "lvm pv validation failed"
  if (lookupS sys_fs_devs pv_path).isSome then
    .error (.badManifest (msg ++ ": pv " ++ pv_path ++ " base was already used"))
  else
    match pv_find_sys_vg ((lookupS sys_lvms pv_path).getD []) with
    | some node =>
      .error (.badManifest
        (msg ++ ": pv " ++ pv_path ++ " was already used for other vg " ++ node.device))
    | none =>
      match pv_append_valids msg pv_path valids with
      | .error e => .error e
      | .ok (some v2) => .ok (sys_fs_ready, sys_lvms, v2)
      | .ok none =>
        let fresh : BlockDevPath :=
          [⟨pv_path, TYPE_UNKNOWN⟩, ⟨pv_path, TYPE_PV⟩]
        if (lookupS sys_fs_ready pv_path).isSome then
          .ok (removeS sys_fs_ready pv_path, sys_lvms, valids ++ [fresh])
        else if pv_path ∉ hostFiles then
          .error (.badManifest (msg ++ ": no such pv device: " ++ pv_path))
        else
          .ok (sys_fs_ready, sys_lvms, valids ++ [fresh])

/-- The manifest-store search of collect_valid_vg (dm/mod.rs lines 443-462):
append the VG node in place to the first path whose tip device equals
pv_base, with the base-kind check; panic (expect) on an empty path. -/
def vg_append_valids (msg vg_name pv_base : String) (vg_dev : BlockDev) :
    BlockDevPaths → Except VErr (Option BlockDevPaths)
  | [] => .ok none
  | p :: ps =>
    match p.getLast? with
    | none => .error (.panik "no back node in linked list from manifest_devs")
    | some tm =>
      if tm.device ≠ pv_base then
        match vg_append_valids msg vg_name pv_base vg_dev ps with
        | .error e => .error e
        | .ok none => .ok none
        | .ok (some ps2) => .ok (some (p :: ps2))
      else if !(is_vg_base tm.device_type) then
        .error (.badManifest
          (msg ++ ": vg " ++ vg_name ++ " pv base " ++ pv_base ++ " cannot have this type"))
      else .ok (some ((p ++ [vg_dev]) :: ps))

/-- The sys_lvms search of collect_valid_vg over one entry's paths
(dm/mod.rs lines 465-501): reject when an inspected tip equals the tentative
VG node (vg already exists); adopt the first path whose tip device equals
pv_base and passes the base-kind check, clearing it in place and returning
the clone extended by the VG node. -/
def vg_adopt_paths (msg vg_name pv_base : String) (vg_dev : BlockDev) :
    BlockDevPaths → Except VErr (Option (BlockDevPaths × BlockDevPath))
  | [] => .ok none
  | p :: ps =>
    match p.getLast? with
    | none =>
      match vg_adopt_paths msg vg_name pv_base vg_dev ps with
      | .error e => .error e
      | .ok none => .ok none
      | .ok (some (ps2, newp)) => .ok (some (p :: ps2, newp))
    | some tm =>
      if tm = vg_dev then
        .error (.badManifest (msg ++ ": vg " ++ vg_name ++ " already exists"))
      else if tm.device ≠ pv_base then
        match vg_adopt_paths msg vg_name pv_base vg_dev ps with
        | .error e => .error e
        | .ok none => .ok none
        | .ok (some (ps2, newp)) => .ok (some (p :: ps2, newp))
      else if !(is_vg_base tm.device_type) then
        .error (.badManifest
          (msg ++ ": vg " ++ vg_name ++ " pv base " ++ pv_base ++ " cannot have this type"))
      else .ok (some (([] : BlockDevPath) :: ps, p ++ [vg_dev]))

/-- The sys_lvms search of collect_valid_vg over all entries (dm/mod.rs
lines 464-501), stopping at the first adoption. -/
def vg_adopt_sys (msg vg_name pv_base : String) (vg_dev : BlockDev) :
    List (String × BlockDevPaths) →
    Except VErr (Option (List (String × BlockDevPaths) × BlockDevPath))
  | [] => .ok none
  | (k, ps) :: t =>
    match vg_adopt_paths msg vg_name pv_base vg_dev ps with
    | .error e => .error e
    | .ok (some (ps2, newp)) => .ok (some ((k, ps2) :: t, newp))
    | .ok none =>
      match vg_adopt_sys msg vg_name pv_base vg_dev t with
      | .error e => .error e
      | .ok none => .ok none
      | .ok (some (t2, newp)) => .ok (some ((k, ps) :: t2, newp))

/-- One iteration of the validate_vg_pv loop of collect_valid_vg (dm/mod.rs
lines 419-506) for a single listed PV. -/
def vg_step (vg : ManifestLvmVg) (sys_fs_devs : List (String × BlockDevType)) :
    List (String × BlockDevPaths) × BlockDevPaths → String →
    Except VErr (List (String × BlockDevPaths) × BlockDevPaths) :=
  fun st pv_base =>
    let sys_lvms := st.1
    let valids := st.2
    let msg := "lvm vg validation failed"
    let vg_dev : BlockDev := ⟨"/dev/" ++ vg.name, TYPE_VG⟩
    if (lookupS sys_fs_devs pv_base).isSome then
      .error (.badManifest
        (msg ++ ": vg " ++ vg.name ++ " base " ++ pv_base ++ " was already used as filesystem"))
    else
      match pv_find_sys_vg ((lookupS sys_lvms pv_base).getD []) with
      | some node =>
        .error (.badManifest
          (msg ++ ": vg " ++ vg.name ++ " base " ++ pv_base ++
            " was already used for other vg " ++ node.device))
      | none =>
        match vg_append_valids msg vg.name pv_base vg_dev valids with
        | .error e => .error e
        | .ok (some v2) => .ok (sys_lvms, v2)
        | .ok none =>
          match vg_adopt_sys msg vg.name pv_base vg_dev sys_lvms with
          | .error e => .error e
          | .ok (some (sys2, newp)) => .ok (sys2, valids ++ [newp])
          | .ok none =>
            .error (.badManifest
              (msg ++ ": no pv device matching " ++ pv_base ++
                " in manifest or in the system"))

/-- collect_valid_vg, dm/mod.rs lines 407-509. -/
def collect_valid_vg (vg : ManifestLvmVg)
    (sys_fs_devs : List (String × BlockDevType))
    (sys_lvms : List (String × BlockDevPaths)) (valids : BlockDevPaths) :
    Except VErr (List (String × BlockDevPaths) × BlockDevPaths) :=
  foldE (vg_step vg sys_fs_devs) (sys_lvms, valids) vg.pvs

/-- vg_lv_name, dm/mod.rs lines 512-520. -/
def vg_lv_name (lv : ManifestLvmLv) : String × String :=
  let vg_name := if substrOf "/dev/" lv.vg then lv.vg else "/dev/" ++ lv.vg
  (vg_name, vg_name ++ "/" ++ lv.name)

/-- Tip test used by the LV validator: the path's tip is the given VG. -/
def tip_is_vg (vg_name : String) (p : BlockDevPath) : Bool :=
  match p.getLast? with
  | some tm => tm.device == vg_name && tm.device_type == TYPE_VG
  | none => false

/-- Modelled from the spec: the LV validator (`lv::collect_valid`, file
src/src/ali/validation/blockdev/dm/lv.rs) is not under src/. Spec 4.D LV:
normalise the vg name (vg_lv_name); a declared size is validated with the
size parser; find every path, manifest store first and then sys_lvms, whose
tip equals the VG path with kind Dm LvmVg; at least one must exist; for each
such path clone it, append the LV node and push. The spec lists no
sys_fs_devs check for LVs, so that argument is unused. -/
def lv_collect_valid (lv : ManifestLvmLv)
    (_sys_fs_devs : List (String × BlockDevType))
    (sys_lvms : List (String × BlockDevPaths)) (valids : BlockDevPaths) :
    Except VErr (List (String × BlockDevPaths) × BlockDevPaths) :=
  let pair := vg_lv_name lv
  let vg_name := pair.1
  let lv_name := pair.2
  let lv_dev : BlockDev := ⟨lv_name, TYPE_LV⟩
  let szOk : Except VErr Unit :=
    match lv.size with
    | some sz => parse_human_bytes sz
    | none => .ok ()
  match szOk with
  | .error e => .error e
  | .ok _ =>
    let vmatches := valids.filter (tip_is_vg vg_name)
    let smatches := (sys_lvms.map Prod.snd).flatten.filter (tip_is_vg vg_name)
    if (vmatches ++ smatches).isEmpty then
      .error (.badManifest
        ("lvm lv validation failed: no vg " ++ vg_name ++ " to base lv " ++ lv_name))
    else
      .ok (sys_lvms, valids ++ (vmatches ++ smatches).map (fun p => p ++ [lv_dev]))

/-- Mutable validation state threaded through the DM loop: the fs-ready map,
the sys_lvms map and the manifest-derived store. -/
structure VState where
  fs_ready : List (String × BlockDevType)
  sys_lvms : List (String × BlockDevPaths)
  valids : BlockDevPaths
deriving DecidableEq, Repr

/-- One DM entry of the manifest loop (manifest/validation/blk/mod.rs lines
92-139 and dm/mod.rs lines 31-76): LUKS directly, or LVM in the strict inner
order PV then VG then LV. -/
def collect_dm (hostFiles : List String)
    (sys_fs_devs : List (String × BlockDevType)) :
    VState → Dm → Except VErr VState :=
  fun st dmv =>
    match dmv with
    | .luks l =>
      match collect_valid_luks l hostFiles sys_fs_devs st.fs_ready st.sys_lvms st.valids with
      | .error e => .error e
      | .ok (fr, sys, v) => .ok ⟨fr, sys, v⟩
    | .lvm lvm =>
      match foldE (fun st2 pv =>
          match collect_valid_pv pv hostFiles sys_fs_devs st2.fs_ready st2.sys_lvms st2.valids with
          | .error e => .error e
          | .ok (fr, sys, v) => .ok ⟨fr, sys, v⟩) st (lvm.pvs.getD []) with
      | .error e => .error e
      | .ok st3 =>
        match foldE (fun st4 vg =>
            match collect_valid_vg vg sys_fs_devs st4.sys_lvms st4.valids with
            | .error e => .error e
            | .ok (sys, v) => .ok ⟨st4.fs_ready, sys, v⟩) st3 (lvm.vgs.getD []) with
        | .error e => .error e
        | .ok st5 =>
          foldE (fun st6 lv =>
              match lv_collect_valid lv sys_fs_devs st6.sys_lvms st6.valids with
              | .error e => .error e
              | .ok (sys, v) => .ok ⟨st6.fs_ready, sys, v⟩) st5 (lvm.lvs.getD [])

/-- collect_valids, dm/mod.rs lines 19-79: the LV size rule, then the DM
loop. -/
def collect_valids (dms : List Dm) (hostFiles : List String)
    (sys_fs_devs : List (String × BlockDevType)) (st : VState) :
    Except VErr VState :=
  match validate_lv_size dms with
  | .error e => .error e
  | .ok _ => foldE (collect_dm hostFiles sys_fs_devs) st dms

/-- The partition-name stem of a disk: insert a p for nvme and mmcblk style
devices (manifest/validation/blk/mod.rs lines 50-56). -/
def partNameBase (device : String) : String :=
  if substrOf "nvme" device || substrOf "mmcblk" device then device ++ "p"
  else device

/-- The disk-stage loop body for one manifest disk
(manifest/validation/blk/mod.rs lines 43-89). -/
def validate_one_disk (hostFiles : List String)
    (sys_fs_devs sys_fs_ready : List (String × BlockDevType))
    (valids : BlockDevPaths) (disk : ManifestDisk) : Except VErr BlockDevPaths :=
  if disk.device ∉ hostFiles then
    .error (.badManifest ("no such disk device: " ++ disk.device))
  else
    let base : BlockDevPath := [⟨disk.device, TYPE_DISK⟩]
    foldE (fun v i =>
        let partition_name := partNameBase disk.device ++ toString (i + 1)
        if (lookupS sys_fs_ready partition_name).isSome then
          .error (.badManifest
            ("partition validation failed: partition " ++ partition_name ++
              " already exists on system"))
        else if (lookupS sys_fs_devs partition_name).isSome then
          .error (.badManifest
            ("partition validation failed: partition " ++ partition_name ++
              " is already used"))
        else .ok (v ++ [base ++ [⟨partition_name, TYPE_PART⟩]]))
      valids (List.range disk.partitions.length)

/-- Insert into the fs_ready_devs set (HashSet semantics by membership). -/
def insertS (s : List String) (d : String) : List String :=
  if d ∈ s then s else s ++ [d]

/-- Collect remaining sys_fs_ready entries into the fs_ready_devs set,
rejecting any whose kind is not a legal fs base
(manifest/validation/blk/mod.rs lines 145-154). -/
def build_fs_ready_from_ready :
    List String → List (String × BlockDevType) → Except VErr (List String)
  | acc, [] => .ok acc
  | acc, (dev, t) :: rest =>
    if is_fs_base t then build_fs_ready_from_ready (insertS acc dev) rest
    else .error (.rsBug ("fs-ready dev " ++ dev ++ " is not fs-ready"))

/-- Collect fs-base tips of the remaining sys_lvms paths
(manifest/validation/blk/mod.rs lines 157-165). -/
def add_sys_tips (acc : List String) (sys : List (String × BlockDevPaths)) :
    List String :=
  sys.foldl (fun a kv =>
    kv.2.foldl (fun a2 p =>
      match p.getLast? with
      | some tm => if is_fs_base tm.device_type then insertS a2 tm.device else a2
      | none => a2) a) acc

/-- Collect fs-base tips of the manifest store, panicking (expect) on an
empty path (manifest/validation/blk/mod.rs lines 168-173). -/
def add_valids_tips : List String → BlockDevPaths → Except VErr (List String)
  | acc, [] => .ok acc
  | acc, p :: ps =>
    match p.getLast? with
    | none => .error (.panik "v is missing top-most device")
    | some tm =>
      add_valids_tips (if is_fs_base tm.device_type then insertS acc tm.device else acc) ps

/-- The filesystems loop (manifest/validation/blk/mod.rs lines 187-202). -/
def check_fs_list : List String → List ManifestFs → Except VErr (List String)
  | s, [] => .ok s
  | s, f :: t =>
    if f.device ∈ s then check_fs_list (s.filter (fun d => d ≠ f.device)) t
    else
      .error (.badManifest
        ("fs validation failed: device " ++ f.device ++ " is not fs-ready"))

/-- The swap loop (manifest/validation/blk/mod.rs lines 204-217). -/
def check_swap_list : List String → List String → Except VErr (List String)
  | s, [] => .ok s
  | s, sw :: t =>
    if sw ∈ s then check_swap_list (s.filter (fun d => d ≠ sw)) t
    else
      .error (.badManifest
        ("swap validation failed: device " ++ sw ++ " is not fs-ready"))

/-- Rootfs, filesystems and swap checks against the computed fs-ready tip
set (manifest/validation/blk/mod.rs lines 175-217): each declaration must be
present and is removed once matched. -/
def check_fs_declarations (fs_ready_devs : List String) (rootfs_dev : String)
    (fss : List ManifestFs) (swaps : List String) : Except VErr Unit :=
  if rootfs_dev ∉ fs_ready_devs then
    .error (.badManifest
      ("rootfs validation failed: no top-level fs-ready device for rootfs: " ++ rootfs_dev))
  else
    match check_fs_list (fs_ready_devs.filter (fun d => d ≠ rootfs_dev)) fss with
    | .error e => .error e
    | .ok s2 =>
      match check_swap_list s2 swaps with
      | .error e => .error e
      | .ok _ => .ok ()

/-- validate_blk, manifest/validation/blk/mod.rs lines 33-220: disks, the DM
loop, then the filesystem and swap stage. Returns the mutable state as it
stands after the DM loop (the final manifest-derived store and the remaining
system maps). -/
def validate_blk (m : Manifest) (hostFiles : List String)
    (sys_fs_devs sys_fs_ready : List (String × BlockDevType))
    (sys_lvms : List (String × BlockDevPaths)) : Except VErr VState :=
  match foldE (validate_one_disk hostFiles sys_fs_devs sys_fs_ready) []
      (m.disks.getD []) with
  | .error e => .error e
  | .ok valids0 =>
    match foldE (collect_dm hostFiles sys_fs_devs)
        ⟨sys_fs_ready, sys_lvms, valids0⟩ (m.dm.getD []) with
    | .error e => .error e
    | .ok st =>
      match build_fs_ready_from_ready [] st.fs_ready with
      | .error e => .error e
      | .ok s0 =>
        let s1 := add_sys_tips s0 st.sys_lvms
        match add_valids_tips s1 st.valids with
        | .error e => .error e
        | .ok s2 =>
          match check_fs_declarations s2 m.rootfs.device (m.filesystems.getD [])
              (m.swap.getD []) with
          | .error e => .error e
          | .ok _ => .ok st

/-
Claim-level definitions: the properties the theorems speak about, and
concrete instances used by counterexamples and witnesses.
-/

/-- The per-edge typing relation of the store, as the claims state it: a
Partition sits on a Disk, an LvmPv on a legal PV base, an LvmVg on a legal
VG base, an LvmLv on a legal LV base, a Luks on a legal LUKS base; no other
node kind is ever built on top of another. -/
def legal_edge (base built : BlockDevType) : Bool :=
  match built with
  | .partition => base == TYPE_DISK
  | .dm .lvmPv => is_pv_base base
  | .dm .lvmVg => is_vg_base base
  | .dm .lvmLv => is_lv_base base
  | .dm .luks => is_luks_base base
  | _ => false

/-- Every adjacent pair of kinds along the list satisfies legal_edge. -/
def wellTypedKinds : List BlockDevType → Bool
  | [] => true
  | [_] => true
  | a :: b :: t => legal_edge a b && wellTypedKinds (b :: t)

/-- A device path is well-typed when each node's kind is legal on its
predecessor's kind. -/
def wellTyped (p : BlockDevPath) : Bool :=
  wellTypedKinds (p.map BlockDev.device_type)

/-- The device paths a DM entry creates as tips: /dev/mapper/name for a
LUKS, /dev/name for each VG, and the normalised /dev/vg/name for each LV. -/
def dm_target_names (d : Dm) : List String :=
  match d with
  | .luks l => ["/dev/mapper/" ++ l.name]
  | .lvm l =>
    (l.vgs.getD []).map (fun vg => "/dev/" ++ vg.name) ++
      (l.lvs.getD []).map (fun lv => (vg_lv_name lv).2)

/-- The synthesized partition name the claims state: base + p + index for
nvme or mmcblk devices, base + index otherwise. -/
def claim_part_name (device : String) (i : Nat) : String :=
  if substrOf "nvme" device || substrOf "mmcblk" device then
    device ++ "p" ++ toString i
  else device ++ toString i

/-- The store paths the claims say a validated disk contributes: one
two-node path Disk then Partition per declared partition, 1-indexed. -/
def claim_disk_paths (d : ManifestDisk) : BlockDevPaths :=
  (List.range d.partitions.length).map (fun i =>
    [⟨d.device, TYPE_DISK⟩, ⟨claim_part_name d.device (i + 1), TYPE_PART⟩])

/-- All LVs declared across the manifest's Lvm entries, in declaration
order. -/
def manifest_lvs (dms : List Dm) : List ManifestLvmLv :=
  (dms.map (fun d =>
    match d with
    | .lvm l => l.lvs.getD []
    | .luks _ => [])).flatten

/-- The per-VG grouping of manifest LVs, keys in first-seen order and each
group in declaration order (what the first pass of validate_lv_size
builds). -/
def group_lvs (dms : List Dm) : List (String × List ManifestLvmLv) :=
  (manifest_lvs dms).foldl (fun m lv => vg_lvs_insert m lv.vg lv) []

/-- Common generic consume loop shape shared by the fs and swap loops:
each device must be present and is filtered out when matched. -/
def consumeE (msgf : String → VErr) : List String → List String → Except VErr (List String)
  | s, [] => .ok s
  | s, d :: t =>
    if d ∈ s then consumeE msgf (s.filter (fun x => x ≠ d)) t
    else .error (msgf d)

/-- Error-propagating sequencing of two fallible computations, the shape of
every match-on-result in the source. -/
def exBind {α β : Type} : Except VErr α → (α → Except VErr β) → Except VErr β
  | .error e, _ => .error e
  | .ok a, f => f a

instance {α β : Type} [DecidableEq α] [DecidableEq β] : DecidableEq (Except α β)
  | .error a, .error b =>
    if h : a = b then .isTrue (congrArg Except.error h)
    else .isFalse (fun hx => h (Except.error.inj hx))
  | .ok a, .ok b =>
    if h : a = b then .isTrue (congrArg Except.ok h)
    else .isFalse (fun hx => h (Except.ok.inj hx))
  | .error _, .ok _ => .isFalse (fun hx => Except.noConfusion hx)
  | .ok _, .error _ => .isFalse (fun hx => Except.noConfusion hx)

instance :
    DecidableEq (List (String × BlockDevType) × List (String × BlockDevPaths) × BlockDevPaths) :=
  instDecidableEqProd

instance : DecidableEq (List (String × BlockDevPaths) × BlockDevPaths) :=
  instDecidableEqProd

def fs_fail_msg (d : String) : VErr :=
  .badManifest ("fs validation failed: device " ++ d ++ " is not fs-ready")

def swap_fail_msg (d : String) : VErr :=
  .badManifest ("swap validation failed: device " ++ d ++ " is not fs-ready")

/-- A filesystem entry with the given device (mount point and type are
irrelevant to block validation). -/
def mkFs (d : String) : ManifestFs := ⟨d, "/", "btrfs"⟩

def c2cexDms : List Dm :=
  [.lvm ⟨some ["/dev/sda1"],
         some [⟨"vg1", ["/dev/sda1"]⟩, ⟨"vg2", ["/dev/sda1"]⟩],
         none⟩]

def c2cexSt : VState :=
  ⟨[("/dev/sda1", TYPE_PART)],
   [("/dev/sda1", [[⟨"/dev/sda1", TYPE_PV⟩]])],
   []⟩

def c2cexOut : VState :=
  ⟨[],
   [("/dev/sda1", [[]])],
   [[⟨"/dev/sda1", TYPE_UNKNOWN⟩, ⟨"/dev/sda1", TYPE_PV⟩, ⟨"/dev/vg1", TYPE_VG⟩],
    [⟨"/dev/sda1", TYPE_PV⟩, ⟨"/dev/vg2", TYPE_VG⟩]]⟩

def c4cexDms : List Dm :=
  [.lvm ⟨none, none, some [⟨"a", "v", some "1G"⟩, ⟨"b", "v", some "zzz"⟩]⟩]

def c5cexM : Manifest :=
  ⟨none,
   some [.lvm ⟨some ["/dev/sda1"], some [⟨"myvg", ["/dev/sda1"]⟩],
               some [⟨"mylv", "myvg", none⟩]⟩],
   mkFs "/dev/myvg/mylv", none, none⟩

def c5cexFr : List (String × BlockDevType) :=
  [("/dev/sda1", TYPE_PART), ("/dev/myvg", TYPE_PART)]

def c5cexSt : VState :=
  ⟨[("/dev/myvg", TYPE_PART)],
   [],
   [[⟨"/dev/sda1", TYPE_UNKNOWN⟩, ⟨"/dev/sda1", TYPE_PV⟩, ⟨"/dev/myvg", TYPE_VG⟩],
    [⟨"/dev/sda1", TYPE_UNKNOWN⟩, ⟨"/dev/sda1", TYPE_PV⟩, ⟨"/dev/myvg", TYPE_VG⟩,
     ⟨"/dev/myvg/mylv", TYPE_LV⟩]]⟩

def c6cexLuks : ManifestLuks := ⟨"crypt", "/dev/sdx1"⟩

def c6cexSys : List (String × BlockDevPaths) :=
  [("/dev/q", [[⟨"/dev/sdx1", TYPE_PART⟩]])]

def c8cexM : Manifest :=
  ⟨some [⟨"/dev/sda", .gpt, []⟩], none, mkFs "/dev/x", none, none⟩

/-- A one-disk, one-partition manifest that the validator accepts on a
fresh system. -/
def c1wM : Manifest :=
  ⟨some [⟨"/dev/sda", .gpt, [⟨"root", none, "linux"⟩]⟩], none,
    mkFs "/dev/sda1", none, none⟩

/-- Every path of every sys_lvms entry is well-typed. -/
def sysWT (sys : List (String × BlockDevPaths)) : Prop :=
  ∀ kv ∈ sys, ∀ p ∈ kv.2, wellTyped p = true

/-- Every path of the manifest store is well-typed. -/
def validsWT (v : BlockDevPaths) : Prop :=
  ∀ p ∈ v, wellTyped p = true

/-- No store path's tip device is a key of the fs-ready map. -/
def tipsFree (fr : List (String × BlockDevType)) (v : BlockDevPaths) : Prop :=
  ∀ p ∈ v, ∀ tm, p.getLast? = some tm → lookupS fr tm.device = none

/-- Every key of fr is a key of fr0 (the map only ever shrinks). -/
def keysSub (fr fr0 : List (String × BlockDevType)) : Prop :=
  ∀ x, lookupS fr x ≠ none → lookupS fr0 x ≠ none

/-
Generic loop lemmas.
-/

/-- A property preserved by every successful step of a loop holds at the end
of a successful run. -/
theorem foldE_inv_mem {σ α : Type} (f : σ → α → Except VErr σ) (P : σ → Prop) :
    ∀ (l : List α), (∀ s b s', b ∈ l → P s → f s b = .ok s' → P s') →
      ∀ s s', P s → foldE f s l = .ok s' → P s' := by
  intro l
  induction l with
  | nil =>
    intro _ s s' hP h
    simp only [foldE] at h
    cases h
    exact hP
  | cons b t ih =>
    intro hpres s s' hP h
    simp only [foldE] at h
    cases hfb : f s b with
    | error e => rw [hfb] at h; cases h
    | ok s2 =>
      rw [hfb] at h
      exact ih (fun s a s' ha => hpres s a s' (List.mem_cons_of_mem b ha)) s2 s'
        (hpres s b s2 (List.mem_cons_self b t) hP hfb) h

/-- If some loop element always fails under an invariant that every earlier
successful step preserves, the whole loop fails. -/
theorem foldE_error_of_mem {σ α : Type} (f : σ → α → Except VErr σ) (P : σ → Prop)
    (a : α) :
    ∀ (l : List α), a ∈ l →
      (∀ s b s', b ∈ l → P s → f s b = .ok s' → P s') →
      (∀ s, P s → ∃ e, f s a = .error e) →
      ∀ s, P s → ∃ e, foldE f s l = .error e := by
  intro l
  induction l with
  | nil => intro ha; cases ha
  | cons b t ih =>
    intro ha hpres hfail s hP
    rcases List.mem_cons.mp ha with hab | hat
    · subst hab
      rcases hfail s hP with ⟨e, he⟩
      exact ⟨e, by simp only [foldE, he]⟩
    · cases hfb : f s b with
      | error e => exact ⟨e, by simp only [foldE, hfb]⟩
      | ok s2 =>
        rcases ih hat (fun s a s' ha' => hpres s a s' (List.mem_cons_of_mem b ha'))
          hfail s2 (hpres s b s2 (List.mem_cons_self b t) hP hfb) with ⟨e, he⟩
        exact ⟨e, by simp only [foldE, hfb, he]⟩

/-
C3: fs and swap consumption.
-/

theorem check_fs_list_eq_consume : ∀ (l : List ManifestFs) (s : List String),
    check_fs_list s l = consumeE fs_fail_msg s (l.map ManifestFs.device) := by
  intro l
  induction l with
  | nil => intro s; rfl
  | cons f t ih =>
    intro s
    simp only [check_fs_list, consumeE, List.map_cons, fs_fail_msg]
    by_cases h : f.device ∈ s <;> simp [h, ih]

theorem check_swap_list_eq_consume : ∀ (l : List String) (s : List String),
    check_swap_list s l = consumeE swap_fail_msg s l := by
  intro l
  induction l with
  | nil => intro s; rfl
  | cons d t ih =>
    intro s
    simp only [check_swap_list, consumeE, swap_fail_msg]
    by_cases h : d ∈ s <;> simp [h, ih]

theorem consumeE_char (msgf : String → VErr) : ∀ (l s r : List String),
    consumeE msgf s l = .ok r ↔
      (l.Nodup ∧ (∀ d ∈ l, d ∈ s) ∧ r = s.filter (fun x => x ∉ l)) := by
  intro l
  induction l with
  | nil =>
    intro s r
    simp [consumeE, eq_comm]
  | cons d t ih =>
    intro s r
    by_cases hd : d ∈ s
    · rw [show consumeE msgf s (d :: t) = consumeE msgf (s.filter (fun x => x ≠ d)) t by
        simp [consumeE, hd]]
      rw [ih]
      have hmem : ∀ x : String, x ∈ s.filter (fun y => y ≠ d) ↔ (x ∈ s ∧ x ≠ d) := by
        intro x; simp [List.mem_filter]
      have hff : (s.filter (fun y => y ≠ d)).filter (fun x => x ∉ t) =
          s.filter (fun x => x ∉ d :: t) := by
        rw [List.filter_filter]
        apply List.filter_congr
        intro x _
        by_cases h1 : x = d <;> by_cases h2 : x ∈ t <;> simp [h1, h2]
      constructor
      · rintro ⟨h1, h2, h3⟩
        refine ⟨List.nodup_cons.mpr ⟨fun hdt => ((hmem d).mp (h2 d hdt)).2 rfl, h1⟩,
          ?_, by rw [h3, hff]⟩
        intro x hx
        rcases List.mem_cons.mp hx with hxd | hxt
        · exact hxd ▸ hd
        · exact ((hmem x).mp (h2 x hxt)).1
      · rintro ⟨h1, h2, h3⟩
        rcases List.nodup_cons.mp h1 with ⟨hdn, htn⟩
        refine ⟨htn, ?_, by rw [h3, hff]⟩
        intro x hx
        exact (hmem x).mpr ⟨h2 x (List.mem_cons_of_mem d hx),
          fun hxd => hdn (hxd ▸ hx)⟩
    · constructor
      · intro h
        exact absurd h (by simp [consumeE, hd])
      · rintro ⟨_, h2, _⟩
        exact absurd (h2 d (List.mem_cons_self d t)) hd

theorem consumeE_err (msgf : String → VErr) : ∀ (l s : List String) (e : VErr),
    consumeE msgf s l = .error e → ∃ d, e = msgf d := by
  intro l
  induction l with
  | nil => intro s e h; simp [consumeE] at h
  | cons d t ih =>
    intro s e h
    by_cases hd : d ∈ s
    · exact ih _ e (by simpa [consumeE, hd] using h)
    · exact ⟨d, by simpa [consumeE, hd, eq_comm] using h⟩

theorem check_fs_declarations_eq :
    ∀ (s : List String) (root : String) (fss : List ManifestFs) (swaps : List String),
      check_fs_declarations s root fss swaps =
        if root ∈ s then
          exBind (consumeE fs_fail_msg (s.filter (fun d => d ≠ root))
              (fss.map ManifestFs.device)) (fun s2 =>
            exBind (consumeE swap_fail_msg s2 swaps) (fun _ => .ok ()))
        else
          .error (.badManifest
            ("rootfs validation failed: no top-level fs-ready device for rootfs: " ++ root)) := by
  intro s root fss swaps
  by_cases hr : root ∈ s
  · simp only [check_fs_declarations, hr, if_pos, not_true_eq_false, if_neg,
      check_fs_list_eq_consume, check_swap_list_eq_consume]
    cases consumeE fs_fail_msg (s.filter (fun d => d ≠ root)) (fss.map ManifestFs.device) with
    | error e => simp [exBind]
    | ok s2 =>
      simp only [exBind]
      cases consumeE swap_fail_msg s2 swaps with
      | error e => simp [exBind]
      | ok s3 => simp [exBind]
  · simp [check_fs_declarations, hr]
theorem nodup_root_split (root : String) (A B : List String) :
    (root :: (A ++ B)).Nodup ↔
      (root ∉ A ∧ root ∉ B ∧ A.Nodup ∧ B.Nodup ∧ ∀ x ∈ A, x ∉ B) := by
  simp [List.nodup_cons, List.nodup_append, List.disjoint_left]
  tauto

/-- C3: rootfs.device, every filesystems device and every swap device must
each be present in the computed fs-ready tip set and is removed once
matched, so the stage succeeds exactly when these declarations are pairwise
distinct and all present; surviving tips cause no error, and every failure
of this stage is a BadManifest. -/
theorem c3_fs_swap_consumption :
    ∀ (s : List String) (root : String) (fss : List ManifestFs) (swaps : List String),
      (check_fs_declarations s root fss swaps = .ok () ↔
        ((root :: (fss.map ManifestFs.device ++ swaps)).Nodup ∧
          ∀ d ∈ root :: (fss.map ManifestFs.device ++ swaps), d ∈ s)) ∧
      (∀ e, check_fs_declarations s root fss swaps = .error e →
        ∃ msg, e = .badManifest msg) := by
  intro s root fss swaps
  rw [check_fs_declarations_eq]
  have hmem1 : ∀ x : String,
      x ∈ s.filter (fun d => d ≠ root) ↔ (x ∈ s ∧ x ≠ root) := by
    intro x; simp [List.mem_filter]
  by_cases hr : root ∈ s
  · rw [if_pos hr]
    cases hfs : consumeE fs_fail_msg (s.filter (fun d => d ≠ root))
        (fss.map ManifestFs.device) with
    | error e2 =>
      simp only [exBind]
      refine ⟨⟨(fun h => by simp at h), ?_⟩, fun e he => ?_⟩
      · rintro ⟨h1, h2⟩
        rcases (nodup_root_split root _ _).mp h1 with ⟨ha, _, hA, _, _⟩
        have : consumeE fs_fail_msg (s.filter (fun d => d ≠ root))
            (fss.map ManifestFs.device) =
            .ok ((s.filter (fun d => d ≠ root)).filter
              (fun x => x ∉ fss.map ManifestFs.device)) := by
          rw [consumeE_char]
          refine ⟨hA, ?_, rfl⟩
          intro d hd
          exact (hmem1 d).mpr ⟨h2 d (by simp [hd]), fun hdr => ha (hdr ▸ hd)⟩
        rw [this] at hfs
        cases hfs
      · injection he with h
        subst h
        rcases consumeE_err _ _ _ _ hfs with ⟨d, hd⟩
        exact ⟨_, by rw [hd]; rfl⟩
    | ok s2 =>
      rcases (consumeE_char fs_fail_msg _ _ _).mp hfs with ⟨hn1, hs1, hr1⟩
      simp only [exBind]
      cases hsw : consumeE swap_fail_msg s2 swaps with
      | error e3 =>
        simp only [exBind]
        refine ⟨⟨(fun h => by simp at h), ?_⟩, fun e he => ?_⟩
        · rintro ⟨h1, h2⟩
          rcases (nodup_root_split root _ _).mp h1 with ⟨ha, hb, _, hB, hAB⟩
          have : consumeE swap_fail_msg s2 swaps =
              .ok (s2.filter (fun x => x ∉ swaps)) := by
            rw [consumeE_char]
            refine ⟨hB, ?_, rfl⟩
            intro d hd
            rw [hr1]
            simp only [List.mem_filter, decide_eq_true_eq]
            refine ⟨?_, fun hdf => hAB d hdf hd⟩
            have hds : d ∈ s ∧ d ≠ root :=
              ⟨h2 d (by simp [hd]), fun hdr => hb (hdr ▸ hd)⟩
            simpa [List.mem_filter] using (hmem1 d).mpr hds
          rw [this] at hsw
          cases hsw
        · injection he with h
          subst h
          rcases consumeE_err _ _ _ _ hsw with ⟨d, hd⟩
          exact ⟨_, by rw [hd]; rfl⟩
      | ok s3 =>
        simp only [exBind]
        rcases (consumeE_char swap_fail_msg _ _ _).mp hsw with ⟨hn2, hs2, _⟩
        refine ⟨⟨fun _ => ?_, fun _ => trivial⟩, fun e he => by simp at he⟩
        have hfsub : ∀ d ∈ fss.map ManifestFs.device, d ∈ s ∧ d ≠ root := by
          intro d hd
          exact (hmem1 d).mp (hs1 d hd)
        have hssub : ∀ d ∈ swaps,
            (d ∈ s ∧ d ≠ root) ∧ d ∉ fss.map ManifestFs.device := by
          intro d hd
          have := hs2 d hd
          rw [hr1] at this
          simp only [List.mem_filter, decide_eq_true_eq] at this
          exact ⟨this.1, this.2⟩
        constructor
        · rw [nodup_root_split]
          exact ⟨fun h => (hfsub root h).2 rfl, fun h => ((hssub root h).1).2 rfl,
            hn1, hn2, fun x hx hxB => (hssub x hxB).2 hx⟩
        · intro d hd
          rcases List.mem_cons.mp hd with h | h
          · exact h ▸ hr
          · rcases List.mem_append.mp h with h | h
            · exact (hfsub d h).1
            · exact ((hssub d h).1).1
  · rw [if_neg hr]
    refine ⟨⟨(fun h => by simp at h), ?_⟩, fun e he => ?_⟩
    · rintro ⟨_, h2⟩
      exact absurd (h2 root (List.mem_cons_self _ _)) hr
    · injection he with h
      subst h
      exact ⟨_, rfl⟩

/-
C7 and C10: the disk stage.
-/

theorem part_name_eq (device : String) (i : Nat) :
    partNameBase device ++ toString i = claim_part_name device i := by
  by_cases h : (substrOf "nvme" device || substrOf "mmcblk" device) = true <;>
    simp [partNameBase, claim_part_name, h, String.append_assoc]

/-- A loop whose every successful step appends one derived element produces
exactly the mapped list on success. -/
theorem foldE_appender {β α : Type} (b : List β → α → Except VErr (List β))
    (g : α → β)
    (hb : ∀ acc i r, b acc i = .ok r → r = acc ++ [g i]) :
    ∀ (idx : List α) (acc r : List β),
      foldE b acc idx = .ok r → r = acc ++ idx.map g := by
  intro idx
  induction idx with
  | nil =>
    intro acc r h
    simp only [foldE] at h
    cases h
    simp
  | cons i t ih =>
    intro acc r h
    simp only [foldE] at h
    cases hstep : b acc i with
    | error e => rw [hstep] at h; cases h
    | ok s2 =>
      rw [hstep] at h
      rw [hb acc i s2 hstep] at h
      have := ih (acc ++ [g i]) r h
      simpa [List.append_assoc] using this

/-- A loop whose every step on the given index list takes the appending
branch succeeds with exactly the mapped list. -/
theorem foldE_appender_ok {β α : Type} (b : List β → α → Except VErr (List β))
    (g : α → β) (idx : List α)
    (hb : ∀ acc, ∀ i ∈ idx, b acc i = .ok (acc ++ [g i])) :
    ∀ acc, foldE b acc idx = .ok (acc ++ idx.map g) := by
  induction idx with
  | nil => intro acc; simp [foldE]
  | cons i t ih =>
    intro acc
    have h1 := hb acc i (List.mem_cons_self i t)
    simp only [foldE, h1]
    have := ih (fun acc j hj => hb acc j (List.mem_cons_of_mem i hj)) (acc ++ [g i])
    simpa [List.append_assoc] using this

/-- C7: a manifest disk that passes the disk stage contributes exactly one
Disk-then-Partition path per declared partition, the partition names
following the nvme and mmcblk naming rule, 1-indexed. -/
theorem c7_disk_partition_paths (d : ManifestDisk) (hostFiles : List String)
    (sys_fs_devs sys_fs_ready : List (String × BlockDevType))
    (valids v2 : BlockDevPaths)
    (h : validate_one_disk hostFiles sys_fs_devs sys_fs_ready valids d = .ok v2) :
    v2 = valids ++ claim_disk_paths d := by
  by_cases hdev : d.device ∈ hostFiles
  · rw [show validate_one_disk hostFiles sys_fs_devs sys_fs_ready valids d =
        foldE (fun v i =>
          let partition_name := partNameBase d.device ++ toString (i + 1)
          if (lookupS sys_fs_ready partition_name).isSome then
            .error (.badManifest
              ("partition validation failed: partition " ++ partition_name ++
                " already exists on system"))
          else if (lookupS sys_fs_devs partition_name).isSome then
            .error (.badManifest
              ("partition validation failed: partition " ++ partition_name ++
                " is already used"))
          else .ok (v ++ [[⟨d.device, TYPE_DISK⟩] ++ [⟨partition_name, TYPE_PART⟩]]))
          valids (List.range d.partitions.length) by
        simp [validate_one_disk, hdev]] at h
    have := foldE_appender _ (fun i =>
        [⟨d.device, TYPE_DISK⟩, ⟨claim_part_name d.device (i + 1), TYPE_PART⟩])
      (by
        intro acc i r hr
        by_cases h1 : (lookupS sys_fs_ready (partNameBase d.device ++ toString (i + 1))).isSome
        · simp [h1] at hr
        · by_cases h2 : (lookupS sys_fs_devs (partNameBase d.device ++ toString (i + 1))).isSome
          · simp [h1, h2] at hr
          · simp only [h1, h2, Bool.false_eq_true, if_false, Except.ok.injEq] at hr
            subst hr
            simp only [← part_name_eq]
            rfl)
      (List.range d.partitions.length) valids v2 h
    rw [this]
    rfl
  · exact absurd h (by simp [validate_one_disk, hdev])

/-- C10: the disk stage never consults the maps about the disk device
itself; whenever the device file exists and every synthesized partition name
is absent from both maps, the stage succeeds and emits exactly the partition
paths, no matter what the maps say about the disk device. -/
theorem c10_disk_ignores_own_device (d : ManifestDisk) (hostFiles : List String)
    (sys_fs_devs sys_fs_ready : List (String × BlockDevType))
    (valids : BlockDevPaths)
    (hdev : d.device ∈ hostFiles)
    (hparts : ∀ i, i < d.partitions.length →
      lookupS sys_fs_ready (claim_part_name d.device (i + 1)) = none ∧
      lookupS sys_fs_devs (claim_part_name d.device (i + 1)) = none) :
    validate_one_disk hostFiles sys_fs_devs sys_fs_ready valids d =
      .ok (valids ++ claim_disk_paths d) := by
  rw [show validate_one_disk hostFiles sys_fs_devs sys_fs_ready valids d =
      foldE (fun v i =>
        let partition_name := partNameBase d.device ++ toString (i + 1)
        if (lookupS sys_fs_ready partition_name).isSome then
          .error (.badManifest
            ("partition validation failed: partition " ++ partition_name ++
              " already exists on system"))
        else if (lookupS sys_fs_devs partition_name).isSome then
          .error (.badManifest
            ("partition validation failed: partition " ++ partition_name ++
              " is already used"))
        else .ok (v ++ [[⟨d.device, TYPE_DISK⟩] ++ [⟨partition_name, TYPE_PART⟩]]))
        valids (List.range d.partitions.length) by
      simp [validate_one_disk, hdev]]
  exact foldE_appender_ok
    (fun v i =>
      let partition_name := partNameBase d.device ++ toString (i + 1)
      if (lookupS sys_fs_ready partition_name).isSome then
        .error (.badManifest
          ("partition validation failed: partition " ++ partition_name ++
            " already exists on system"))
      else if (lookupS sys_fs_devs partition_name).isSome then
        .error (.badManifest
          ("partition validation failed: partition " ++ partition_name ++
            " is already used"))
      else .ok (v ++ [[⟨d.device, TYPE_DISK⟩] ++ [⟨partition_name, TYPE_PART⟩]]))
    (fun i =>
      [⟨d.device, TYPE_DISK⟩, ⟨claim_part_name d.device (i + 1), TYPE_PART⟩])
    (List.range d.partitions.length)
    (by
      intro acc i hi
      have hlt : i < d.partitions.length := List.mem_range.mp hi
      rcases hparts i hlt with ⟨h1, h2⟩
      have e1 : lookupS sys_fs_ready (partNameBase d.device ++ toString (i + 1)) = none := by
        rw [part_name_eq]; exact h1
      have e2 : lookupS sys_fs_devs (partNameBase d.device ++ toString (i + 1)) = none := by
        rw [part_name_eq]; exact h2
      simp only [e1, e2, Option.isSome_none, Bool.false_eq_true, if_false]
      simp only [← part_name_eq]
      rfl) valids

/-
C8: a missing disk device.
-/

/-- C8 counterexample: a manifest whose disk device does not exist on the
host is rejected with BadManifest, not with NoSuchDevice as the claim
states. -/
theorem c8_counterexample :
    validate_blk c8cexM [] [] [] [] =
      .error (.badManifest "no such disk device: /dev/sda") ∧
    ∀ p : String, validate_blk c8cexM [] [] [] [] ≠ .error (.noSuchDevice p) := by
  have h : validate_blk c8cexM [] [] [] [] =
      .error (.badManifest "no such disk device: /dev/sda") := by decide
  refine ⟨h, ?_⟩
  intro p hp
  rw [h] at hp
  exact VErr.noConfusion (Except.error.inj hp)

/-- C8 amended: a manifest containing a disk whose device path does not
exist on the host is always rejected (the first failing check produces
BadManifest naming the device, as the counterexample shows). -/
theorem c8_missing_disk_rejected (m : Manifest) (hostFiles : List String)
    (sys_fs_devs sys_fs_ready : List (String × BlockDevType))
    (sys_lvms : List (String × BlockDevPaths))
    (h : ∃ d ∈ m.disks.getD [], d.device ∉ hostFiles) :
    ∃ e, validate_blk m hostFiles sys_fs_devs sys_fs_ready sys_lvms = .error e := by
  rcases h with ⟨d, hd, hdev⟩
  rcases foldE_error_of_mem (validate_one_disk hostFiles sys_fs_devs sys_fs_ready)
      (fun _ => True) d (m.disks.getD []) hd
      (fun _ _ _ _ _ _ => trivial)
      (fun s _ => ⟨.badManifest ("no such disk device: " ++ d.device),
        by simp [validate_one_disk, hdev]⟩)
      [] trivial with ⟨e, he⟩
  exact ⟨e, by simp [validate_blk, he]⟩

/-
C6: the LUKS validator on malformed sys_lvms paths.
-/

theorem luks_find_vg_paths_none (msg base : String) :
    ∀ (ps : BlockDevPaths),
      (∀ p ∈ ps, ∀ tm, p.getLast? = some tm → tm.device ≠ base) →
      luks_find_vg_paths msg base ps = .ok none := by
  intro ps
  induction ps with
  | nil => intro _; rfl
  | cons p t ih =>
    intro hno
    cases hlast : p.getLast? with
    | none =>
      simp only [luks_find_vg_paths, hlast]
      exact ih (fun q hq => hno q (List.mem_cons_of_mem p hq))
    | some tm =>
      have : tm.device ≠ base := hno p (List.mem_cons_self p t) tm hlast
      simp only [luks_find_vg_paths, hlast, this, ne_eq, not_false_eq_true, if_true]
      exact ih (fun q hq => hno q (List.mem_cons_of_mem p hq))

theorem luks_find_vg_paths_rsbug (msg base : String) :
    ∀ (ps : BlockDevPaths),
      (∀ p ∈ ps, ∀ tm, p.getLast? = some tm → tm.device = base →
        (is_luks_base tm.device_type = true ∧
          ∃ v, secondFromLast p = some v ∧ v.device_type ≠ TYPE_VG)) →
      (∃ p ∈ ps, ∃ tm, p.getLast? = some tm ∧ tm.device = base) →
      luks_find_vg_paths msg base ps =
        .error (.rsBug (msg ++ ": unexpected device type - expecting a VG")) := by
  intro ps
  induction ps with
  | nil =>
    rintro _ ⟨p, hp, _⟩
    cases hp
  | cons p t ih =>
    rintro hall hex
    cases hlast : p.getLast? with
    | none =>
      simp only [luks_find_vg_paths, hlast]
      apply ih (fun q hq => hall q (List.mem_cons_of_mem p hq))
      rcases hex with ⟨q, hq, tm, htm, hdev⟩
      rcases List.mem_cons.mp hq with hqp | hqt
      · subst hqp; rw [hlast] at htm; cases htm
      · exact ⟨q, hqt, tm, htm, hdev⟩
    | some tm =>
      by_cases htm : tm.device = base
      · rcases hall p (List.mem_cons_self p t) tm hlast htm with ⟨hl, v, hv, hvt⟩
        simp only [luks_find_vg_paths, hlast, htm, ne_eq, not_true_eq_false, if_false,
          hl, Bool.not_true, Bool.false_eq_true, hv, hvt, not_false_eq_true, if_true]
      · simp only [luks_find_vg_paths, hlast, htm, ne_eq, not_false_eq_true, if_true]
        apply ih (fun q hq => hall q (List.mem_cons_of_mem p hq))
        rcases hex with ⟨q, hq, tm2, htm2, hdev2⟩
        rcases List.mem_cons.mp hq with hqp | hqt
        · subst hqp; rw [hlast] at htm2; cases htm2
          exact absurd hdev2 htm
        · exact ⟨q, hqt, tm2, htm2, hdev2⟩

theorem luks_find_vg_rsbug (msg base : String) :
    ∀ (sys : List (String × BlockDevPaths)),
      (∀ kv ∈ sys, ∀ p ∈ kv.2, ∀ tm, p.getLast? = some tm → tm.device = base →
        (is_luks_base tm.device_type = true ∧
          ∃ v, secondFromLast p = some v ∧ v.device_type ≠ TYPE_VG)) →
      (∃ kv ∈ sys, ∃ p ∈ kv.2, ∃ tm, p.getLast? = some tm ∧ tm.device = base) →
      luks_find_vg msg base sys =
        .error (.rsBug (msg ++ ": unexpected device type - expecting a VG")) := by
  intro sys
  induction sys with
  | nil =>
    rintro _ ⟨kv, hkv, _⟩
    cases hkv
  | cons kv t ih =>
    rintro hall hex
    by_cases hent : ∃ p ∈ kv.2, ∃ tm, p.getLast? = some tm ∧ tm.device = base
    · have := luks_find_vg_paths_rsbug msg base kv.2
        (fun p hp => hall kv (List.mem_cons_self kv t) p hp) hent
      obtain ⟨k1, ps1⟩ := kv
      simp only [luks_find_vg, this]
    · have hnone : luks_find_vg_paths msg base kv.2 = .ok none := by
        apply luks_find_vg_paths_none
        intro p hp tm htm hdev
        exact hent ⟨p, hp, tm, htm, hdev⟩
      obtain ⟨k1, ps1⟩ := kv
      simp only [luks_find_vg, hnone]
      apply ih (fun kv2 hkv2 => hall kv2 (List.mem_cons_of_mem _ hkv2))
      rcases hex with ⟨kv2, hkv2, hrest⟩
      rcases List.mem_cons.mp hkv2 with hk | hk
      · exact absurd (hk ▸ hrest) hent
      · exact ⟨kv2, hk, hrest⟩

/-- C6 counterexample: on a sys_lvms path of length 1 whose tip matches the
LUKS base and is a legal LUKS base kind, the validator panics (expect: no vg
after 2 pops) instead of returning the internal-bug error as a value. -/
theorem c6_counterexample :
    collect_valid_luks c6cexLuks [] [] [] c6cexSys [] =
      .error (.panik "no vg after 2 pops") ∧
    is_luks_base TYPE_PART = true ∧
    ∀ s : String, collect_valid_luks c6cexLuks [] [] [] c6cexSys [] ≠
      .error (.rsBug s) := by
  have h : collect_valid_luks c6cexLuks [] [] [] c6cexSys [] =
      .error (.panik "no vg after 2 pops") := by decide
  refine ⟨h, by decide, ?_⟩
  intro s hs
  rw [h] at hs
  exact VErr.noConfusion (Except.error.inj hs)

/-- C6 amended: when every sys_lvms path whose tip matches the LUKS base and
passes the LUKS-base kind check has at least two nodes and a non-VG
second-to-last node, and at least one such path exists, the validator
returns the internal-bug error as a value; but on a matching path of length
1 it panics instead (see the counterexample). -/
theorem c6_luks_internal_bug (luks : ManifestLuks) (hostFiles : List String)
    (sys_fs_devs sys_fs_ready : List (String × BlockDevType))
    (sys_lvms : List (String × BlockDevPaths)) (valids : BlockDevPaths)
    (hp : ("/dev/mapper/" ++ luks.name) ∉ hostFiles)
    (hd : lookupS sys_fs_devs luks.device = none)
    (hall : ∀ kv ∈ sys_lvms, ∀ p ∈ kv.2, ∀ tm, p.getLast? = some tm →
      tm.device = luks.device →
      (is_luks_base tm.device_type = true ∧
        ∃ v, secondFromLast p = some v ∧ v.device_type ≠ TYPE_VG))
    (hex : ∃ kv ∈ sys_lvms, ∃ p ∈ kv.2, ∃ tm, p.getLast? = some tm ∧
      tm.device = luks.device) :
    collect_valid_luks luks hostFiles sys_fs_devs sys_fs_ready sys_lvms valids =
      .error (.rsBug
        ("dm luks validation failed: unexpected device type - expecting a VG")) := by
  have hfind := luks_find_vg_rsbug "dm luks validation failed" luks.device
    sys_lvms hall hex
  simp only [collect_valid_luks, hp, hd, Option.isSome_none, Bool.false_eq_true,
    if_false, hfind]
  rfl

theorem c3_witness :
    check_fs_declarations ["/dev/sda1", "/dev/sdb1"] "/dev/sda1" [mkFs "/dev/sdb1"] [] =
      .ok () :=
  (c3_fs_swap_consumption ["/dev/sda1", "/dev/sdb1"] "/dev/sda1"
    [mkFs "/dev/sdb1"] []).1.mpr ⟨by decide, by decide⟩

theorem c7_witness :
    [[⟨"/dev/nvme0n1", TYPE_DISK⟩, ⟨"/dev/nvme0n1p1", TYPE_PART⟩]] =
      ([] : BlockDevPaths) ++ claim_disk_paths ⟨"/dev/nvme0n1", .gpt, [⟨"efi", some "500M", "ef"⟩]⟩ :=
  c7_disk_partition_paths ⟨"/dev/nvme0n1", .gpt, [⟨"efi", some "500M", "ef"⟩]⟩
    ["/dev/nvme0n1"] [] [] []
    [[⟨"/dev/nvme0n1", TYPE_DISK⟩, ⟨"/dev/nvme0n1p1", TYPE_PART⟩]] (by decide)

theorem c10_witness :
    validate_one_disk ["/dev/sda"] [("/dev/sda", BlockDevType.fs "btrfs")] [] []
      ⟨"/dev/sda", .gpt, [⟨"p1", none, "8e"⟩]⟩ =
      .ok (([] : BlockDevPaths) ++ claim_disk_paths ⟨"/dev/sda", .gpt, [⟨"p1", none, "8e"⟩]⟩) :=
  c10_disk_ignores_own_device ⟨"/dev/sda", .gpt, [⟨"p1", none, "8e"⟩]⟩ ["/dev/sda"]
    [("/dev/sda", BlockDevType.fs "btrfs")] [] [] (by decide)
    (by
      intro i hi
      have h0 : i = 0 := Nat.lt_one_iff.mp hi
      subst h0
      exact ⟨by decide, by decide⟩)

theorem c8_witness :
    ∃ e, validate_blk c8cexM [] [] [] [] = .error e :=
  c8_missing_disk_rejected c8cexM [] [] [] []
    ⟨⟨"/dev/sda", .gpt, []⟩, by decide, by decide⟩

theorem c6_witness :
    collect_valid_luks ⟨"c", "b"⟩ [] [] []
      [("q", [[⟨"x", TYPE_PV⟩, ⟨"b", TYPE_PART⟩]])] [] =
      .error (.rsBug "dm luks validation failed: unexpected device type - expecting a VG") :=
  c6_luks_internal_bug ⟨"c", "b"⟩ [] [] []
    [("q", [[⟨"x", TYPE_PV⟩, ⟨"b", TYPE_PART⟩]])] []
    (by decide) (by decide)
    (by
      intro kv hkv p hp tm htm hdev
      simp only [List.mem_singleton] at hkv
      subst hkv
      simp only [List.mem_singleton] at hp
      subst hp
      simp only [List.getLast?_cons_cons, List.getLast?_singleton, Option.some.injEq] at htm
      subst htm
      exact ⟨by decide, ⟨"x", TYPE_PV⟩, by decide, by decide⟩)
    ⟨("q", [[⟨"x", TYPE_PV⟩, ⟨"b", TYPE_PART⟩]]), by decide,
      [⟨"x", TYPE_PV⟩, ⟨"b", TYPE_PART⟩], by decide,
      ⟨"b", TYPE_PART⟩, by decide, by decide⟩

/-
C4: the last-LV-unsized rule.
-/

theorem lvs_fold_ok_of_parse :
    ∀ (lvs : List ManifestLvmLv) (acc : List (String × List ManifestLvmLv)),
      (∀ lv ∈ lvs, ∀ sz, lv.size = some sz → parse_human_bytes sz = .ok ()) →
      foldE (fun m lv =>
          match lv.size with
          | some sz =>
            match parse_human_bytes sz with
            | .error _ => .error (.badManifest ("bad lv size " ++ sz))
            | .ok _ => .ok (vg_lvs_insert m lv.vg lv)
          | none => .ok (vg_lvs_insert m lv.vg lv)) acc lvs =
        .ok (lvs.foldl (fun m lv => vg_lvs_insert m lv.vg lv) acc) := by
  intro lvs
  induction lvs with
  | nil => intro acc _; rfl
  | cons lv t ih =>
    intro acc hp
    cases hsz : lv.size with
    | none =>
      simp only [foldE, hsz, List.foldl_cons]
      exact ih _ (fun q hq => hp q (List.mem_cons_of_mem lv hq))
    | some sz =>
      have := hp lv (List.mem_cons_self lv t) sz hsz
      simp only [foldE, hsz, this, List.foldl_cons]
      exact ih _ (fun q hq => hp q (List.mem_cons_of_mem lv hq))

theorem lvs_fold_err_of_notparse :
    ∀ (lvs : List ManifestLvmLv) (acc : List (String × List ManifestLvmLv)),
      (∃ lv ∈ lvs, ∃ sz, lv.size = some sz ∧ parse_human_bytes sz ≠ .ok ()) →
      ∃ sz, parse_human_bytes sz ≠ .ok () ∧
        foldE (fun m lv =>
            match lv.size with
            | some sz =>
              match parse_human_bytes sz with
              | .error _ => .error (.badManifest ("bad lv size " ++ sz))
              | .ok _ => .ok (vg_lvs_insert m lv.vg lv)
            | none => .ok (vg_lvs_insert m lv.vg lv)) acc lvs =
          .error (.badManifest ("bad lv size " ++ sz)) := by
  intro lvs
  induction lvs with
  | nil =>
    rintro acc ⟨lv, hlv, _⟩
    cases hlv
  | cons lv t ih =>
    rintro acc ⟨q, hq, sz, hsz, hbad⟩
    cases hszl : lv.size with
    | none =>
      have hqt : q ∈ t := by
        rcases List.mem_cons.mp hq with h | h
        · subst h; rw [hszl] at hsz; cases hsz
        · exact h
      rcases ih (vg_lvs_insert acc lv.vg lv) ⟨q, hqt, sz, hsz, hbad⟩ with ⟨sz2, h1, h2⟩
      exact ⟨sz2, h1, by simp only [foldE, hszl, h2]⟩
    | some szl =>
      cases hpl : parse_human_bytes szl with
      | error e =>
        refine ⟨szl, ?_, by simp only [foldE, hszl, hpl]⟩
        rw [hpl]
        intro hx
        cases hx
      | ok u =>
        rcases List.mem_cons.mp hq with h | hqt
        · subst h
          rw [hszl] at hsz
          cases hsz
          cases u
          exact absurd hpl hbad
        · rcases ih (vg_lvs_insert acc lv.vg lv) ⟨q, hqt, sz, hsz, hbad⟩ with ⟨sz2, h1, h2⟩
          cases u
          exact ⟨sz2, h1, by simp only [foldE, hszl, hpl, h2]⟩

theorem collect_vg_lvs_ok_of_parse :
    ∀ (dms : List Dm) (acc : List (String × List ManifestLvmLv)),
      (∀ lv ∈ manifest_lvs dms, ∀ sz, lv.size = some sz → parse_human_bytes sz = .ok ()) →
      collect_vg_lvs acc dms =
        .ok ((manifest_lvs dms).foldl (fun m lv => vg_lvs_insert m lv.vg lv) acc) := by
  intro dms
  induction dms with
  | nil => intro acc _; rfl
  | cons d t ih =>
    intro acc hp
    cases d with
    | luks l =>
      simp only [collect_vg_lvs]
      have : manifest_lvs (Dm.luks l :: t) = manifest_lvs t := by
        simp [manifest_lvs]
      rw [this] at hp ⊢
      exact ih acc hp
    | lvm lvm =>
      have hml : manifest_lvs (Dm.lvm lvm :: t) = lvm.lvs.getD [] ++ manifest_lvs t := by
        simp [manifest_lvs]
      cases hlvs : lvm.lvs with
      | none =>
        simp only [collect_vg_lvs, hlvs]
        rw [hml, hlvs] at hp ⊢
        simpa using ih acc (by simpa using hp)
      | some lvs =>
        rw [hml, hlvs] at hp ⊢
        have hp1 : ∀ lv ∈ lvs, ∀ sz, lv.size = some sz → parse_human_bytes sz = .ok () := by
          intro lv hlv
          exact hp lv (by simp [hlv])
        have hp2 : ∀ lv ∈ manifest_lvs t, ∀ sz, lv.size = some sz →
            parse_human_bytes sz = .ok () := by
          intro lv hlv
          exact hp lv (by simp [hlv])
        simp only [collect_vg_lvs, hlvs, lvs_fold_ok_of_parse lvs acc hp1]
        rw [ih _ hp2]
        simp [List.foldl_append]

theorem collect_vg_lvs_err_of_notparse :
    ∀ (dms : List Dm) (acc : List (String × List ManifestLvmLv)),
      (∃ lv ∈ manifest_lvs dms, ∃ sz, lv.size = some sz ∧ parse_human_bytes sz ≠ .ok ()) →
      ∃ sz, parse_human_bytes sz ≠ .ok () ∧
        collect_vg_lvs acc dms = .error (.badManifest ("bad lv size " ++ sz)) := by
  intro dms
  induction dms with
  | nil =>
    rintro acc ⟨lv, hlv, _⟩
    simp [manifest_lvs] at hlv
  | cons d t ih =>
    intro acc hex
    cases d with
    | luks l =>
      have : manifest_lvs (Dm.luks l :: t) = manifest_lvs t := by simp [manifest_lvs]
      rw [this] at hex
      rcases ih acc hex with ⟨sz, h1, h2⟩
      exact ⟨sz, h1, by simp only [collect_vg_lvs, h2]⟩
    | lvm lvm =>
      have hml : manifest_lvs (Dm.lvm lvm :: t) = lvm.lvs.getD [] ++ manifest_lvs t := by
        simp [manifest_lvs]
      rw [hml] at hex
      cases hlvs : lvm.lvs with
      | none =>
        rw [hlvs] at hex
        simp only [Option.getD_none, List.nil_append] at hex
        rcases ih acc hex with ⟨sz, h1, h2⟩
        exact ⟨sz, h1, by simp only [collect_vg_lvs, hlvs, h2]⟩
      | some lvs =>
        rw [hlvs] at hex
        simp only [Option.getD_some] at hex
        by_cases hfail : ∃ lv ∈ lvs, ∃ sz, lv.size = some sz ∧ parse_human_bytes sz ≠ .ok ()
        · rcases lvs_fold_err_of_notparse lvs acc hfail with ⟨sz, h1, h2⟩
          exact ⟨sz, h1, by simp only [collect_vg_lvs, hlvs, h2]⟩
        · have hp1 : ∀ lv ∈ lvs, ∀ sz, lv.size = some sz → parse_human_bytes sz = .ok () := by
            intro lv hlv sz hsz
            by_contra hbad
            exact hfail ⟨lv, hlv, sz, hsz, hbad⟩
          have hext : ∃ lv ∈ manifest_lvs t, ∃ sz, lv.size = some sz ∧
              parse_human_bytes sz ≠ .ok () := by
            rcases hex with ⟨q, hq, sz, hsz, hbad⟩
            rcases List.mem_append.mp hq with h | h
            · exact absurd (hp1 q h sz hsz) hbad
            · exact ⟨q, h, sz, hsz, hbad⟩
          rcases ih (lvs.foldl (fun m lv => vg_lvs_insert m lv.vg lv) acc) hext with ⟨sz, h1, h2⟩
          exact ⟨sz, h1, by simp only [collect_vg_lvs, hlvs,
            lvs_fold_ok_of_parse lvs acc hp1, h2]⟩

theorem check_lv_group_go_ok_iff (vg : String) (last : Nat) :
    ∀ (l : List ManifestLvmLv) (i : Nat),
      check_lv_group_go vg last i l = .ok () ↔
        ∀ j lv, l.get? j = some lv → lv.size = none → i + j = last := by
  intro l
  induction l with
  | nil =>
    intro i
    constructor
    · intro _ j lv hj
      simp at hj
    · intro _; rfl
  | cons lv t ih =>
    intro i
    by_cases hc : lv.size = none ∧ i ≠ last
    · rw [show check_lv_group_go vg last i (lv :: t) =
          .error (.badManifest ("lv " ++ lv.name ++ " on vg " ++ vg ++ " has None size")) by
        simp [check_lv_group_go, hc]]
      constructor
      · intro h; cases h
      · intro h
        exact absurd (h 0 lv rfl hc.1) (by simpa using hc.2)
    · rw [show check_lv_group_go vg last i (lv :: t) =
          check_lv_group_go vg last (i + 1) t by
        simp [check_lv_group_go, hc]]
      rw [ih (i + 1)]
      constructor
      · intro h j q hj hq
        cases j with
        | zero =>
          simp only [List.get?_cons_zero, Option.some.injEq] at hj
          subst hj
          rcases not_and_or.mp hc with h1 | h1
          · exact absurd hq h1
          · simpa using not_not.mp h1
        | succ j2 =>
          have := h j2 q (by simpa using hj) hq
          omega
      · intro h j q hj hq
        have := h (j + 1) q (by simpa using hj) hq
        omega

theorem check_lv_group_go_err (vg : String) (last : Nat) :
    ∀ (l : List ManifestLvmLv) (i : Nat) (e : VErr),
      check_lv_group_go vg last i l = .error e →
      ∃ j lv, l.get? j = some lv ∧ lv.size = none ∧ i + j ≠ last ∧
        e = .badManifest ("lv " ++ lv.name ++ " on vg " ++ vg ++ " has None size") := by
  intro l
  induction l with
  | nil =>
    intro i e h
    cases h
  | cons lv t ih =>
    intro i e h
    by_cases hc : lv.size = none ∧ i ≠ last
    · rw [show check_lv_group_go vg last i (lv :: t) =
          .error (.badManifest ("lv " ++ lv.name ++ " on vg " ++ vg ++ " has None size")) by
        simp [check_lv_group_go, hc]] at h
      injection h with h2
      exact ⟨0, lv, rfl, hc.1, by simpa using hc.2, h2.symm⟩
    · rw [show check_lv_group_go vg last i (lv :: t) =
          check_lv_group_go vg last (i + 1) t by
        simp [check_lv_group_go, hc]] at h
      rcases ih (i + 1) e h with ⟨j, q, hj, hq, hne, he⟩
      exact ⟨j + 1, q, by simpa using hj, hq, by omega, he⟩

theorem check_lv_group_ok_iff (vg : String) (lvs : List ManifestLvmLv) :
    check_lv_group vg lvs = .ok () ↔
      (2 ≤ lvs.length → ∀ j lv, lvs.get? j = some lv → j + 1 < lvs.length →
        lv.size ≠ none) := by
  by_cases hlen : lvs.length ≤ 1
  · rw [show check_lv_group vg lvs = .ok () by simp [check_lv_group, hlen]]
    constructor
    · intro _ h2
      omega
    · intro _; rfl
  · rw [show check_lv_group vg lvs = check_lv_group_go vg (lvs.length - 1) 0 lvs by
      simp [check_lv_group, hlen]]
    rw [check_lv_group_go_ok_iff]
    constructor
    · intro h _ j lv hj hlt hsz
      have := h j lv hj hsz
      omega
    · intro h j lv hj hsz
      have hjlen : j < lvs.length := by
        by_contra hge
        rw [List.get?_eq_none.mpr (by omega)] at hj
        cases hj
      by_contra hne
      exact h (by omega) j lv hj (by omega) hsz

theorem foldE_unit_ok_iff {α : Type} (g : α → Except VErr Unit) :
    ∀ (l : List α), foldE (fun _ kv => g kv) () l = .ok () ↔ ∀ kv ∈ l, g kv = .ok () := by
  intro l
  induction l with
  | nil => simp [foldE]
  | cons a t ih =>
    cases hg : g a with
    | error e =>
      simp only [foldE, hg]
      constructor
      · intro h; cases h
      · intro h
        rw [h a (List.mem_cons_self a t)] at hg
        cases hg
    | ok u =>
      cases u
      simp only [foldE, hg]
      rw [ih]
      constructor
      · intro h kv hkv
        rcases List.mem_cons.mp hkv with h1 | h1
        · subst h1; exact hg
        · exact h kv h1
      · intro h kv hkv
        exact h kv (List.mem_cons_of_mem a hkv)

theorem foldE_unit_err {α : Type} (g : α → Except VErr Unit) :
    ∀ (l : List α) (e : VErr),
      foldE (fun _ kv => g kv) () l = .error e → ∃ kv ∈ l, g kv = .error e := by
  intro l
  induction l with
  | nil => intro e h; cases h
  | cons a t ih =>
    intro e h
    cases hg : g a with
    | error e2 =>
      rw [show foldE (fun _ kv => g kv) () (a :: t) = .error e2 by
        simp [foldE, hg]] at h
      injection h with h2
      exact ⟨a, List.mem_cons_self a t, by rw [hg, h2]⟩
    | ok u =>
      cases u
      rw [show foldE (fun _ kv => g kv) () (a :: t) =
          foldE (fun _ kv => g kv) () t by simp [foldE, hg]] at h
      rcases ih e h with ⟨kv, hkv, hkv2⟩
      exact ⟨kv, List.mem_cons_of_mem a hkv, hkv2⟩

/-- C4 amended: the size rule accepts exactly when every declared LV size
(including the last LV of a group) parses and, in every VG group with at
least two LVs, every non-last LV declares a size; the failure is a
BadManifest naming either the malformed size or the offending LV. -/
theorem c4_lv_size_rule (dms : List Dm) :
    (validate_lv_size dms = .ok () ↔
      ((∀ lv ∈ manifest_lvs dms, ∀ sz, lv.size = some sz → parse_human_bytes sz = .ok ()) ∧
        (∀ kv ∈ group_lvs dms, 2 ≤ kv.2.length → ∀ j lv, kv.2.get? j = some lv →
          j + 1 < kv.2.length → lv.size ≠ none))) ∧
    (∀ e, validate_lv_size dms = .error e →
      (∃ sz, parse_human_bytes sz ≠ .ok () ∧ e = .badManifest ("bad lv size " ++ sz)) ∨
      (∃ kv ∈ group_lvs dms, ∃ j lv, kv.2.get? j = some lv ∧ lv.size = none ∧
        j + 1 < kv.2.length ∧
        e = .badManifest ("lv " ++ lv.name ++ " on vg " ++ kv.1 ++ " has None size"))) := by
  by_cases hparse : ∀ lv ∈ manifest_lvs dms, ∀ sz, lv.size = some sz →
      parse_human_bytes sz = .ok ()
  · have hco := collect_vg_lvs_ok_of_parse dms [] hparse
    have hval : validate_lv_size dms =
        foldE (fun _ kv => check_lv_group kv.1 kv.2) () (group_lvs dms) := by
      simp only [validate_lv_size, hco, group_lvs]
    constructor
    · rw [hval, foldE_unit_ok_iff]
      constructor
      · intro h
        refine ⟨hparse, ?_⟩
        intro kv hkv
        exact (check_lv_group_ok_iff kv.1 kv.2).mp (h kv hkv)
      · rintro ⟨_, h2⟩
        intro kv hkv
        exact (check_lv_group_ok_iff kv.1 kv.2).mpr (h2 kv hkv)
    · intro e he
      rw [hval] at he
      rcases foldE_unit_err _ _ e he with ⟨kv, hkv, hkverr⟩
      right
      by_cases hlen : kv.2.length ≤ 1
      · exact absurd hkverr (by simp [check_lv_group, hlen])
      · rw [show check_lv_group kv.1 kv.2 =
            check_lv_group_go kv.1 (kv.2.length - 1) 0 kv.2 by
          simp [check_lv_group, hlen]] at hkverr
        rcases check_lv_group_go_err kv.1 (kv.2.length - 1) kv.2 0 e hkverr with
          ⟨j, lv, hj, hsz, hne, hmsg⟩
        have hjlen : j < kv.2.length := by
          by_contra hge
          rw [List.get?_eq_none.mpr (by omega)] at hj
          cases hj
        exact ⟨kv, hkv, j, lv, hj, hsz, by omega, hmsg⟩
  · have hex : ∃ lv ∈ manifest_lvs dms, ∃ sz, lv.size = some sz ∧
        parse_human_bytes sz ≠ .ok () := by
      push_neg at hparse
      rcases hparse with ⟨lv, hlv, sz, hsz, hbad⟩
      exact ⟨lv, hlv, sz, hsz, hbad⟩
    rcases collect_vg_lvs_err_of_notparse dms [] hex with ⟨sz, h1, h2⟩
    have hval : validate_lv_size dms = .error (.badManifest ("bad lv size " ++ sz)) := by
      simp only [validate_lv_size, h2]
    constructor
    · rw [hval]
      constructor
      · intro h; cases h
      · rintro ⟨hp, _⟩
        rcases hex with ⟨lv, hlv, sz2, hsz2, hbad⟩
        exact absurd (hp lv hlv sz2 hsz2) hbad
    · intro e he
      rw [hval] at he
      injection he with he2
      exact Or.inl ⟨sz, h1, he2.symm⟩

/-- C4 counterexample: with two LVs on one VG where the non-last LV has the
parseable size 1G and the last LV declares the malformed size zzz, the
claim's acceptance condition holds (every non-last LV declares a parseable
size) yet the rule rejects. -/
theorem c4_counterexample :
    validate_lv_size c4cexDms = .error (.badManifest "bad lv size zzz") ∧
    (∀ kv ∈ group_lvs c4cexDms, ∀ j lv, kv.2.get? j = some lv →
      j + 1 < kv.2.length → ∃ sz, lv.size = some sz ∧ parse_human_bytes sz = .ok ()) := by
  constructor
  · decide
  · intro kv hkv j lv hj hlt
    have hg : group_lvs c4cexDms =
        [("v", [⟨"a", "v", some "1G"⟩, ⟨"b", "v", some "zzz"⟩])] := by decide
    rw [hg] at hkv
    simp only [List.mem_singleton] at hkv
    subst hkv
    simp only [List.length_cons, List.length_nil] at hlt
    have hj0 : j = 0 := by omega
    subst hj0
    simp only [List.get?_cons_zero, Option.some.injEq] at hj
    subst hj
    exact ⟨"1G", rfl, by decide⟩

theorem c4_witness :
    validate_lv_size [.lvm ⟨none, none,
      some [⟨"a", "v", some "1G"⟩, ⟨"b", "v", none⟩]⟩] = .ok () := by
  refine (c4_lv_size_rule [.lvm ⟨none, none,
      some [⟨"a", "v", some "1G"⟩, ⟨"b", "v", none⟩]⟩]).1.mpr ⟨?_, ?_⟩
  · intro lv hlv sz hsz
    have hm : manifest_lvs [.lvm ⟨none, none,
        some [⟨"a", "v", some "1G"⟩, ⟨"b", "v", none⟩]⟩] =
        [⟨"a", "v", some "1G"⟩, ⟨"b", "v", none⟩] := by decide
    rw [hm] at hlv
    rcases List.mem_cons.mp hlv with h | h
    · subst h
      injection hsz with h2
      subst h2
      decide
    · simp only [List.mem_singleton] at h
      subst h
      cases hsz
  · intro kv hkv h2 j lv hj hlt
    have hg : group_lvs [.lvm ⟨none, none,
        some [⟨"a", "v", some "1G"⟩, ⟨"b", "v", none⟩]⟩] =
        [("v", [⟨"a", "v", some "1G"⟩, ⟨"b", "v", none⟩])] := by decide
    rw [hg] at hkv
    simp only [List.mem_singleton] at hkv
    subst hkv
    simp only [List.length_cons, List.length_nil] at hlt
    have hj0 : j = 0 := by omega
    subst hj0
    simp only [List.get?_cons_zero, Option.some.injEq] at hj
    subst hj
    decide

/-
C9: the duplicate-VG check is reached only through the sys_lvms search.
-/

theorem vg_append_valids_some_decomp (msg vgn pv : String) (vg_dev : BlockDev) :
    ∀ (l l2 : BlockDevPaths),
      vg_append_valids msg vgn pv vg_dev l = .ok (some l2) →
      ∃ l1 p l3, l = l1 ++ p :: l3 ∧ l2 = l1 ++ (p ++ [vg_dev]) :: l3 ∧
        (∃ tm, p.getLast? = some tm ∧ tm.device = pv ∧ is_vg_base tm.device_type = true) ∧
        (∀ q ∈ l1, ∀ tm, q.getLast? = some tm → tm.device ≠ pv) := by
  intro l
  induction l with
  | nil =>
    intro l2 h
    cases h
  | cons p ps ih =>
    intro l2 h
    cases hlast : p.getLast? with
    | none =>
      rw [show vg_append_valids msg vgn pv vg_dev (p :: ps) =
          .error (.panik "no back node in linked list from manifest_devs") by
        simp [vg_append_valids, hlast]] at h
      cases h
    | some tm =>
      by_cases htm : tm.device = pv
      · by_cases hbase : is_vg_base tm.device_type
        · rw [show vg_append_valids msg vgn pv vg_dev (p :: ps) =
              .ok (some ((p ++ [vg_dev]) :: ps)) by
            simp [vg_append_valids, hlast, htm, hbase]] at h
          injection h with h2
          injection h2 with h3
          exact ⟨[], p, ps, rfl, by rw [← h3]; rfl, ⟨tm, hlast, htm, hbase⟩,
            fun q hq => by cases hq⟩
        · rw [show vg_append_valids msg vgn pv vg_dev (p :: ps) =
              .error (.badManifest
                (msg ++ ": vg " ++ vgn ++ " pv base " ++ pv ++ " cannot have this type")) by
            simp [vg_append_valids, hlast, htm, hbase]] at h
          cases h
      · have hstep : vg_append_valids msg vgn pv vg_dev (p :: ps) =
            match vg_append_valids msg vgn pv vg_dev ps with
            | .error e => .error e
            | .ok none => .ok none
            | .ok (some ps2) => .ok (some (p :: ps2)) := by
          simp [vg_append_valids, hlast, htm]
        rw [hstep] at h
        cases hrec : vg_append_valids msg vgn pv vg_dev ps with
        | error e => rw [hrec] at h; cases h
        | ok o =>
          cases o with
          | none => rw [hrec] at h; cases h
          | some ps2 =>
            rw [hrec] at h
            injection h with h2
            injection h2 with h3
            rcases ih ps2 hrec with ⟨l1, q, l3, he1, he2, hq, hfront⟩
            refine ⟨p :: l1, q, l3, by rw [he1]; rfl, by rw [← h3, he2]; rfl, hq, ?_⟩
            intro r hr tm2 htm2
            rcases List.mem_cons.mp hr with h4 | h4
            · subst h4
              rw [hlast] at htm2
              injection htm2 with h5
              subst h5
              exact htm
            · exact hfront r h4 tm2 htm2

theorem vg_append_valids_some_of (msg vgn pv : String) (vg_dev : BlockDev) :
    ∀ (l : BlockDevPaths),
      (∀ p ∈ l, p ≠ []) →
      (∃ p ∈ l, ∃ tm, p.getLast? = some tm ∧ tm.device = pv) →
      (∀ p ∈ l, ∀ tm, p.getLast? = some tm → tm.device = pv →
        tm.device_type = TYPE_PV) →
      ∃ l2, vg_append_valids msg vgn pv vg_dev l = .ok (some l2) := by
  intro l
  induction l with
  | nil =>
    rintro _ ⟨p, hp, _⟩ _
    cases hp
  | cons p ps ih =>
    rintro hne hex hall
    have hpne : p ≠ [] := hne p (List.mem_cons_self p ps)
    have hsome : (p.getLast?).isSome := List.getLast?_isSome.mpr hpne
    rcases Option.isSome_iff_exists.mp hsome with ⟨tm, hlast⟩
    by_cases htm : tm.device = pv
    · have htype := hall p (List.mem_cons_self p ps) tm hlast htm
      have hbase : is_vg_base tm.device_type = true := by
        rw [htype]; rfl
      exact ⟨(p ++ [vg_dev]) :: ps, by simp [vg_append_valids, hlast, htm, hbase]⟩
    · have hex2 : ∃ q ∈ ps, ∃ tm2, q.getLast? = some tm2 ∧ tm2.device = pv := by
        rcases hex with ⟨q, hq, tm2, htm2, hdev2⟩
        rcases List.mem_cons.mp hq with h | h
        · subst h
          rw [hlast] at htm2
          injection htm2 with h2
          subst h2
          exact absurd hdev2 htm
        · exact ⟨q, h, tm2, htm2, hdev2⟩
      rcases ih (fun q hq => hne q (List.mem_cons_of_mem p hq)) hex2
        (fun q hq => hall q (List.mem_cons_of_mem p hq)) with ⟨l2, hl2⟩
      exact ⟨p :: l2, by simp [vg_append_valids, hlast, htm, hl2]⟩

theorem c9_aux (vg : ManifestLvmVg) (fs_devs : List (String × BlockDevType)) :
    ∀ (pvs : List String) (sys : List (String × BlockDevPaths)) (valids : BlockDevPaths),
      pvs.Nodup →
      (∀ pv ∈ pvs, lookupS fs_devs pv = none) →
      (∀ pv ∈ pvs, pv_find_sys_vg ((lookupS sys pv).getD []) = none) →
      (∀ pv ∈ pvs, pv ≠ "/dev/" ++ vg.name) →
      (∀ p ∈ valids, p ≠ []) →
      (∀ pv ∈ pvs, ∃ p ∈ valids, ∃ tm, p.getLast? = some tm ∧ tm.device = pv) →
      (∀ pv ∈ pvs, ∀ p ∈ valids, ∀ tm, p.getLast? = some tm → tm.device = pv →
        tm.device_type = TYPE_PV) →
      ∃ v2, foldE (vg_step vg fs_devs) (sys, valids) pvs = .ok (sys, v2) := by
  intro pvs
  induction pvs with
  | nil =>
    intro sys valids _ _ _ _ _ _ _
    exact ⟨valids, rfl⟩
  | cons pv rest ih =>
    intro sys valids hnd h2 h3 h4 hne h6 h7
    have hfd := h2 pv (List.mem_cons_self pv rest)
    have hsys := h3 pv (List.mem_cons_self pv rest)
    rcases vg_append_valids_some_of "lvm vg validation failed" vg.name pv
        ⟨"/dev/" ++ vg.name, TYPE_VG⟩ valids hne
        (h6 pv (List.mem_cons_self pv rest))
        (h7 pv (List.mem_cons_self pv rest)) with ⟨l2, happ⟩
    have hstep : vg_step vg fs_devs (sys, valids) pv = .ok (sys, l2) := by
      simp only [vg_step, hfd, hsys, happ, Option.isSome_none, Bool.false_eq_true,
        if_false]
    rcases vg_append_valids_some_decomp _ _ _ _ valids l2 happ with
      ⟨l1, p, l3, he1, he2, ⟨tm, htm, htmdev, _⟩, _⟩
    have hpv_rest : pv ∉ rest := (List.nodup_cons.mp hnd).1
    have hsub : ∀ q, (q ∈ l1 ∨ q ∈ l3) → q ∈ valids := by
      intro q hq
      rw [he1]
      rcases hq with h | h
      · exact List.mem_append.mpr (Or.inl h)
      · exact List.mem_append.mpr (Or.inr (List.mem_cons_of_mem p h))
    have hcase : ∀ q ∈ l2,
        (q ∈ l1 ∨ q ∈ l3) ∨ q = p ++ [⟨"/dev/" ++ vg.name, TYPE_VG⟩] := by
      intro q hq
      rw [he2] at hq
      rcases List.mem_append.mp hq with h | h
      · exact Or.inl (Or.inl h)
      · rcases List.mem_cons.mp h with h | h
        · exact Or.inr h
        · exact Or.inl (Or.inr h)
    have hne2 : ∀ q ∈ l2, q ≠ [] := by
      intro q hq
      rcases hcase q hq with h | h
      · exact hne q (hsub q h)
      · subst h
        simp
    have h62 : ∀ pv2 ∈ rest, ∃ q ∈ l2, ∃ tm2, q.getLast? = some tm2 ∧
        tm2.device = pv2 := by
      intro pv2 hpv2
      rcases h6 pv2 (List.mem_cons_of_mem pv hpv2) with ⟨q, hq, tm2, htm2, hdev2⟩
      have hqp : q ≠ p := by
        intro hqp
        subst hqp
        rw [htm] at htm2
        injection htm2 with h5
        subst h5
        have hpp : pv2 = pv := hdev2.symm.trans htmdev
        exact hpv_rest (hpp ▸ hpv2)
      rw [he1] at hq
      rcases List.mem_append.mp hq with h | h
      · exact ⟨q, by rw [he2]; exact List.mem_append.mpr (Or.inl h), tm2, htm2, hdev2⟩
      · rcases List.mem_cons.mp h with h | h
        · exact absurd h hqp
        · exact ⟨q, by
            rw [he2]
            exact List.mem_append.mpr (Or.inr (List.mem_cons_of_mem _ h)),
            tm2, htm2, hdev2⟩
    have h72 : ∀ pv2 ∈ rest, ∀ q ∈ l2, ∀ tm2, q.getLast? = some tm2 →
        tm2.device = pv2 → tm2.device_type = TYPE_PV := by
      intro pv2 hpv2 q hq tm2 htm2 hdev2
      rcases hcase q hq with h | h
      · exact h7 pv2 (List.mem_cons_of_mem pv hpv2) q (hsub q h) tm2 htm2 hdev2
      · subst h
        rw [List.getLast?_concat] at htm2
        injection htm2 with h5
        subst h5
        exact absurd hdev2.symm (h4 pv2 (List.mem_cons_of_mem pv hpv2))
    rcases ih sys l2 (List.nodup_cons.mp hnd).2
      (fun q hq => h2 q (List.mem_cons_of_mem pv hq))
      (fun q hq => h3 q (List.mem_cons_of_mem pv hq))
      (fun q hq => h4 q (List.mem_cons_of_mem pv hq))
      hne2 h62 h72 with ⟨v2, hfold⟩
    exact ⟨v2, by simp only [foldE, hstep, hfold]⟩

/-- C9: when every PV listed under a manifest VG resolves as a PV-typed tip
in the manifest store, VG validation succeeds without consulting sys_lvms
tips at all — in particular a VG whose /dev/name tip already exists in
sys_lvms is still accepted, so the duplicate-VG rejection can only arise
when some listed PV is resolved through the sys_lvms search. -/
theorem c9_vg_accepts_without_sys_search (vg : ManifestLvmVg)
    (fs_devs : List (String × BlockDevType))
    (sys_lvms : List (String × BlockDevPaths)) (valids : BlockDevPaths)
    (hnd : vg.pvs.Nodup)
    (hfs : ∀ pv ∈ vg.pvs, lookupS fs_devs pv = none)
    (hsys : ∀ pv ∈ vg.pvs, pv_find_sys_vg ((lookupS sys_lvms pv).getD []) = none)
    (hname : ∀ pv ∈ vg.pvs, pv ≠ "/dev/" ++ vg.name)
    (hne : ∀ p ∈ valids, p ≠ [])
    (hex : ∀ pv ∈ vg.pvs, ∃ p ∈ valids, ∃ tm, p.getLast? = some tm ∧ tm.device = pv)
    (hall : ∀ pv ∈ vg.pvs, ∀ p ∈ valids, ∀ tm, p.getLast? = some tm →
      tm.device = pv → tm.device_type = TYPE_PV) :
    ∃ v2, collect_valid_vg vg fs_devs sys_lvms valids = .ok (sys_lvms, v2) :=
  c9_aux vg fs_devs vg.pvs sys_lvms valids hnd hfs hsys hname hne hex hall

theorem c9_witness :
    ∃ v2, collect_valid_vg ⟨"myvg", ["/dev/sda1"]⟩ []
      [("q", [[⟨"q", TYPE_PV⟩, ⟨"/dev/myvg", TYPE_VG⟩]])]
      [[⟨"/dev/sda1", TYPE_PV⟩]] =
      .ok ([("q", [[⟨"q", TYPE_PV⟩, ⟨"/dev/myvg", TYPE_VG⟩]])], v2) :=
  c9_vg_accepts_without_sys_search ⟨"myvg", ["/dev/sda1"]⟩ []
    [("q", [[⟨"q", TYPE_PV⟩, ⟨"/dev/myvg", TYPE_VG⟩]])]
    [[⟨"/dev/sda1", TYPE_PV⟩]]
    (by decide) (by decide) (by decide) (by decide) (by decide)
    (by
      intro pv hpv
      simp only [List.mem_singleton] at hpv
      subst hpv
      exact ⟨[⟨"/dev/sda1", TYPE_PV⟩], by decide,
        ⟨"/dev/sda1", TYPE_PV⟩, by decide, by decide⟩)
    (by
      intro pv hpv p hp tm htm hdev
      simp only [List.mem_singleton] at hpv hp
      subst hpv
      subst hp
      simp only [List.getLast?_singleton, Option.some.injEq] at htm
      subst htm
      rfl)

/-
C2: at most one VG per PV.
-/

theorem vg_adopt_paths_some_decomp (msg vgn pvb : String) (vgd : BlockDev) :
    ∀ (ps ps2 : BlockDevPaths) (newp : BlockDevPath),
      vg_adopt_paths msg vgn pvb vgd ps = .ok (some (ps2, newp)) →
      ∃ q1 q q3 tq, ps = q1 ++ q :: q3 ∧ ps2 = q1 ++ ([] : BlockDevPath) :: q3 ∧
        q.getLast? = some tq ∧ tq.device = pvb ∧ is_vg_base tq.device_type = true ∧
        newp = q ++ [vgd] := by
  intro ps
  induction ps with
  | nil =>
    intro ps2 newp h
    cases h
  | cons p t ih =>
    intro ps2 newp h
    cases hlast : p.getLast? with
    | none =>
      rw [show vg_adopt_paths msg vgn pvb vgd (p :: t) =
          (match vg_adopt_paths msg vgn pvb vgd t with
           | .error e => .error e
           | .ok none => .ok none
           | .ok (some (ps2, newp)) => .ok (some (p :: ps2, newp))) by
        simp [vg_adopt_paths, hlast]] at h
      cases hrec : vg_adopt_paths msg vgn pvb vgd t with
      | error e => rw [hrec] at h; cases h
      | ok o =>
        cases o with
        | none => rw [hrec] at h; cases h
        | some pr =>
          obtain ⟨pt2, np⟩ := pr
          rw [hrec] at h
          injection h with h2
          injection h2 with h3
          rcases ih pt2 np hrec with ⟨q1, q, q3, tq, he1, he2, hq1, hq2, hq3, hq4⟩
          cases h3
          refine ⟨p :: q1, q, q3, tq, by rw [he1]; rfl, ?_, hq1, hq2, hq3, hq4⟩
          rw [he2]
          rfl
    | some tm =>
      by_cases heq : tm = vgd
      · rw [show vg_adopt_paths msg vgn pvb vgd (p :: t) =
            .error (.badManifest (msg ++ ": vg " ++ vgn ++ " already exists")) by
          simp [vg_adopt_paths, hlast, heq]] at h
        cases h
      · by_cases hdev : tm.device = pvb
        · by_cases hbase : is_vg_base tm.device_type
          · rw [show vg_adopt_paths msg vgn pvb vgd (p :: t) =
                .ok (some (([] : BlockDevPath) :: t, p ++ [vgd])) by
              simp [vg_adopt_paths, hlast, heq, hdev, hbase]] at h
            injection h with h2
            injection h2 with h3
            cases h3
            exact ⟨[], p, t, tm, rfl, rfl, hlast, hdev, hbase, rfl⟩
          · rw [show vg_adopt_paths msg vgn pvb vgd (p :: t) =
                .error (.badManifest
                  (msg ++ ": vg " ++ vgn ++ " pv base " ++ pvb ++ " cannot have this type")) by
              simp [vg_adopt_paths, hlast, heq, hdev, hbase]] at h
            cases h
        · rw [show vg_adopt_paths msg vgn pvb vgd (p :: t) =
              (match vg_adopt_paths msg vgn pvb vgd t with
               | .error e => .error e
               | .ok none => .ok none
               | .ok (some (ps2, newp)) => .ok (some (p :: ps2, newp))) by
            simp [vg_adopt_paths, hlast, heq, hdev]] at h
          cases hrec : vg_adopt_paths msg vgn pvb vgd t with
          | error e => rw [hrec] at h; cases h
          | ok o =>
            cases o with
            | none => rw [hrec] at h; cases h
            | some pr =>
              obtain ⟨pt2, np⟩ := pr
              rw [hrec] at h
              injection h with h2
              injection h2 with h3
              rcases ih pt2 np hrec with ⟨q1, q, q3, tq, he1, he2, hq1, hq2, hq3, hq4⟩
              cases h3
              refine ⟨p :: q1, q, q3, tq, by rw [he1]; rfl, ?_, hq1, hq2, hq3, hq4⟩
              rw [he2]
              rfl

theorem vg_adopt_sys_some_decomp (msg vgn pvb : String) (vgd : BlockDev) :
    ∀ (sys sys2 : List (String × BlockDevPaths)) (newp : BlockDevPath),
      vg_adopt_sys msg vgn pvb vgd sys = .ok (some (sys2, newp)) →
      ∃ pre k ps ps2 post, sys = pre ++ (k, ps) :: post ∧
        sys2 = pre ++ (k, ps2) :: post ∧
        vg_adopt_paths msg vgn pvb vgd ps = .ok (some (ps2, newp)) := by
  intro sys
  induction sys with
  | nil =>
    intro sys2 newp h
    cases h
  | cons kv t ih =>
    intro sys2 newp h
    obtain ⟨k, ps⟩ := kv
    cases hpaths : vg_adopt_paths msg vgn pvb vgd ps with
    | error e =>
      rw [show vg_adopt_sys msg vgn pvb vgd ((k, ps) :: t) = .error e by
        simp [vg_adopt_sys, hpaths]] at h
      cases h
    | ok o =>
      cases o with
      | some pr =>
        obtain ⟨ps2, np⟩ := pr
        rw [show vg_adopt_sys msg vgn pvb vgd ((k, ps) :: t) =
            .ok (some ((k, ps2) :: t, np)) by simp [vg_adopt_sys, hpaths]] at h
        injection h with h2
        injection h2 with h3
        cases h3
        exact ⟨[], k, ps, ps2, t, rfl, rfl, hpaths⟩
      | none =>
        rw [show vg_adopt_sys msg vgn pvb vgd ((k, ps) :: t) =
            (match vg_adopt_sys msg vgn pvb vgd t with
             | .error e => .error e
             | .ok none => .ok none
             | .ok (some (t2, newp)) => .ok (some ((k, ps) :: t2, newp))) by
          simp [vg_adopt_sys, hpaths]] at h
        cases hrec : vg_adopt_sys msg vgn pvb vgd t with
        | error e => rw [hrec] at h; cases h
        | ok o2 =>
          cases o2 with
          | none => rw [hrec] at h; cases h
          | some pr =>
            obtain ⟨t2, np⟩ := pr
            rw [hrec] at h
            injection h with h2
            injection h2 with h3
            rcases ih t2 np hrec with ⟨pre, k2, ps3, ps4, post, he1, he2, he3⟩
            cases h3
            refine ⟨(k, ps) :: pre, k2, ps3, ps4, post, by rw [he1]; rfl, ?_, he3⟩
            rw [he2]
            rfl

theorem lookupS_mod {α : Type} (k : String) (v v2 : α) (x : String) :
    ∀ (pre post : List (String × α)),
      lookupS (pre ++ (k, v) :: post) x = lookupS (pre ++ (k, v2) :: post) x ∨
      (lookupS (pre ++ (k, v) :: post) x = some v ∧
        lookupS (pre ++ (k, v2) :: post) x = some v2) := by
  intro pre
  induction pre with
  | nil =>
    intro post
    by_cases hk : k = x
    · right
      constructor <;> simp [lookupS, hk]
    · left
      simp [lookupS, hk]
  | cons kv t ih =>
    intro post
    obtain ⟨k1, v1⟩ := kv
    by_cases hk1 : k1 = x
    · left
      simp [lookupS, hk1]
    · rcases ih post with h | h
      · left
        simpa [lookupS, hk1] using h
      · right
        constructor <;> simp [lookupS, hk1, h.1, h.2]

theorem vg_step_ok_sys (vg : ManifestLvmVg) (fs_devs : List (String × BlockDevType))
    (s : List (String × BlockDevPaths) × BlockDevPaths) (b : String)
    (s' : List (String × BlockDevPaths) × BlockDevPaths)
    (h : vg_step vg fs_devs s b = .ok s') :
    s'.1 = s.1 ∨
    ∃ pre k q1 q q3 post tq,
      s.1 = pre ++ (k, q1 ++ q :: q3) :: post ∧
      s'.1 = pre ++ (k, q1 ++ ([] : BlockDevPath) :: q3) :: post ∧
      q.getLast? = some tq ∧ is_vg_base tq.device_type = true := by
  by_cases h1 : (lookupS fs_devs b).isSome
  · exact absurd h (by simp [vg_step, h1])
  · cases hfind : pv_find_sys_vg ((lookupS s.1 b).getD []) with
    | some node =>
      exact absurd h (by simp [vg_step, h1, hfind])
    | none =>
      cases happ : vg_append_valids "lvm vg validation failed" vg.name b
          ⟨"/dev/" ++ vg.name, TYPE_VG⟩ s.2 with
      | error e =>
        exact absurd h (by simp [vg_step, h1, hfind, happ])
      | ok o =>
        cases o with
        | some v2 =>
          rw [show vg_step vg fs_devs s b = .ok (s.1, v2) by
            simp [vg_step, h1, hfind, happ]] at h
          injection h with h2
          left
          rw [← h2]
        | none =>
          cases hadopt : vg_adopt_sys "lvm vg validation failed" vg.name b
              ⟨"/dev/" ++ vg.name, TYPE_VG⟩ s.1 with
          | error e =>
            exact absurd h (by simp [vg_step, h1, hfind, happ, hadopt])
          | ok o2 =>
            cases o2 with
            | none =>
              exact absurd h (by simp [vg_step, h1, hfind, happ, hadopt])
            | some pr =>
              obtain ⟨sys2, newp⟩ := pr
              rw [show vg_step vg fs_devs s b = .ok (sys2, s.2 ++ [newp]) by
                simp [vg_step, h1, hfind, happ, hadopt]] at h
              injection h with h2
              rcases vg_adopt_sys_some_decomp _ _ _ _ s.1 sys2 newp hadopt with
                ⟨pre, k, ps, ps2, post, he1, he2, he3⟩
              rcases vg_adopt_paths_some_decomp _ _ _ _ ps ps2 newp he3 with
                ⟨q1, q, q3, tq, hf1, hf2, hf3, _, hf5, _⟩
              right
              refine ⟨pre, k, q1, q, q3, post, tq, ?_, ?_, hf3, hf5⟩
              · rw [he1, hf1]
              · rw [← h2, he2, hf2]

theorem c2_path_preserved (pv : String)
    (s1 s1' : List (String × BlockDevPaths))
    (hshape : s1' = s1 ∨
      ∃ pre k q1 q q3 post tq,
        s1 = pre ++ (k, q1 ++ q :: q3) :: post ∧
        s1' = pre ++ (k, q1 ++ ([] : BlockDevPath) :: q3) :: post ∧
        q.getLast? = some tq ∧ is_vg_base tq.device_type = true)
    (hP : ∃ path ∈ (lookupS s1 pv).getD [],
      (∃ n ∈ path, n.device_type = TYPE_VG) ∧
      (∀ tm, path.getLast? = some tm → is_vg_base tm.device_type = false)) :
    ∃ path ∈ (lookupS s1' pv).getD [],
      (∃ n ∈ path, n.device_type = TYPE_VG) ∧
      (∀ tm, path.getLast? = some tm → is_vg_base tm.device_type = false) := by
  rcases hshape with heq | ⟨pre, k, q1, q, q3, post, tq, he1, he2, hq, hqb⟩
  · rw [heq]
    exact hP
  · rcases hP with ⟨path, hpath, hvg, htip⟩
    rcases lookupS_mod k (q1 ++ q :: q3) (q1 ++ ([] : BlockDevPath) :: q3) pv pre post with
      hcase | ⟨hv, hv2⟩
    · rw [he1] at hpath
      rw [he2, ← hcase]
      exact ⟨path, hpath, hvg, htip⟩
    · rw [he1, hv] at hpath
      rw [he2, hv2]
      simp only [Option.getD_some] at hpath ⊢
      have hpq : path ≠ q := by
        intro hpq
        subst hpq
        have hf := htip tq hq
        rw [hqb] at hf
        cases hf
      rcases List.mem_append.mp hpath with h | h
      · exact ⟨path, List.mem_append.mpr (Or.inl h), hvg, htip⟩
      · rcases List.mem_cons.mp h with h | h
        · exact absurd h hpq
        · exact ⟨path, List.mem_append.mpr (Or.inr (List.mem_cons_of_mem _ h)), hvg, htip⟩

theorem vg_step_fails_on_sys_vg (vg : ManifestLvmVg)
    (fs_devs : List (String × BlockDevType)) (pv : String)
    (s : List (String × BlockDevPaths) × BlockDevPaths)
    (hP : ∃ path ∈ (lookupS s.1 pv).getD [],
      (∃ n ∈ path, n.device_type = TYPE_VG) ∧
      (∀ tm, path.getLast? = some tm → is_vg_base tm.device_type = false)) :
    ∃ e, vg_step vg fs_devs s pv = .error e := by
  rcases hP with ⟨path, hpath, ⟨n, hn, hnvg⟩, _⟩
  have hflat : n ∈ ((lookupS s.1 pv).getD []).flatten :=
    List.mem_flatten.mpr ⟨path, hpath, hn⟩
  have hfind : (pv_find_sys_vg ((lookupS s.1 pv).getD [])).isSome := by
    rw [pv_find_sys_vg, List.find?_isSome]
    exact ⟨n, hflat, by simp [hnvg]⟩
  rcases Option.isSome_iff_exists.mp hfind with ⟨node, hnode⟩
  by_cases h1 : (lookupS fs_devs pv).isSome
  · exact ⟨.badManifest ("lvm vg validation failed" ++ ": vg " ++ vg.name ++
      " base " ++ pv ++ " was already used as filesystem"), by simp [vg_step, h1]⟩
  · exact ⟨.badManifest ("lvm vg validation failed" ++ ": vg " ++ vg.name ++
      " base " ++ pv ++ " was already used for other vg " ++ node.device),
      by simp [vg_step, h1, hnode]⟩

/-- C2 amended: a manifest VG listing a PV that already belongs to a VG in
sys_lvms (its entry holds a path containing a VG node; scanner-shaped paths
with a VG node never expose a PV-typed tip) is always rejected; but, as the
counterexample shows, a PV device path referenced by two manifest VG
declarations escapes rejection when it is simultaneously re-declared as a
manifest PV while sys_lvms records it as a bare PV-only path, so validation
does not enforce at-most-one-VG-per-PV globally. -/
theorem c2_vg_rejected_on_sys_pv (vg : ManifestLvmVg)
    (fs_devs : List (String × BlockDevType))
    (sys_lvms : List (String × BlockDevPaths)) (valids : BlockDevPaths)
    (hdup : ∃ pv ∈ vg.pvs, ∃ path ∈ (lookupS sys_lvms pv).getD [],
      (∃ n ∈ path, n.device_type = TYPE_VG) ∧
      (∀ tm, path.getLast? = some tm → is_vg_base tm.device_type = false)) :
    ∃ e, collect_valid_vg vg fs_devs sys_lvms valids = .error e := by
  rcases hdup with ⟨pv, hpv, hP⟩
  exact foldE_error_of_mem (vg_step vg fs_devs)
    (fun st => ∃ path ∈ (lookupS st.1 pv).getD [],
      (∃ n ∈ path, n.device_type = TYPE_VG) ∧
      (∀ tm, path.getLast? = some tm → is_vg_base tm.device_type = false))
    pv vg.pvs hpv
    (fun s b s' _ hPs hok =>
      c2_path_preserved pv s.1 s'.1 (vg_step_ok_sys vg fs_devs s b s' hok) hPs)
    (fun s hPs => vg_step_fails_on_sys_vg vg fs_devs pv s hPs)
    (sys_lvms, valids) hP

/-- C2 counterexample: the device path /dev/sda1 is listed by both vg1 and
vg2, yet collect_valids returns Ok: the manifest also declares /dev/sda1 as
a PV while sys_lvms records it as a bare PV-only path, so vg1 consumes the
manifest PV stack and vg2 adopts the system PV path, and the duplicate goes
undetected. -/
theorem c2_counterexample :
    collect_valids c2cexDms [] [] c2cexSt = .ok c2cexOut ∧
    (∀ vgd ∈ [ManifestLvmVg.mk "vg1" ["/dev/sda1"],
              ManifestLvmVg.mk "vg2" ["/dev/sda1"]], "/dev/sda1" ∈ vgd.pvs) := by
  constructor
  · decide
  · decide

theorem c2_witness :
    ∃ e, collect_valid_vg ⟨"v", ["p"]⟩ []
      [("p", [[⟨"p", TYPE_PV⟩, ⟨"/dev/othervg", TYPE_VG⟩]])] [] = .error e :=
  c2_vg_rejected_on_sys_pv ⟨"v", ["p"]⟩ []
    [("p", [[⟨"p", TYPE_PV⟩, ⟨"/dev/othervg", TYPE_VG⟩]])] []
    ⟨"p", by decide, [⟨"p", TYPE_PV⟩, ⟨"/dev/othervg", TYPE_VG⟩], by decide,
      ⟨⟨"/dev/othervg", TYPE_VG⟩, by decide, by decide⟩,
      by
        intro tm htm
        simp only [List.getLast?_cons_cons, List.getLast?_singleton,
          Option.some.injEq] at htm
        subst htm
        rfl⟩

/-
C1: well-typedness of the final store.
-/

theorem wellTyped_nil : wellTyped [] = true := rfl

theorem wellTyped_cons_cons (a b : BlockDev) (t : List BlockDev) :
    wellTyped (a :: b :: t) =
      (legal_edge a.device_type b.device_type && wellTyped (b :: t)) := rfl

theorem wellTyped_of_cons (a : BlockDev) (t : List BlockDev)
    (h : wellTyped (a :: t) = true) : wellTyped t = true := by
  cases t with
  | nil => rfl
  | cons b r =>
    rw [wellTyped_cons_cons] at h
    simp only [Bool.and_eq_true] at h
    exact h.2

theorem wellTyped_append (p : BlockDevPath) (x : BlockDev) :
    ∀ (tm : BlockDev), wellTyped p = true → p.getLast? = some tm →
      legal_edge tm.device_type x.device_type = true →
      wellTyped (p ++ [x]) = true := by
  induction p with
  | nil =>
    intro tm _ htm _
    cases htm
  | cons a t ih =>
    intro tm hwt htm hedge
    cases t with
    | nil =>
      simp only [List.getLast?_singleton, Option.some.injEq] at htm
      subst htm
      simp only [List.cons_append, List.nil_append, wellTyped_cons_cons, hedge,
        Bool.true_and]
      rfl
    | cons b r =>
      rw [List.getLast?_cons_cons] at htm
      rw [wellTyped_cons_cons] at hwt
      simp only [Bool.and_eq_true] at hwt
      rcases hwt with ⟨h1, h2⟩
      have := ih tm h2 htm hedge
      simpa [wellTyped_cons_cons, h1] using this

theorem wellTyped_sfl_edge :
    ∀ (p : BlockDevPath) (v tm : BlockDev), wellTyped p = true →
      secondFromLast p = some v → p.getLast? = some tm →
      legal_edge v.device_type tm.device_type = true := by
  intro p
  induction p with
  | nil =>
    intro v tm _ hv _
    cases hv
  | cons a t ih =>
    intro v tm hwt hv htm
    cases t with
    | nil =>
      simp [secondFromLast] at hv
    | cons b r =>
      cases r with
      | nil =>
        simp only [secondFromLast, List.dropLast_cons₂, List.dropLast_single,
          List.getLast?_singleton, Option.some.injEq] at hv
        rw [List.getLast?_cons_cons, List.getLast?_singleton] at htm
        injection htm with htm2
        subst hv
        subst htm2
        rw [wellTyped_cons_cons] at hwt
        simp only [Bool.and_eq_true] at hwt
        exact hwt.1
      | cons c r2 =>
        rw [List.getLast?_cons_cons] at htm
        have hv2 : secondFromLast (b :: c :: r2) = some v := by
          have hd : (a :: b :: c :: r2).dropLast = a :: (b :: c :: r2).dropLast :=
            List.dropLast_cons₂
          rw [secondFromLast, hd] at hv
          have hne : (b :: c :: r2).dropLast ≠ [] := by
            simp [List.dropLast_cons₂]
          rw [secondFromLast]
          cases hdl : (b :: c :: r2).dropLast with
          | nil => exact absurd hdl hne
          | cons d r3 =>
            rw [hdl] at hv
            rw [List.getLast?_cons_cons] at hv
            exact hv
        exact ih v tm (wellTyped_of_cons a _ hwt) hv2 htm

theorem legal_edge_vg_forces_lv (k : BlockDevType)
    (h : legal_edge TYPE_VG k = true) : k = TYPE_LV := by
  cases k with
  | disk => cases h
  | partition => cases h
  | unknownBlock => cases h
  | fs s => cases h
  | dm t =>
    cases t with
    | luks => cases h
    | lvmPv => cases h
    | lvmVg => cases h
    | lvmLv => rfl

theorem luks_adopt_paths_WT (msg base : String) (vg luks_dev : BlockDev)
    (hld : legal_edge TYPE_LV luks_dev.device_type = true) :
    ∀ (ps ps2 : BlockDevPaths) (newp : BlockDevPath),
      (∀ p ∈ ps, wellTyped p = true) →
      luks_adopt_paths msg base vg luks_dev ps = .ok (some (ps2, newp)) →
      (∀ p ∈ ps2, wellTyped p = true) ∧ wellTyped newp = true := by
  intro ps
  induction ps with
  | nil =>
    intro ps2 newp _ h
    cases h
  | cons p t ih =>
    intro ps2 newp hwt h
    have hwtp : wellTyped p = true := hwt p (List.mem_cons_self p t)
    have hwtt : ∀ q ∈ t, wellTyped q = true :=
      fun q hq => hwt q (List.mem_cons_of_mem p hq)
    have hrec_case : ∀ (h2 : luks_adopt_paths msg base vg luks_dev (p :: t) =
        (match luks_adopt_paths msg base vg luks_dev t with
         | .error e => .error e
         | .ok none => .ok none
         | .ok (some (ps2, newp)) => .ok (some (p :: ps2, newp)))),
        (∀ q ∈ ps2, wellTyped q = true) ∧ wellTyped newp = true := by
      intro h2
      rw [h2] at h
      cases hrec : luks_adopt_paths msg base vg luks_dev t with
      | error e => rw [hrec] at h; cases h
      | ok o =>
        cases o with
        | none => rw [hrec] at h; cases h
        | some pr =>
          obtain ⟨pt2, np⟩ := pr
          rw [hrec] at h
          injection h with h3
          injection h3 with h4
          rcases ih pt2 np hwtt hrec with ⟨ha, hb⟩
          cases h4
          refine ⟨?_, hb⟩
          intro q hq
          rcases List.mem_cons.mp hq with h5 | h5
          · exact h5 ▸ hwtp
          · exact ha q h5
    cases hlast : p.getLast? with
    | none =>
      exact hrec_case (by simp [luks_adopt_paths, hlast])
    | some tm =>
      by_cases htm : tm.device = base
      · cases hsfl : secondFromLast p with
        | none =>
          exact absurd h (by simp [luks_adopt_paths, hlast, htm, hsfl])
        | some mv =>
          by_cases hmv : mv.device_type = TYPE_VG
          · by_cases hmvd : mv.device = vg.device
            · rw [show luks_adopt_paths msg base vg luks_dev (p :: t) =
                  .ok (some (([] : BlockDevPath) :: t, p ++ [luks_dev])) by
                simp [luks_adopt_paths, hlast, htm, hsfl, hmv, hmvd]] at h
              injection h with h3
              injection h3 with h4
              have hedge := wellTyped_sfl_edge p mv tm hwtp hsfl hlast
              rw [hmv] at hedge
              have html := legal_edge_vg_forces_lv tm.device_type hedge
              have hnew : wellTyped (p ++ [luks_dev]) = true :=
                wellTyped_append p luks_dev tm hwtp hlast (by rw [html]; exact hld)
              cases h4
              refine ⟨?_, hnew⟩
              intro q hq
              rcases List.mem_cons.mp hq with h5 | h5
              · rw [h5]; rfl
              · exact hwtt q h5
            · exact hrec_case (by simp [luks_adopt_paths, hlast, htm, hsfl, hmv, hmvd])
          · exact absurd h (by simp [luks_adopt_paths, hlast, htm, hsfl, hmv])
      · exact hrec_case (by simp [luks_adopt_paths, hlast, htm])

theorem luks_adopt_sys_WT (msg base : String) (vg luks_dev : BlockDev)
    (hld : legal_edge TYPE_LV luks_dev.device_type = true) :
    ∀ (sys : List (String × BlockDevPaths)) (sys2 : List (String × BlockDevPaths))
      (pushed : BlockDevPaths),
      sysWT sys →
      luks_adopt_sys msg base vg luks_dev sys = .ok (sys2, pushed) →
      sysWT sys2 ∧ (∀ p ∈ pushed, wellTyped p = true) := by
  intro sys
  induction sys with
  | nil =>
    intro sys2 pushed _ h
    injection h with h2
    injection h2 with ha hb
    rw [← ha, ← hb]
    exact ⟨fun kv hkv => (by cases hkv), fun p hp => (by cases hp)⟩
  | cons kv t ih =>
    intro sys2 pushed hwt h
    obtain ⟨k, ps⟩ := kv
    have hwthead : ∀ p ∈ ps, wellTyped p = true :=
      fun p hp => hwt (k, ps) (List.mem_cons_self _ t) p hp
    have hwtt : sysWT t := fun kv2 hkv2 => hwt kv2 (List.mem_cons_of_mem _ hkv2)
    cases hpaths : luks_adopt_paths msg base vg luks_dev ps with
    | error e =>
      rw [show luks_adopt_sys msg base vg luks_dev ((k, ps) :: t) = .error e by
        simp [luks_adopt_sys, hpaths]] at h
      cases h
    | ok o =>
      cases o with
      | none =>
        rw [show luks_adopt_sys msg base vg luks_dev ((k, ps) :: t) =
            (match luks_adopt_sys msg base vg luks_dev t with
             | .error e => .error e
             | .ok (t2, pushed) => .ok ((k, ps) :: t2, pushed)) by
          simp [luks_adopt_sys, hpaths]] at h
        cases hrec : luks_adopt_sys msg base vg luks_dev t with
        | error e => rw [hrec] at h; cases h
        | ok pr =>
          obtain ⟨t2, pushed2⟩ := pr
          rw [hrec] at h
          injection h with h2
          rcases ih t2 pushed2 hwtt hrec with ⟨ha, hb⟩
          injection h2 with hx hy
          rw [← hx, ← hy]
          refine ⟨?_, hb⟩
          intro kv2 hkv2
          rcases List.mem_cons.mp hkv2 with h5 | h5
          · subst h5; exact hwthead
          · exact ha kv2 h5
      | some pr =>
        obtain ⟨ps2, newp⟩ := pr
        rw [show luks_adopt_sys msg base vg luks_dev ((k, ps) :: t) =
            (match luks_adopt_sys msg base vg luks_dev t with
             | .error e => .error e
             | .ok (t2, pushed) => .ok ((k, ps2) :: t2, newp :: pushed)) by
          simp [luks_adopt_sys, hpaths]] at h
        cases hrec : luks_adopt_sys msg base vg luks_dev t with
        | error e => rw [hrec] at h; cases h
        | ok pr2 =>
          obtain ⟨t2, pushed2⟩ := pr2
          rw [hrec] at h
          injection h with h2
          rcases ih t2 pushed2 hwtt hrec with ⟨ha, hb⟩
          rcases luks_adopt_paths_WT msg base vg luks_dev hld ps ps2 newp
            hwthead hpaths with ⟨hc, hd⟩
          injection h2 with hx hy
          rw [← hx, ← hy]
          constructor
          · intro kv2 hkv2
            rcases List.mem_cons.mp hkv2 with h5 | h5
            · subst h5; exact hc
            · exact ha kv2 h5
          · intro p hp
            rcases List.mem_cons.mp hp with h5 | h5
            · exact h5 ▸ hd
            · exact hb p h5

theorem luks_append_valids_WT (msg luks_name base : String) (luks_dev : BlockDev)
    (hld : ∀ t : BlockDevType, is_luks_base t = true →
      legal_edge t luks_dev.device_type = true) :
    ∀ (valids v2 : BlockDevPaths) (f : Bool),
      validsWT valids →
      luks_append_valids msg luks_name base luks_dev valids = .ok (v2, f) →
      validsWT v2 := by
  intro valids
  induction valids with
  | nil =>
    intro v2 f _ h
    injection h with h2
    injection h2 with ha _
    rw [← ha]
    exact fun p hp => by cases hp
  | cons p t ih =>
    intro v2 f hwt h
    have hwtp : wellTyped p = true := hwt p (List.mem_cons_self p t)
    have hwtt : validsWT t := fun q hq => hwt q (List.mem_cons_of_mem p hq)
    cases hlast : p.getLast? with
    | none =>
      exact absurd h (by simp [luks_append_valids, hlast])
    | some tm =>
      by_cases htm : tm.device = base
      · by_cases hbase : is_luks_base tm.device_type
        · rw [show luks_append_valids msg luks_name base luks_dev (p :: t) =
              (match luks_append_valids msg luks_name base luks_dev t with
               | .error e => .error e
               | .ok (ps2, _) => .ok ((p ++ [luks_dev]) :: ps2, true)) by
            simp [luks_append_valids, hlast, htm, hbase]] at h
          cases hrec : luks_append_valids msg luks_name base luks_dev t with
          | error e => rw [hrec] at h; cases h
          | ok pr =>
            obtain ⟨ps2, f2⟩ := pr
            rw [hrec] at h
            injection h with h2
            injection h2 with ha _
            rw [← ha]
            intro q hq
            rcases List.mem_cons.mp hq with h5 | h5
            · rw [h5]
              exact wellTyped_append p luks_dev tm hwtp hlast
                (hld tm.device_type hbase)
            · exact ih ps2 f2 hwtt hrec q h5
        · exact absurd h (by simp [luks_append_valids, hlast, htm, hbase])
      · rw [show luks_append_valids msg luks_name base luks_dev (p :: t) =
            (match luks_append_valids msg luks_name base luks_dev t with
             | .error e => .error e
             | .ok (ps2, f) => .ok (p :: ps2, f)) by
          simp [luks_append_valids, hlast, htm]] at h
        cases hrec : luks_append_valids msg luks_name base luks_dev t with
        | error e => rw [hrec] at h; cases h
        | ok pr =>
          obtain ⟨ps2, f2⟩ := pr
          rw [hrec] at h
          injection h with h2
          injection h2 with ha _
          rw [← ha]
          intro q hq
          rcases List.mem_cons.mp hq with h5 | h5
          · exact h5 ▸ hwtp
          · exact ih ps2 f2 hwtt hrec q h5

theorem collect_valid_luks_WT (luks : ManifestLuks) (hostFiles : List String)
    (sys_fs_devs fr : List (String × BlockDevType))
    (sys : List (String × BlockDevPaths)) (valids : BlockDevPaths)
    (fr2 : List (String × BlockDevType)) (sys2 : List (String × BlockDevPaths))
    (v2 : BlockDevPaths)
    (hsys : sysWT sys) (hval : validsWT valids)
    (hok : collect_valid_luks luks hostFiles sys_fs_devs fr sys valids =
      .ok (fr2, sys2, v2)) :
    sysWT sys2 ∧ validsWT v2 := by
  by_cases h1 : ("/dev/mapper/" ++ luks.name) ∈ hostFiles
  · exact absurd hok (by simp [collect_valid_luks, h1])
  · by_cases h2 : (lookupS sys_fs_devs luks.device).isSome
    · exact absurd hok (by simp [collect_valid_luks, h1, h2])
    · cases hfind : luks_find_vg "dm luks validation failed" luks.device sys with
      | error e =>
        exact absurd hok (by simp [collect_valid_luks, h1, h2, hfind])
      | ok o =>
        cases o with
        | some vg =>
          cases hadopt : luks_adopt_sys "dm luks validation failed" luks.device vg
              ⟨"/dev/mapper/" ++ luks.name, TYPE_LUKS⟩ sys with
          | error e =>
            exact absurd hok (by simp [collect_valid_luks, h1, h2, hfind, hadopt])
          | ok pr =>
            obtain ⟨sysa, pushed⟩ := pr
            rw [show collect_valid_luks luks hostFiles sys_fs_devs fr sys valids =
                .ok (fr, sysa, valids ++ pushed) by
              simp [collect_valid_luks, h1, h2, hfind, hadopt]] at hok
            injection hok with h3
            injection h3 with _ h4
            injection h4 with ha hb
            rcases luks_adopt_sys_WT "dm luks validation failed" luks.device vg
              ⟨"/dev/mapper/" ++ luks.name, TYPE_LUKS⟩ rfl sys sysa pushed hsys hadopt with
              ⟨hc, hd⟩
            rw [← ha, ← hb]
            refine ⟨hc, ?_⟩
            intro p hp
            rcases List.mem_append.mp hp with h5 | h5
            · exact hval p h5
            · exact hd p h5
        | none =>
          cases happ : luks_append_valids "dm luks validation failed" luks.name
              luks.device ⟨"/dev/mapper/" ++ luks.name, TYPE_LUKS⟩ valids with
          | error e =>
            exact absurd hok (by simp [collect_valid_luks, h1, h2, hfind, happ])
          | ok pr =>
            obtain ⟨va, f⟩ := pr
            have hvaWT : validsWT va :=
              luks_append_valids_WT "dm luks validation failed" luks.name luks.device
                ⟨"/dev/mapper/" ++ luks.name, TYPE_LUKS⟩
                (fun t ht => by
                  cases t with
                  | disk => rfl
                  | partition => rfl
                  | unknownBlock => rfl
                  | fs s => cases ht
                  | dm d =>
                    cases d with
                    | luks => cases ht
                    | lvmPv => cases ht
                    | lvmVg => cases ht
                    | lvmLv => rfl)
                valids va f hval happ
            cases f with
            | true =>
              rw [show collect_valid_luks luks hostFiles sys_fs_devs fr sys valids =
                  .ok (fr, sys, va) by
                simp [collect_valid_luks, h1, h2, hfind, happ]] at hok
              injection hok with h3
              injection h3 with _ h4
              injection h4 with ha hb
              rw [← ha, ← hb]
              exact ⟨hsys, hvaWT⟩
            | false =>
              have hfresh : wellTyped
                  [⟨luks.device, TYPE_UNKNOWN⟩,
                   ⟨"/dev/mapper/" ++ luks.name, TYPE_LUKS⟩] = true := rfl
              by_cases h6 : (lookupS fr luks.device).isSome
              · rw [show collect_valid_luks luks hostFiles sys_fs_devs fr sys valids =
                    .ok (removeS fr luks.device, sys, valids ++
                      [[⟨luks.device, TYPE_UNKNOWN⟩,
                        ⟨"/dev/mapper/" ++ luks.name, TYPE_LUKS⟩]]) by
                  simp [collect_valid_luks, h1, h2, hfind, happ, h6]] at hok
                injection hok with h3
                injection h3 with _ h4
                injection h4 with ha hb
                rw [← ha, ← hb]
                refine ⟨hsys, ?_⟩
                intro p hp
                rcases List.mem_append.mp hp with h5 | h5
                · exact hval p h5
                · rw [List.mem_singleton] at h5
                  exact h5 ▸ hfresh
              · by_cases h7 : luks.device ∈ hostFiles
                · rw [show collect_valid_luks luks hostFiles sys_fs_devs fr sys valids =
                      .ok (fr, sys, valids ++
                        [[⟨luks.device, TYPE_UNKNOWN⟩,
                          ⟨"/dev/mapper/" ++ luks.name, TYPE_LUKS⟩]]) by
                    simp [collect_valid_luks, h1, h2, hfind, happ, h6, h7]] at hok
                  injection hok with h3
                  injection h3 with _ h4
                  injection h4 with ha hb
                  rw [← ha, ← hb]
                  refine ⟨hsys, ?_⟩
                  intro p hp
                  rcases List.mem_append.mp hp with h5 | h5
                  · exact hval p h5
                  · rw [List.mem_singleton] at h5
                    exact h5 ▸ hfresh
                · exact absurd hok (by
                    simp [collect_valid_luks, h1, h2, hfind, happ, h6, h7])

theorem pv_append_valids_WT (msg pv : String) :
    ∀ (valids v2 : BlockDevPaths),
      validsWT valids →
      pv_append_valids msg pv valids = .ok (some v2) →
      validsWT v2 := by
  intro valids
  induction valids with
  | nil =>
    intro v2 _ h
    cases h
  | cons p t ih =>
    intro v2 hwt h
    have hwtp : wellTyped p = true := hwt p (List.mem_cons_self p t)
    have hwtt : validsWT t := fun q hq => hwt q (List.mem_cons_of_mem p hq)
    cases hlast : p.getLast? with
    | none =>
      exact absurd h (by simp [pv_append_valids, hlast])
    | some tm =>
      by_cases htm : tm.device = pv
      · by_cases hdup : tm.device_type = TYPE_PV
        · exact absurd h (by simp [pv_append_valids, hlast, htm, hdup])
        · by_cases hbase : is_pv_base tm.device_type
          · rw [show pv_append_valids msg pv (p :: t) =
                .ok (some ((p ++ [⟨pv, TYPE_PV⟩]) :: t)) by
              simp [pv_append_valids, hlast, htm, hdup, hbase]] at h
            injection h with h2
            injection h2 with h3
            rw [← h3]
            intro q hq
            rcases List.mem_cons.mp hq with h5 | h5
            · rw [h5]
              exact wellTyped_append p ⟨pv, TYPE_PV⟩ tm hwtp hlast hbase
            · exact hwtt q h5
          · exact absurd h (by simp [pv_append_valids, hlast, htm, hdup, hbase])
      · rw [show pv_append_valids msg pv (p :: t) =
            (match pv_append_valids msg pv t with
             | .error e => .error e
             | .ok none => .ok none
             | .ok (some ps2) => .ok (some (p :: ps2))) by
          simp [pv_append_valids, hlast, htm]] at h
        cases hrec : pv_append_valids msg pv t with
        | error e => rw [hrec] at h; cases h
        | ok o =>
          cases o with
          | none => rw [hrec] at h; cases h
          | some ps2 =>
            rw [hrec] at h
            injection h with h2
            injection h2 with h3
            rw [← h3]
            intro q hq
            rcases List.mem_cons.mp hq with h5 | h5
            · exact h5 ▸ hwtp
            · exact ih ps2 hwtt hrec q h5

theorem collect_valid_pv_WT (pv : String) (hostFiles : List String)
    (sys_fs_devs fr : List (String × BlockDevType))
    (sys : List (String × BlockDevPaths)) (valids : BlockDevPaths)
    (fr2 : List (String × BlockDevType)) (sys2 : List (String × BlockDevPaths))
    (v2 : BlockDevPaths)
    (hsys : sysWT sys) (hval : validsWT valids)
    (hok : collect_valid_pv pv hostFiles sys_fs_devs fr sys valids =
      .ok (fr2, sys2, v2)) :
    sysWT sys2 ∧ validsWT v2 := by
  have hfreshWT : wellTyped [⟨pv, TYPE_UNKNOWN⟩, ⟨pv, TYPE_PV⟩] = true := rfl
  by_cases h1 : (lookupS sys_fs_devs pv).isSome
  · exact absurd hok (by simp [collect_valid_pv, h1])
  · cases hfind : pv_find_sys_vg ((lookupS sys pv).getD []) with
    | some node =>
      exact absurd hok (by simp [collect_valid_pv, h1, hfind])
    | none =>
      cases happ : pv_append_valids "lvm pv validation failed" pv valids with
      | error e =>
        exact absurd hok (by simp [collect_valid_pv, h1, hfind, happ])
      | ok o =>
        cases o with
        | some va =>
          rw [show collect_valid_pv pv hostFiles sys_fs_devs fr sys valids =
              .ok (fr, sys, va) by simp [collect_valid_pv, h1, hfind, happ]] at hok
          injection hok with h3
          injection h3 with _ h4
          injection h4 with ha hb
          rw [← ha, ← hb]
          exact ⟨hsys, pv_append_valids_WT _ pv valids va hval happ⟩
        | none =>
          by_cases h6 : (lookupS fr pv).isSome
          · rw [show collect_valid_pv pv hostFiles sys_fs_devs fr sys valids =
                .ok (removeS fr pv, sys,
                  valids ++ [[⟨pv, TYPE_UNKNOWN⟩, ⟨pv, TYPE_PV⟩]]) by
              simp [collect_valid_pv, h1, hfind, happ, h6]] at hok
            injection hok with h3
            injection h3 with _ h4
            injection h4 with ha hb
            rw [← ha, ← hb]
            refine ⟨hsys, ?_⟩
            intro q hq
            rcases List.mem_append.mp hq with h5 | h5
            · exact hval q h5
            · rw [List.mem_singleton] at h5
              exact h5 ▸ hfreshWT
          · by_cases h7 : pv ∈ hostFiles
            · rw [show collect_valid_pv pv hostFiles sys_fs_devs fr sys valids =
                  .ok (fr, sys,
                    valids ++ [[⟨pv, TYPE_UNKNOWN⟩, ⟨pv, TYPE_PV⟩]]) by
                simp [collect_valid_pv, h1, hfind, happ, h6, h7]] at hok
              injection hok with h3
              injection h3 with _ h4
              injection h4 with ha hb
              rw [← ha, ← hb]
              refine ⟨hsys, ?_⟩
              intro q hq
              rcases List.mem_append.mp hq with h5 | h5
              · exact hval q h5
              · rw [List.mem_singleton] at h5
                exact h5 ▸ hfreshWT
            · exact absurd hok (by simp [collect_valid_pv, h1, hfind, happ, h6, h7])

theorem vg_step_WT (vg : ManifestLvmVg) (fs_devs : List (String × BlockDevType))
    (s s' : List (String × BlockDevPaths) × BlockDevPaths) (b : String)
    (hsys : sysWT s.1) (hval : validsWT s.2)
    (hok : vg_step vg fs_devs s b = .ok s') :
    sysWT s'.1 ∧ validsWT s'.2 := by
  by_cases h1 : (lookupS fs_devs b).isSome
  · exact absurd hok (by simp [vg_step, h1])
  · cases hfind : pv_find_sys_vg ((lookupS s.1 b).getD []) with
    | some node =>
      exact absurd hok (by simp [vg_step, h1, hfind])
    | none =>
      cases happ : vg_append_valids "lvm vg validation failed" vg.name b
          ⟨"/dev/" ++ vg.name, TYPE_VG⟩ s.2 with
      | error e =>
        exact absurd hok (by simp [vg_step, h1, hfind, happ])
      | ok o =>
        cases o with
        | some v2 =>
          rw [show vg_step vg fs_devs s b = .ok (s.1, v2) by
            simp [vg_step, h1, hfind, happ]] at hok
          injection hok with h2
          rw [← h2]
          refine ⟨hsys, ?_⟩
          rcases vg_append_valids_some_decomp _ _ _ _ s.2 v2 happ with
            ⟨l1, p, l3, he1, he2, ⟨tm, htm, _, hbase⟩, _⟩
          have hmem1 : ∀ q ∈ l1, q ∈ s.2 := by
            intro q hq
            rw [he1]
            exact List.mem_append.mpr (Or.inl hq)
          have hmem3 : ∀ q ∈ l3, q ∈ s.2 := by
            intro q hq
            rw [he1]
            exact List.mem_append.mpr (Or.inr (List.mem_cons_of_mem p hq))
          have hmemp : p ∈ s.2 := by
            rw [he1]
            exact List.mem_append.mpr (Or.inr (List.mem_cons_self p l3))
          rw [he2]
          intro q hq
          rcases List.mem_append.mp hq with h5 | h5
          · exact hval q (hmem1 q h5)
          · rcases List.mem_cons.mp h5 with h5 | h5
            · rw [h5]
              exact wellTyped_append p ⟨"/dev/" ++ vg.name, TYPE_VG⟩ tm
                (hval p hmemp) htm hbase
            · exact hval q (hmem3 q h5)
        | none =>
          cases hadopt : vg_adopt_sys "lvm vg validation failed" vg.name b
              ⟨"/dev/" ++ vg.name, TYPE_VG⟩ s.1 with
          | error e =>
            exact absurd hok (by simp [vg_step, h1, hfind, happ, hadopt])
          | ok o2 =>
            cases o2 with
            | none =>
              exact absurd hok (by simp [vg_step, h1, hfind, happ, hadopt])
            | some pr =>
              obtain ⟨sysa, newp⟩ := pr
              rw [show vg_step vg fs_devs s b = .ok (sysa, s.2 ++ [newp]) by
                simp [vg_step, h1, hfind, happ, hadopt]] at hok
              injection hok with h2
              rw [← h2]
              rcases vg_adopt_sys_some_decomp _ _ _ _ s.1 sysa newp hadopt with
                ⟨pre, k, ps, ps2, post, he1, he2, he3⟩
              rcases vg_adopt_paths_some_decomp _ _ _ _ ps ps2 newp he3 with
                ⟨q1, q, q3, tq, hf1, hf2, hf3, _, hf5, hf6⟩
              have hentry : (k, ps) ∈ s.1 := by
                rw [he1]
                exact List.mem_append.mpr (Or.inr (List.mem_cons_self _ post))
              have hqmem : q ∈ ps := by
                rw [hf1]
                exact List.mem_append.mpr (Or.inr (List.mem_cons_self q q3))
              have hqWT : wellTyped q = true := hsys (k, ps) hentry q hqmem
              constructor
              · rw [he2]
                intro kv hkv p2 hp2
                rcases List.mem_append.mp hkv with h5 | h5
                · have hkv2 : kv ∈ s.1 := by
                    rw [he1]
                    exact List.mem_append.mpr (Or.inl h5)
                  exact hsys kv hkv2 p2 hp2
                · rcases List.mem_cons.mp h5 with h5 | h5
                  · subst h5
                    simp only at hp2
                    rw [hf2] at hp2
                    rcases List.mem_append.mp hp2 with h6 | h6
                    · have : p2 ∈ ps := by
                        rw [hf1]
                        exact List.mem_append.mpr (Or.inl h6)
                      exact hsys (k, ps) hentry p2 this
                    · rcases List.mem_cons.mp h6 with h6 | h6
                      · rw [h6]
                        rfl
                      · have : p2 ∈ ps := by
                          rw [hf1]
                          exact List.mem_append.mpr (Or.inr (List.mem_cons_of_mem q h6))
                        exact hsys (k, ps) hentry p2 this
                  · have hkv2 : kv ∈ s.1 := by
                      rw [he1]
                      exact List.mem_append.mpr (Or.inr (List.mem_cons_of_mem _ h5))
                    exact hsys kv hkv2 p2 hp2
              · intro p2 hp2
                rcases List.mem_append.mp hp2 with h5 | h5
                · exact hval p2 h5
                · rw [List.mem_singleton] at h5
                  rw [h5, hf6]
                  exact wellTyped_append q ⟨"/dev/" ++ vg.name, TYPE_VG⟩ tq hqWT hf3 hf5

theorem tip_is_vg_elim (n : String) (p : BlockDevPath) (h : tip_is_vg n p = true) :
    ∃ tm, p.getLast? = some tm ∧ tm.device = n ∧ tm.device_type = TYPE_VG := by
  cases hlast : p.getLast? with
  | none =>
    rw [tip_is_vg, hlast] at h
    cases h
  | some tm =>
    rw [tip_is_vg, hlast] at h
    simp only [Bool.and_eq_true, beq_iff_eq] at h
    exact ⟨tm, rfl, h.1, h.2⟩

theorem disk_pair_WT (a b : String) :
    wellTyped [⟨a, TYPE_DISK⟩, ⟨b, TYPE_PART⟩] = true := rfl

theorem lv_pair_WT (t : BlockDevType) (h : t = TYPE_VG) :
    legal_edge t TYPE_LV = true := by
  rw [h]
  rfl

theorem lv_collect_valid_WT (lv : ManifestLvmLv)
    (fs_devs : List (String × BlockDevType))
    (sys : List (String × BlockDevPaths)) (valids : BlockDevPaths)
    (sys2 : List (String × BlockDevPaths)) (v2 : BlockDevPaths)
    (hsys : sysWT sys) (hval : validsWT valids)
    (hok : lv_collect_valid lv fs_devs sys valids = .ok (sys2, v2)) :
    sysWT sys2 ∧ validsWT v2 := by
  have hcore : ∀ (ha : sys = sys2)
      (hb : valids ++ ((valids.filter (tip_is_vg (vg_lv_name lv).1) ++
        ((sys.map Prod.snd).flatten.filter (tip_is_vg (vg_lv_name lv).1))).map
        (fun p => p ++ [⟨(vg_lv_name lv).2, TYPE_LV⟩])) = v2),
      sysWT sys2 ∧ validsWT v2 := by
    intro ha hb
    rw [← ha, ← hb]
    refine ⟨hsys, ?_⟩
    intro q hq
    rcases List.mem_append.mp hq with h5 | h5
    · exact hval q h5
    · rcases List.mem_map.mp h5 with ⟨r, hr, hq2⟩
      have hrWT : wellTyped r = true := by
        rcases List.mem_append.mp hr with h6 | h6
        · exact hval r (List.mem_filter.mp h6).1
        · rcases List.mem_filter.mp h6 with ⟨h7, _⟩
          rcases List.mem_flatten.mp h7 with ⟨ls, hls, hr2⟩
          rcases List.mem_map.mp hls with ⟨kv, hkv, hkv2⟩
          exact hsys kv hkv r (hkv2 ▸ hr2)
      have htip : tip_is_vg (vg_lv_name lv).1 r = true := by
        rcases List.mem_append.mp hr with h6 | h6
        · exact (List.mem_filter.mp h6).2
        · exact (List.mem_filter.mp h6).2
      rcases tip_is_vg_elim _ r htip with ⟨tm, htm, _, htmv⟩
      rw [← hq2]
      exact wellTyped_append r ⟨(vg_lv_name lv).2, TYPE_LV⟩ tm hrWT htm
        (lv_pair_WT tm.device_type htmv)
  cases hszv : lv.size with
  | none =>
    simp only [lv_collect_valid, hszv] at hok
    by_cases hempty : ((valids.filter (tip_is_vg (vg_lv_name lv).1) ++
        ((sys.map Prod.snd).flatten.filter (tip_is_vg (vg_lv_name lv).1)))).isEmpty = true
    · rw [if_pos hempty] at hok
      cases hok
    · rw [if_neg hempty] at hok
      injection hok with h2
      injection h2 with ha hb
      exact hcore ha hb
  | some sz =>
    cases hparse : parse_human_bytes sz with
    | error e =>
      exact absurd hok (by simp [lv_collect_valid, hszv, hparse])
    | ok u =>
      cases u
      simp only [lv_collect_valid, hszv, hparse] at hok
      by_cases hempty : ((valids.filter (tip_is_vg (vg_lv_name lv).1) ++
          ((sys.map Prod.snd).flatten.filter (tip_is_vg (vg_lv_name lv).1)))).isEmpty = true
      · rw [if_pos hempty] at hok
        cases hok
      · rw [if_neg hempty] at hok
        injection hok with h2
        injection h2 with ha hb
        exact hcore ha hb

theorem collect_dm_WT (hostFiles : List String)
    (fs_devs : List (String × BlockDevType)) (st st' : VState) (d : Dm)
    (hP : sysWT st.sys_lvms ∧ validsWT st.valids)
    (hok : collect_dm hostFiles fs_devs st d = .ok st') :
    sysWT st'.sys_lvms ∧ validsWT st'.valids := by
  cases d with
  | luks l =>
    cases hc : collect_valid_luks l hostFiles fs_devs st.fs_ready st.sys_lvms st.valids with
    | error e =>
      exact absurd hok (by simp [collect_dm, hc])
    | ok pr =>
      obtain ⟨fr, sys, v⟩ := pr
      rw [show collect_dm hostFiles fs_devs st (.luks l) = .ok ⟨fr, sys, v⟩ by
        simp [collect_dm, hc]] at hok
      injection hok with h2
      rw [← h2]
      exact collect_valid_luks_WT l hostFiles fs_devs st.fs_ready st.sys_lvms
        st.valids fr sys v hP.1 hP.2 hc
  | lvm lvm =>
    have hpv_pres : ∀ (s2 : VState) (pv : String) (s3 : VState),
        pv ∈ lvm.pvs.getD [] →
        (sysWT s2.sys_lvms ∧ validsWT s2.valids) →
        ((match collect_valid_pv pv hostFiles fs_devs s2.fs_ready s2.sys_lvms s2.valids with
         | .error e => .error e
         | .ok (fr, sys, v) => .ok ⟨fr, sys, v⟩ : Except VErr VState)) = .ok s3 →
        sysWT s3.sys_lvms ∧ validsWT s3.valids := by
      intro s2 pv s3 _ hP2 hstep
      cases hc : collect_valid_pv pv hostFiles fs_devs s2.fs_ready s2.sys_lvms s2.valids with
      | error e => rw [hc] at hstep; cases hstep
      | ok pr =>
        obtain ⟨fr, sys, v⟩ := pr
        rw [hc] at hstep
        injection hstep with h2
        rw [← h2]
        exact collect_valid_pv_WT pv hostFiles fs_devs s2.fs_ready s2.sys_lvms
          s2.valids fr sys v hP2.1 hP2.2 hc
    cases hf1 : foldE (fun st2 pv =>
        match collect_valid_pv pv hostFiles fs_devs st2.fs_ready st2.sys_lvms st2.valids with
        | .error e => .error e
        | .ok (fr, sys, v) => .ok (⟨fr, sys, v⟩ : VState)) st (lvm.pvs.getD []) with
    | error e =>
      exact absurd hok (by simp [collect_dm, hf1])
    | ok st3 =>
      have hP3 : sysWT st3.sys_lvms ∧ validsWT st3.valids :=
        foldE_inv_mem _ (fun s => sysWT s.sys_lvms ∧ validsWT s.valids)
          (lvm.pvs.getD []) (fun s b s' hb hPs hs => hpv_pres s b s' hb hPs hs)
          st st3 hP hf1
      cases hf2 : foldE (fun st4 vg =>
          match collect_valid_vg vg fs_devs st4.sys_lvms st4.valids with
          | .error e => .error e
          | .ok (sys, v) => .ok (⟨st4.fs_ready, sys, v⟩ : VState)) st3 (lvm.vgs.getD []) with
      | error e =>
        exact absurd hok (by simp [collect_dm, hf1, hf2])
      | ok st5 =>
        have hvg_pres : ∀ (s2 : VState) (vg : ManifestLvmVg) (s3 : VState),
            vg ∈ lvm.vgs.getD [] →
            (sysWT s2.sys_lvms ∧ validsWT s2.valids) →
            ((match collect_valid_vg vg fs_devs s2.sys_lvms s2.valids with
             | .error e => .error e
             | .ok (sys, v) => .ok ⟨s2.fs_ready, sys, v⟩ : Except VErr VState)) = .ok s3 →
            sysWT s3.sys_lvms ∧ validsWT s3.valids := by
          intro s2 vg s3 _ hP2 hstep
          cases hc : collect_valid_vg vg fs_devs s2.sys_lvms s2.valids with
          | error e => rw [hc] at hstep; cases hstep
          | ok pr =>
            obtain ⟨sys, v⟩ := pr
            rw [hc] at hstep
            injection hstep with h2
            rw [← h2]
            have hfold : foldE (vg_step vg fs_devs) (s2.sys_lvms, s2.valids) vg.pvs =
                .ok (sys, v) := hc
            have := foldE_inv_mem (vg_step vg fs_devs)
              (fun pr2 => sysWT pr2.1 ∧ validsWT pr2.2) vg.pvs
              (fun s b s' _ hPs hs => vg_step_WT vg fs_devs s s' b hPs.1 hPs.2 hs)
              (s2.sys_lvms, s2.valids) (sys, v) ⟨hP2.1, hP2.2⟩ hfold
            exact this
        have hP5 : sysWT st5.sys_lvms ∧ validsWT st5.valids :=
          foldE_inv_mem _ (fun s => sysWT s.sys_lvms ∧ validsWT s.valids)
            (lvm.vgs.getD []) (fun s b s' hb hPs hs => hvg_pres s b s' hb hPs hs)
            st3 st5 hP3 hf2
        have hlv_pres : ∀ (s2 : VState) (lv : ManifestLvmLv) (s3 : VState),
            lv ∈ lvm.lvs.getD [] →
            (sysWT s2.sys_lvms ∧ validsWT s2.valids) →
            ((match lv_collect_valid lv fs_devs s2.sys_lvms s2.valids with
             | .error e => .error e
             | .ok (sys, v) => .ok ⟨s2.fs_ready, sys, v⟩ : Except VErr VState)) = .ok s3 →
            sysWT s3.sys_lvms ∧ validsWT s3.valids := by
          intro s2 lv s3 _ hP2 hstep
          cases hc : lv_collect_valid lv fs_devs s2.sys_lvms s2.valids with
          | error e => rw [hc] at hstep; cases hstep
          | ok pr =>
            obtain ⟨sys, v⟩ := pr
            rw [hc] at hstep
            injection hstep with h2
            rw [← h2]
            exact lv_collect_valid_WT lv fs_devs s2.sys_lvms s2.valids sys v
              hP2.1 hP2.2 hc
        rw [show collect_dm hostFiles fs_devs st (.lvm lvm) =
            foldE (fun st6 lv =>
              match lv_collect_valid lv fs_devs st6.sys_lvms st6.valids with
              | .error e => .error e
              | .ok (sys, v) => .ok (⟨st6.fs_ready, sys, v⟩ : VState)) st5
              (lvm.lvs.getD []) by
          simp [collect_dm, hf1, hf2]] at hok
        exact foldE_inv_mem _ (fun s => sysWT s.sys_lvms ∧ validsWT s.valids)
          (lvm.lvs.getD []) (fun s b s' hb hPs hs => hlv_pres s b s' hb hPs hs)
          st5 st' hP5 hok

/-- A successful disk stage only appends two-node Disk-then-Partition paths,
so it preserves well-typedness of the store. -/
theorem validate_one_disk_WT (hostFiles : List String)
    (sys_fs_devs sys_fs_ready : List (String × BlockDevType))
    (valids v2 : BlockDevPaths) (d : ManifestDisk)
    (hval : validsWT valids)
    (hok : validate_one_disk hostFiles sys_fs_devs sys_fs_ready valids d = .ok v2) :
    validsWT v2 := by
  by_cases hdev : d.device ∈ hostFiles
  · rw [show validate_one_disk hostFiles sys_fs_devs sys_fs_ready valids d =
        foldE (fun v i =>
          let partition_name := partNameBase d.device ++ toString (i + 1)
          if (lookupS sys_fs_ready partition_name).isSome then
            .error (.badManifest
              ("partition validation failed: partition " ++ partition_name ++
                " already exists on system"))
          else if (lookupS sys_fs_devs partition_name).isSome then
            .error (.badManifest
              ("partition validation failed: partition " ++ partition_name ++
                " is already used"))
          else .ok (v ++ [[⟨d.device, TYPE_DISK⟩] ++ [⟨partition_name, TYPE_PART⟩]]))
          valids (List.range d.partitions.length) by
        simp [validate_one_disk, hdev]] at hok
    have hdec := foldE_appender _ (fun i =>
        [⟨d.device, TYPE_DISK⟩, ⟨claim_part_name d.device (i + 1), TYPE_PART⟩])
      (by
        intro acc i r hr
        by_cases h1 : (lookupS sys_fs_ready (partNameBase d.device ++ toString (i + 1))).isSome
        · simp [h1] at hr
        · by_cases h2 : (lookupS sys_fs_devs (partNameBase d.device ++ toString (i + 1))).isSome
          · simp [h1, h2] at hr
          · simp only [h1, h2, Bool.false_eq_true, if_false, Except.ok.injEq] at hr
            subst hr
            simp only [← part_name_eq]
            rfl)
      (List.range d.partitions.length) valids v2 hok
    rw [hdec]
    intro p hp
    rcases List.mem_append.mp hp with h5 | h5
    · exact hval p h5
    · rcases List.mem_map.mp h5 with ⟨i, _, hpi⟩
      rw [← hpi]
      exact disk_pair_WT d.device (claim_part_name d.device (i + 1))
  · exact absurd hok (by simp [validate_one_disk, hdev])

/-- C1: whenever validate_blk accepts a manifest against a well-typed system
LVM map, every path in the final manifest-derived store is well-typed: each
node kind is legal on its predecessor kind (Disk bases a Partition; a legal
PV base bases an LvmPv; an LvmPv bases an LvmVg; an LvmVg bases an LvmLv; a
legal LUKS base bases a Luks). -/
theorem c1_store_well_typed (m : Manifest) (hostFiles : List String)
    (sys_fs_devs sys_fs_ready : List (String × BlockDevType))
    (sys_lvms : List (String × BlockDevPaths)) (st : VState)
    (hsys : sysWT sys_lvms)
    (hok : validate_blk m hostFiles sys_fs_devs sys_fs_ready sys_lvms = .ok st) :
    ∀ p ∈ st.valids, wellTyped p = true := by
  cases hd : foldE (validate_one_disk hostFiles sys_fs_devs sys_fs_ready) []
      (m.disks.getD []) with
  | error e => exact absurd hok (by simp [validate_blk, hd])
  | ok valids0 =>
    have hv0 : validsWT valids0 :=
      foldE_inv_mem _ validsWT (m.disks.getD [])
        (fun s b s' _ hP hs =>
          validate_one_disk_WT hostFiles sys_fs_devs sys_fs_ready s s' b hP hs)
        [] valids0 (by intro p hp; cases hp) hd
    cases hdm : foldE (collect_dm hostFiles sys_fs_devs)
        ⟨sys_fs_ready, sys_lvms, valids0⟩ (m.dm.getD []) with
    | error e => exact absurd hok (by simp [validate_blk, hd, hdm])
    | ok stDM =>
      have hP : sysWT stDM.sys_lvms ∧ validsWT stDM.valids :=
        foldE_inv_mem _ (fun s => sysWT s.sys_lvms ∧ validsWT s.valids)
          (m.dm.getD [])
          (fun s b s' _ hPs hs => collect_dm_WT hostFiles sys_fs_devs s s' b hPs hs)
          ⟨sys_fs_ready, sys_lvms, valids0⟩ stDM ⟨hsys, hv0⟩ hdm
      cases hb : build_fs_ready_from_ready [] stDM.fs_ready with
      | error e => exact absurd hok (by simp [validate_blk, hd, hdm, hb])
      | ok s0 =>
        cases hat : add_valids_tips (add_sys_tips s0 stDM.sys_lvms) stDM.valids with
        | error e => exact absurd hok (by simp [validate_blk, hd, hdm, hb, hat])
        | ok s2 =>
          cases hcf : check_fs_declarations s2 m.rootfs.device
              (m.filesystems.getD []) (m.swap.getD []) with
          | error e => exact absurd hok (by simp [validate_blk, hd, hdm, hb, hat, hcf])
          | ok u =>
            cases u
            rw [show validate_blk m hostFiles sys_fs_devs sys_fs_ready sys_lvms =
                .ok stDM by simp [validate_blk, hd, hdm, hb, hat, hcf]] at hok
            injection hok with h
            rw [← h]
            exact hP.2

theorem c1_witness :
    wellTyped [⟨"/dev/sda", TYPE_DISK⟩, ⟨"/dev/sda1", TYPE_PART⟩] = true :=
  c1_store_well_typed c1wM ["/dev/sda"] [] [] []
    (VState.mk [] [] [[⟨"/dev/sda", TYPE_DISK⟩, ⟨"/dev/sda1", TYPE_PART⟩]])
    (by intro kv hkv; cases hkv) (by decide)
    [⟨"/dev/sda", TYPE_DISK⟩, ⟨"/dev/sda1", TYPE_PART⟩] (by decide)

/-
C5: tips of the manifest store versus keys of sys_fs_ready.
-/

/-- Removing one key never makes another key appear. -/
theorem lookupS_removeS_none {α : Type} (k x : String) :
    ∀ (m : List (String × α)), lookupS m x = none →
      lookupS (removeS m k) x = none := by
  intro m
  induction m with
  | nil => intro _; rfl
  | cons kv t ih =>
    obtain ⟨a, b⟩ := kv
    intro h
    by_cases hax : a = x
    · simp [lookupS, hax] at h
    · simp only [lookupS, if_neg hax] at h
      by_cases hak : a = k
      · rw [show removeS ((a, b) :: t) k = removeS t k by
          simp [removeS, List.filter_cons, hak]]
        exact ih h
      · rw [show removeS ((a, b) :: t) k = (a, b) :: removeS t k by
          simp [removeS, List.filter_cons, hak]]
        simp only [lookupS, if_neg hax]
        exact ih h

/-- The removed key is gone. -/
theorem lookupS_removeS_self {α : Type} (k : String) :
    ∀ (m : List (String × α)), lookupS (removeS m k) k = none := by
  intro m
  induction m with
  | nil => rfl
  | cons kv t ih =>
    obtain ⟨a, b⟩ := kv
    by_cases hak : a = k
    · rw [show removeS ((a, b) :: t) k = removeS t k by
        simp [removeS, List.filter_cons, hak]]
      exact ih
    · rw [show removeS ((a, b) :: t) k = (a, b) :: removeS t k by
        simp [removeS, List.filter_cons, hak]]
      simp only [lookupS, if_neg hak]
      exact ih

/-- An adopted LUKS clone always ends in the LUKS node. -/
theorem luks_adopt_paths_tip (msg base : String) (vg luks_dev : BlockDev) :
    ∀ (ps ps2 : BlockDevPaths) (newp : BlockDevPath),
      luks_adopt_paths msg base vg luks_dev ps = .ok (some (ps2, newp)) →
      newp.getLast? = some luks_dev := by
  intro ps
  induction ps with
  | nil =>
    intro ps2 newp h
    simp [luks_adopt_paths] at h
  | cons p t ih =>
    intro ps2 newp h
    cases hlast : p.getLast? with
    | none =>
      cases hrec : luks_adopt_paths msg base vg luks_dev t with
      | error e => exact absurd h (by simp [luks_adopt_paths, hlast, hrec])
      | ok o =>
        cases o with
        | none => exact absurd h (by simp [luks_adopt_paths, hlast, hrec])
        | some pr =>
          obtain ⟨ps3, np⟩ := pr
          rw [show luks_adopt_paths msg base vg luks_dev (p :: t) =
              .ok (some (p :: ps3, np)) by simp [luks_adopt_paths, hlast, hrec]] at h
          injection h with h2
          injection h2 with h3
          injection h3 with h4 h5
          exact h5 ▸ ih ps3 np hrec
    | some tm =>
      by_cases htm : tm.device = base
      · cases hsfl : secondFromLast p with
        | none => exact absurd h (by simp [luks_adopt_paths, hlast, htm, hsfl])
        | some mv =>
          by_cases hmt : mv.device_type = TYPE_VG
          · by_cases hmd : mv.device = vg.device
            · rw [show luks_adopt_paths msg base vg luks_dev (p :: t) =
                  .ok (some (([] : BlockDevPath) :: t, p ++ [luks_dev])) by
                simp [luks_adopt_paths, hlast, htm, hsfl, hmt, hmd]] at h
              injection h with h2
              injection h2 with h3
              injection h3 with h4 h5
              rw [← h5]
              exact List.getLast?_concat _
            · cases hrec : luks_adopt_paths msg base vg luks_dev t with
              | error e =>
                exact absurd h (by simp [luks_adopt_paths, hlast, htm, hsfl, hmt, hmd, hrec])
              | ok o =>
                cases o with
                | none =>
                  exact absurd h (by simp [luks_adopt_paths, hlast, htm, hsfl, hmt, hmd, hrec])
                | some pr =>
                  obtain ⟨ps3, np⟩ := pr
                  rw [show luks_adopt_paths msg base vg luks_dev (p :: t) =
                      .ok (some (p :: ps3, np)) by
                    simp [luks_adopt_paths, hlast, htm, hsfl, hmt, hmd, hrec]] at h
                  injection h with h2
                  injection h2 with h3
                  injection h3 with h4 h5
                  exact h5 ▸ ih ps3 np hrec
          · exact absurd h (by simp [luks_adopt_paths, hlast, htm, hsfl, hmt])
      · cases hrec : luks_adopt_paths msg base vg luks_dev t with
        | error e => exact absurd h (by simp [luks_adopt_paths, hlast, htm, hrec])
        | ok o =>
          cases o with
          | none => exact absurd h (by simp [luks_adopt_paths, hlast, htm, hrec])
          | some pr =>
            obtain ⟨ps3, np⟩ := pr
            rw [show luks_adopt_paths msg base vg luks_dev (p :: t) =
                .ok (some (p :: ps3, np)) by simp [luks_adopt_paths, hlast, htm, hrec]] at h
            injection h with h2
            injection h2 with h3
            injection h3 with h4 h5
            exact h5 ▸ ih ps3 np hrec

/-- Every path pushed by the LUKS sys adoption ends in the LUKS node. -/
theorem luks_adopt_sys_tips (msg base : String) (vg luks_dev : BlockDev) :
    ∀ (sys sys2 : List (String × BlockDevPaths)) (pushed : BlockDevPaths),
      luks_adopt_sys msg base vg luks_dev sys = .ok (sys2, pushed) →
      ∀ q ∈ pushed, q.getLast? = some luks_dev := by
  intro sys
  induction sys with
  | nil =>
    intro sys2 pushed h q hq
    simp only [luks_adopt_sys] at h
    injection h with h2
    injection h2 with h3 h4
    rw [← h4] at hq
    cases hq
  | cons kv t ih =>
    obtain ⟨k, ps⟩ := kv
    intro sys2 pushed h q hq
    cases hadopt : luks_adopt_paths msg base vg luks_dev ps with
    | error e => exact absurd h (by simp [luks_adopt_sys, hadopt])
    | ok o =>
      cases o with
      | none =>
        cases hrec : luks_adopt_sys msg base vg luks_dev t with
        | error e => exact absurd h (by simp [luks_adopt_sys, hadopt, hrec])
        | ok pr =>
          obtain ⟨t2, pu⟩ := pr
          rw [show luks_adopt_sys msg base vg luks_dev ((k, ps) :: t) =
              .ok ((k, ps) :: t2, pu) by simp [luks_adopt_sys, hadopt, hrec]] at h
          injection h with h2
          injection h2 with h3 h4
          rw [← h4] at hq
          exact ih t2 pu hrec q hq
      | some pr0 =>
        obtain ⟨ps2, newp⟩ := pr0
        cases hrec : luks_adopt_sys msg base vg luks_dev t with
        | error e => exact absurd h (by simp [luks_adopt_sys, hadopt, hrec])
        | ok pr =>
          obtain ⟨t2, pu⟩ := pr
          rw [show luks_adopt_sys msg base vg luks_dev ((k, ps) :: t) =
              .ok ((k, ps2) :: t2, newp :: pu) by simp [luks_adopt_sys, hadopt, hrec]] at h
          injection h with h2
          injection h2 with h3 h4
          rw [← h4] at hq
          rcases List.mem_cons.mp hq with h5 | h5
          · rw [h5]
            exact luks_adopt_paths_tip msg base vg luks_dev ps ps2 newp hadopt
          · exact ih t2 pu hrec q h5

/-- Every path the LUKS store search returns is either an untouched store
path or ends in the LUKS node. -/
theorem luks_append_valids_mem (msg ln base : String) (luks_dev : BlockDev) :
    ∀ (v v2 : BlockDevPaths) (f : Bool),
      luks_append_valids msg ln base luks_dev v = .ok (v2, f) →
      ∀ q ∈ v2, q ∈ v ∨ q.getLast? = some luks_dev := by
  intro v
  induction v with
  | nil =>
    intro v2 f h q hq
    simp only [luks_append_valids] at h
    injection h with h2
    injection h2 with h3 h4
    rw [← h3] at hq
    cases hq
  | cons p t ih =>
    intro v2 f h q hq
    cases hlast : p.getLast? with
    | none => exact absurd h (by simp [luks_append_valids, hlast])
    | some tm =>
      by_cases htm : tm.device = base
      · by_cases hbase : is_luks_base tm.device_type
        · cases hrec : luks_append_valids msg ln base luks_dev t with
          | error e => exact absurd h (by simp [luks_append_valids, hlast, htm, hbase, hrec])
          | ok pr =>
            obtain ⟨ps2, f2⟩ := pr
            rw [show luks_append_valids msg ln base luks_dev (p :: t) =
                .ok ((p ++ [luks_dev]) :: ps2, true) by
              simp [luks_append_valids, hlast, htm, hbase, hrec]] at h
            injection h with h2
            injection h2 with h3 h4
            rw [← h3] at hq
            rcases List.mem_cons.mp hq with h5 | h5
            · right
              rw [h5]
              exact List.getLast?_concat _
            · rcases ih ps2 f2 hrec q h5 with h6 | h6
              · exact Or.inl (List.mem_cons_of_mem p h6)
              · exact Or.inr h6
        · exact absurd h (by simp [luks_append_valids, hlast, htm, hbase])
      · cases hrec : luks_append_valids msg ln base luks_dev t with
        | error e => exact absurd h (by simp [luks_append_valids, hlast, htm, hrec])
        | ok pr =>
          obtain ⟨ps2, f2⟩ := pr
          rw [show luks_append_valids msg ln base luks_dev (p :: t) =
              .ok (p :: ps2, f2) by simp [luks_append_valids, hlast, htm, hrec]] at h
          injection h with h2
          injection h2 with h3 h4
          rw [← h3] at hq
          rcases List.mem_cons.mp hq with h5 | h5
          · exact Or.inl (h5 ▸ List.mem_cons_self p t)
          · rcases ih ps2 f2 hrec q h5 with h6 | h6
            · exact Or.inl (List.mem_cons_of_mem p h6)
            · exact Or.inr h6

/-- Every path the PV store search returns is either an untouched store path
or extends a store path whose tip device already was the PV device. -/
theorem pv_append_valids_mem (msg pv : String) :
    ∀ (v v2 : BlockDevPaths),
      pv_append_valids msg pv v = .ok (some v2) →
      ∀ q ∈ v2, q ∈ v ∨
        (q.getLast? = some ⟨pv, TYPE_PV⟩ ∧
          ∃ p ∈ v, ∃ tm, p.getLast? = some tm ∧ tm.device = pv) := by
  intro v
  induction v with
  | nil =>
    intro v2 h
    cases h
  | cons p t ih =>
    intro v2 h q hq
    cases hlast : p.getLast? with
    | none => exact absurd h (by simp [pv_append_valids, hlast])
    | some tm =>
      by_cases htm : tm.device = pv
      · by_cases hdup : tm.device_type = TYPE_PV
        · exact absurd h (by simp [pv_append_valids, hlast, htm, hdup])
        · by_cases hbase : is_pv_base tm.device_type
          · rw [show pv_append_valids msg pv (p :: t) =
                .ok (some ((p ++ [⟨pv, TYPE_PV⟩]) :: t)) by
              simp [pv_append_valids, hlast, htm, hdup, hbase]] at h
            injection h with h2
            injection h2 with h3
            rw [← h3] at hq
            rcases List.mem_cons.mp hq with h5 | h5
            · right
              refine ⟨by rw [h5]; exact List.getLast?_concat _,
                p, List.mem_cons_self p t, tm, hlast, htm⟩
            · exact Or.inl (List.mem_cons_of_mem p h5)
          · exact absurd h (by simp [pv_append_valids, hlast, htm, hdup, hbase])
      · cases hrec : pv_append_valids msg pv t with
        | error e => exact absurd h (by simp [pv_append_valids, hlast, htm, hrec])
        | ok o =>
          cases o with
          | none => exact absurd h (by simp [pv_append_valids, hlast, htm, hrec])
          | some ps2 =>
            rw [show pv_append_valids msg pv (p :: t) = .ok (some (p :: ps2)) by
              simp [pv_append_valids, hlast, htm, hrec]] at h
            injection h with h2
            injection h2 with h3
            rw [← h3] at hq
            rcases List.mem_cons.mp hq with h5 | h5
            · exact Or.inl (h5 ▸ List.mem_cons_self p t)
            · rcases ih ps2 hrec q h5 with h6 | h6
              · exact Or.inl (List.mem_cons_of_mem p h6)
              · rcases h6 with ⟨h7, p2, hp2, tm2, h8, h9⟩
                exact Or.inr ⟨h7, p2, List.mem_cons_of_mem p hp2, tm2, h8, h9⟩

/-- The LUKS validator keeps store tips off the fs-ready keys, provided the
mapper name it synthesizes was never an fs-ready key. -/
theorem collect_valid_luks_free (luks : ManifestLuks) (hostFiles : List String)
    (sys_fs_devs fr0 fr : List (String × BlockDevType))
    (sys : List (String × BlockDevPaths)) (valids : BlockDevPaths)
    (fr2 : List (String × BlockDevType)) (sys2 : List (String × BlockDevPaths))
    (v2 : BlockDevPaths)
    (hn : lookupS fr0 ("/dev/mapper/" ++ luks.name) = none)
    (hfree : tipsFree fr valids) (hsub : keysSub fr fr0)
    (hok : collect_valid_luks luks hostFiles sys_fs_devs fr sys valids =
      .ok (fr2, sys2, v2)) :
    tipsFree fr2 v2 ∧ keysSub fr2 fr0 := by
  have hnfr : lookupS fr ("/dev/mapper/" ++ luks.name) = none := by
    by_contra h
    exact hsub _ h hn
  by_cases h1 : ("/dev/mapper/" ++ luks.name) ∈ hostFiles
  · exact absurd hok (by simp [collect_valid_luks, h1])
  · by_cases h2 : (lookupS sys_fs_devs luks.device).isSome
    · exact absurd hok (by simp [collect_valid_luks, h1, h2])
    · cases hfind : luks_find_vg "dm luks validation failed" luks.device sys with
      | error e =>
        exact absurd hok (by simp [collect_valid_luks, h1, h2, hfind])
      | ok o =>
        cases o with
        | some vg =>
          cases hadopt : luks_adopt_sys "dm luks validation failed" luks.device vg
              ⟨"/dev/mapper/" ++ luks.name, TYPE_LUKS⟩ sys with
          | error e =>
            exact absurd hok (by simp [collect_valid_luks, h1, h2, hfind, hadopt])
          | ok pr =>
            obtain ⟨sysa, pushed⟩ := pr
            rw [show collect_valid_luks luks hostFiles sys_fs_devs fr sys valids =
                .ok (fr, sysa, valids ++ pushed) by
              simp [collect_valid_luks, h1, h2, hfind, hadopt]] at hok
            injection hok with h3
            injection h3 with hfr h4
            injection h4 with ha hb
            rw [← hfr, ← hb]
            refine ⟨?_, hsub⟩
            intro p hp tm htm
            rcases List.mem_append.mp hp with h5 | h5
            · exact hfree p h5 tm htm
            · have htip := luks_adopt_sys_tips "dm luks validation failed" luks.device vg
                ⟨"/dev/mapper/" ++ luks.name, TYPE_LUKS⟩ sys sysa pushed hadopt p h5
              rw [htip] at htm
              injection htm with h6
              rw [← h6]
              exact hnfr
        | none =>
          cases happ : luks_append_valids "dm luks validation failed" luks.name
              luks.device ⟨"/dev/mapper/" ++ luks.name, TYPE_LUKS⟩ valids with
          | error e =>
            exact absurd hok (by simp [collect_valid_luks, h1, h2, hfind, happ])
          | ok pr =>
            obtain ⟨va, f⟩ := pr
            cases f with
            | true =>
              rw [show collect_valid_luks luks hostFiles sys_fs_devs fr sys valids =
                  .ok (fr, sys, va) by
                simp [collect_valid_luks, h1, h2, hfind, happ]] at hok
              injection hok with h3
              injection h3 with hfr h4
              injection h4 with ha hb
              rw [← hfr, ← hb]
              refine ⟨?_, hsub⟩
              intro p hp tm htm
              rcases luks_append_valids_mem "dm luks validation failed" luks.name
                  luks.device ⟨"/dev/mapper/" ++ luks.name, TYPE_LUKS⟩ valids va true
                  happ p hp with h5 | h5
              · exact hfree p h5 tm htm
              · rw [h5] at htm
                injection htm with h6
                rw [← h6]
                exact hnfr
            | false =>
              by_cases h6 : (lookupS fr luks.device).isSome
              · rw [show collect_valid_luks luks hostFiles sys_fs_devs fr sys valids =
                    .ok (removeS fr luks.device, sys, valids ++
                      [[⟨luks.device, TYPE_UNKNOWN⟩,
                        ⟨"/dev/mapper/" ++ luks.name, TYPE_LUKS⟩]]) by
                  simp [collect_valid_luks, h1, h2, hfind, happ, h6]] at hok
                injection hok with h3
                injection h3 with hfr h4
                injection h4 with ha hb
                rw [← hfr, ← hb]
                constructor
                · intro p hp tm htm
                  rcases List.mem_append.mp hp with h5 | h5
                  · exact lookupS_removeS_none luks.device tm.device fr
                      (hfree p h5 tm htm)
                  · rw [List.mem_singleton] at h5
                    subst h5
                    simp only [List.getLast?_cons_cons, List.getLast?_singleton,
                      Option.some.injEq] at htm
                    rw [← htm]
                    exact lookupS_removeS_none luks.device
                      ("/dev/mapper/" ++ luks.name) fr hnfr
                · intro x hx
                  refine hsub x (fun h0 => ?_)
                  exact hx (lookupS_removeS_none luks.device x fr h0)
              · by_cases h7 : luks.device ∈ hostFiles
                · rw [show collect_valid_luks luks hostFiles sys_fs_devs fr sys valids =
                      .ok (fr, sys, valids ++
                        [[⟨luks.device, TYPE_UNKNOWN⟩,
                          ⟨"/dev/mapper/" ++ luks.name, TYPE_LUKS⟩]]) by
                    simp [collect_valid_luks, h1, h2, hfind, happ, h6, h7]] at hok
                  injection hok with h3
                  injection h3 with hfr h4
                  injection h4 with ha hb
                  rw [← hfr, ← hb]
                  refine ⟨?_, hsub⟩
                  intro p hp tm htm
                  rcases List.mem_append.mp hp with h5 | h5
                  · exact hfree p h5 tm htm
                  · rw [List.mem_singleton] at h5
                    subst h5
                    simp only [List.getLast?_cons_cons, List.getLast?_singleton,
                      Option.some.injEq] at htm
                    rw [← htm]
                    exact hnfr
                · exact absurd hok (by
                    simp [collect_valid_luks, h1, h2, hfind, happ, h6, h7])

/-- The PV validator keeps store tips off the fs-ready keys: the only new
tip device it creates is the PV device itself, which it either finds already
free (the store tip it extends), removes from fs-ready, or takes from the
host file list after the fs-ready lookup failed. -/
theorem collect_valid_pv_free (pv : String) (hostFiles : List String)
    (sys_fs_devs fr0 fr : List (String × BlockDevType))
    (sys : List (String × BlockDevPaths)) (valids : BlockDevPaths)
    (fr2 : List (String × BlockDevType)) (sys2 : List (String × BlockDevPaths))
    (v2 : BlockDevPaths)
    (hfree : tipsFree fr valids) (hsub : keysSub fr fr0)
    (hok : collect_valid_pv pv hostFiles sys_fs_devs fr sys valids =
      .ok (fr2, sys2, v2)) :
    tipsFree fr2 v2 ∧ keysSub fr2 fr0 := by
  by_cases h1 : (lookupS sys_fs_devs pv).isSome
  · exact absurd hok (by simp [collect_valid_pv, h1])
  · cases hvg : pv_find_sys_vg ((lookupS sys pv).getD []) with
    | some node => exact absurd hok (by simp [collect_valid_pv, h1, hvg])
    | none =>
      cases happ : pv_append_valids "lvm pv validation failed" pv valids with
      | error e => exact absurd hok (by simp [collect_valid_pv, h1, hvg, happ])
      | ok o =>
        cases o with
        | some va =>
          rw [show collect_valid_pv pv hostFiles sys_fs_devs fr sys valids =
              .ok (fr, sys, va) by simp [collect_valid_pv, h1, hvg, happ]] at hok
          injection hok with h3
          injection h3 with hfr h4
          injection h4 with ha hb
          rw [← hfr, ← hb]
          refine ⟨?_, hsub⟩
          intro p hp tm htm
          rcases pv_append_valids_mem "lvm pv validation failed" pv valids va
              happ p hp with h5 | h5
          · exact hfree p h5 tm htm
          · rcases h5 with ⟨h6, q, hq, tm2, h7, h8⟩
            rw [h6] at htm
            injection htm with h9
            rw [← h9]
            have := hfree q hq tm2 h7
            rw [h8] at this
            exact this
        | none =>
          by_cases h6 : (lookupS fr pv).isSome
          · rw [show collect_valid_pv pv hostFiles sys_fs_devs fr sys valids =
                .ok (removeS fr pv, sys, valids ++
                  [[⟨pv, TYPE_UNKNOWN⟩, ⟨pv, TYPE_PV⟩]]) by
              simp [collect_valid_pv, h1, hvg, happ, h6]] at hok
            injection hok with h3
            injection h3 with hfr h4
            injection h4 with ha hb
            rw [← hfr, ← hb]
            constructor
            · intro p hp tm htm
              rcases List.mem_append.mp hp with h5 | h5
              · exact lookupS_removeS_none pv tm.device fr (hfree p h5 tm htm)
              · rw [List.mem_singleton] at h5
                subst h5
                simp only [List.getLast?_cons_cons, List.getLast?_singleton,
                  Option.some.injEq] at htm
                rw [← htm]
                exact lookupS_removeS_self pv fr
            · intro x hx
              refine hsub x (fun h0 => ?_)
              exact hx (lookupS_removeS_none pv x fr h0)
          · by_cases h7 : pv ∈ hostFiles
            · rw [show collect_valid_pv pv hostFiles sys_fs_devs fr sys valids =
                  .ok (fr, sys, valids ++
                    [[⟨pv, TYPE_UNKNOWN⟩, ⟨pv, TYPE_PV⟩]]) by
                simp [collect_valid_pv, h1, hvg, happ, h6, h7]] at hok
              injection hok with h3
              injection h3 with hfr h4
              injection h4 with ha hb
              rw [← hfr, ← hb]
              refine ⟨?_, hsub⟩
              intro p hp tm htm
              rcases List.mem_append.mp hp with h5 | h5
              · exact hfree p h5 tm htm
              · rw [List.mem_singleton] at h5
                subst h5
                simp only [List.getLast?_cons_cons, List.getLast?_singleton,
                  Option.some.injEq] at htm
                rw [← htm]
                exact Option.not_isSome_iff_eq_none.mp h6
            · exact absurd hok (by simp [collect_valid_pv, h1, hvg, happ, h6, h7])

/-- One VG loop step keeps store tips off a fixed fs-ready map whose keys
never include the synthesized /dev/(vg name). -/
theorem vg_step_free (vg : ManifestLvmVg) (sys_fs_devs fr : List (String × BlockDevType))
    (pr pr2 : List (String × BlockDevPaths) × BlockDevPaths) (pv_base : String)
    (hn : lookupS fr ("/dev/" ++ vg.name) = none)
    (hfree : tipsFree fr pr.2)
    (hok : vg_step vg sys_fs_devs pr pv_base = .ok pr2) :
    tipsFree fr pr2.2 := by
  by_cases h1 : (lookupS sys_fs_devs pv_base).isSome
  · exact absurd hok (by simp [vg_step, h1])
  · cases hvg : pv_find_sys_vg ((lookupS pr.1 pv_base).getD []) with
    | some node => exact absurd hok (by simp [vg_step, h1, hvg])
    | none =>
      cases happ : vg_append_valids "lvm vg validation failed" vg.name pv_base
          ⟨"/dev/" ++ vg.name, TYPE_VG⟩ pr.2 with
      | error e => exact absurd hok (by simp [vg_step, h1, hvg, happ])
      | ok o =>
        cases o with
        | some va =>
          rw [show vg_step vg sys_fs_devs pr pv_base = .ok (pr.1, va) by
            simp [vg_step, h1, hvg, happ]] at hok
          injection hok with h3
          rw [← h3]
          show tipsFree fr va
          rcases vg_append_valids_some_decomp "lvm vg validation failed" vg.name
              pv_base ⟨"/dev/" ++ vg.name, TYPE_VG⟩ pr.2 va happ with
            ⟨l1, p, l3, he1, he2, _, _⟩
          intro q hq tm htm
          rw [he2] at hq
          rcases List.mem_append.mp hq with h5 | h5
          · exact hfree q (by rw [he1]; exact List.mem_append.mpr (Or.inl h5)) tm htm
          · rcases List.mem_cons.mp h5 with h6 | h6
            · rw [h6, List.getLast?_concat] at htm
              injection htm with h7
              rw [← h7]
              exact hn
            · exact hfree q
                (by rw [he1]; exact List.mem_append.mpr (Or.inr (List.mem_cons_of_mem p h6)))
                tm htm
        | none =>
          cases hadopt : vg_adopt_sys "lvm vg validation failed" vg.name pv_base
              ⟨"/dev/" ++ vg.name, TYPE_VG⟩ pr.1 with
          | error e => exact absurd hok (by simp [vg_step, h1, hvg, happ, hadopt])
          | ok o2 =>
            cases o2 with
            | none => exact absurd hok (by simp [vg_step, h1, hvg, happ, hadopt])
            | some pr3 =>
              obtain ⟨sysa, newp⟩ := pr3
              rw [show vg_step vg sys_fs_devs pr pv_base =
                  .ok (sysa, pr.2 ++ [newp]) by
                simp [vg_step, h1, hvg, happ, hadopt]] at hok
              injection hok with h3
              rw [← h3]
              show tipsFree fr (pr.2 ++ [newp])
              rcases vg_adopt_sys_some_decomp "lvm vg validation failed" vg.name
                  pv_base ⟨"/dev/" ++ vg.name, TYPE_VG⟩ pr.1 sysa newp hadopt with
                ⟨pre, k, ps, ps2, post, _, _, hpaths⟩
              rcases vg_adopt_paths_some_decomp "lvm vg validation failed" vg.name
                  pv_base ⟨"/dev/" ++ vg.name, TYPE_VG⟩ ps ps2 newp hpaths with
                ⟨q1, qq, q3, tq, _, _, _, _, _, hnewp⟩
              intro q hq tm htm
              rcases List.mem_append.mp hq with h5 | h5
              · exact hfree q h5 tm htm
              · rw [List.mem_singleton] at h5
                subst h5
                rw [hnewp, List.getLast?_concat] at htm
                injection htm with h7
                rw [← h7]
                exact hn

/-- The LV validator keeps store tips off a fs-ready map that never held the
normalised LV name: new paths all end in the LV node. -/
theorem lv_collect_valid_free (lv : ManifestLvmLv)
    (sys_fs_devs fr : List (String × BlockDevType))
    (sys : List (String × BlockDevPaths)) (valids : BlockDevPaths)
    (sys2 : List (String × BlockDevPaths)) (v2 : BlockDevPaths)
    (hn : lookupS fr ((vg_lv_name lv).2) = none)
    (hfree : tipsFree fr valids)
    (hok : lv_collect_valid lv sys_fs_devs sys valids = .ok (sys2, v2)) :
    tipsFree fr v2 := by
  have hcore : ∀ (hb : valids ++ ((valids.filter (tip_is_vg (vg_lv_name lv).1) ++
      ((sys.map Prod.snd).flatten.filter (tip_is_vg (vg_lv_name lv).1))).map
      (fun p => p ++ [⟨(vg_lv_name lv).2, TYPE_LV⟩])) = v2),
      tipsFree fr v2 := by
    intro hb
    rw [← hb]
    intro q hq tm htm
    rcases List.mem_append.mp hq with h5 | h5
    · exact hfree q h5 tm htm
    · rcases List.mem_map.mp h5 with ⟨r, hr, hq2⟩
      rw [← hq2, List.getLast?_concat] at htm
      injection htm with h7
      rw [← h7]
      exact hn
  cases hszv : lv.size with
  | none =>
    simp only [lv_collect_valid, hszv] at hok
    by_cases hempty : ((valids.filter (tip_is_vg (vg_lv_name lv).1) ++
        ((sys.map Prod.snd).flatten.filter (tip_is_vg (vg_lv_name lv).1)))).isEmpty = true
    · rw [if_pos hempty] at hok
      cases hok
    · rw [if_neg hempty] at hok
      injection hok with h2
      injection h2 with ha hb
      exact hcore hb
  | some sz =>
    cases hparse : parse_human_bytes sz with
    | error e =>
      exact absurd hok (by simp [lv_collect_valid, hszv, hparse])
    | ok u =>
      cases u
      simp only [lv_collect_valid, hszv, hparse] at hok
      by_cases hempty : ((valids.filter (tip_is_vg (vg_lv_name lv).1) ++
          ((sys.map Prod.snd).flatten.filter (tip_is_vg (vg_lv_name lv).1)))).isEmpty = true
      · rw [if_pos hempty] at hok
        cases hok
      · rw [if_neg hempty] at hok
        injection hok with h2
        injection h2 with ha hb
        exact hcore hb

/-- One DM-loop iteration keeps store tips off the fs-ready keys and only
shrinks fs-ready, provided none of the names the entry synthesizes was an
fs-ready key at the start of the run. -/
theorem collect_dm_free (hostFiles : List String)
    (sys_fs_devs fr0 : List (String × BlockDevType)) (st st' : VState) (d : Dm)
    (hname : ∀ n ∈ dm_target_names d, lookupS fr0 n = none)
    (hQ : tipsFree st.fs_ready st.valids ∧ keysSub st.fs_ready fr0)
    (hok : collect_dm hostFiles sys_fs_devs st d = .ok st') :
    tipsFree st'.fs_ready st'.valids ∧ keysSub st'.fs_ready fr0 := by
  cases d with
  | luks l =>
    cases hc : collect_valid_luks l hostFiles sys_fs_devs st.fs_ready st.sys_lvms st.valids with
    | error e =>
      exact absurd hok (by simp [collect_dm, hc])
    | ok pr =>
      obtain ⟨fr, sys, v⟩ := pr
      rw [show collect_dm hostFiles sys_fs_devs st (.luks l) = .ok ⟨fr, sys, v⟩ by
        simp [collect_dm, hc]] at hok
      injection hok with h2
      rw [← h2]
      exact collect_valid_luks_free l hostFiles sys_fs_devs fr0 st.fs_ready st.sys_lvms
        st.valids fr sys v
        (hname ("/dev/mapper/" ++ l.name) (List.mem_singleton.mpr rfl)) hQ.1 hQ.2 hc
  | lvm lvm =>
    have hpv_pres : ∀ (s2 : VState) (pv : String) (s3 : VState),
        pv ∈ lvm.pvs.getD [] →
        (tipsFree s2.fs_ready s2.valids ∧ keysSub s2.fs_ready fr0) →
        ((match collect_valid_pv pv hostFiles sys_fs_devs s2.fs_ready s2.sys_lvms s2.valids with
         | .error e => .error e
         | .ok (fr, sys, v) => .ok ⟨fr, sys, v⟩ : Except VErr VState)) = .ok s3 →
        tipsFree s3.fs_ready s3.valids ∧ keysSub s3.fs_ready fr0 := by
      intro s2 pv s3 _ hP2 hstep
      cases hc : collect_valid_pv pv hostFiles sys_fs_devs s2.fs_ready s2.sys_lvms s2.valids with
      | error e => rw [hc] at hstep; cases hstep
      | ok pr =>
        obtain ⟨fr, sys, v⟩ := pr
        rw [hc] at hstep
        injection hstep with h2
        rw [← h2]
        exact collect_valid_pv_free pv hostFiles sys_fs_devs fr0 s2.fs_ready s2.sys_lvms
          s2.valids fr sys v hP2.1 hP2.2 hc
    cases hf1 : foldE (fun st2 pv =>
        match collect_valid_pv pv hostFiles sys_fs_devs st2.fs_ready st2.sys_lvms st2.valids with
        | .error e => .error e
        | .ok (fr, sys, v) => .ok (⟨fr, sys, v⟩ : VState)) st (lvm.pvs.getD []) with
    | error e =>
      exact absurd hok (by simp [collect_dm, hf1])
    | ok st3 =>
      have hP3 : tipsFree st3.fs_ready st3.valids ∧ keysSub st3.fs_ready fr0 :=
        foldE_inv_mem _ (fun s => tipsFree s.fs_ready s.valids ∧ keysSub s.fs_ready fr0)
          (lvm.pvs.getD []) (fun s b s' hb hPs hs => hpv_pres s b s' hb hPs hs)
          st st3 hQ hf1
      have hvg_pres : ∀ (s2 : VState) (vg : ManifestLvmVg) (s3 : VState),
          vg ∈ lvm.vgs.getD [] →
          (tipsFree s2.fs_ready s2.valids ∧ keysSub s2.fs_ready fr0) →
          ((match collect_valid_vg vg sys_fs_devs s2.sys_lvms s2.valids with
           | .error e => .error e
           | .ok (sys, v) => .ok ⟨s2.fs_ready, sys, v⟩ : Except VErr VState)) = .ok s3 →
          tipsFree s3.fs_ready s3.valids ∧ keysSub s3.fs_ready fr0 := by
        intro s2 vg s3 hvgmem hP2 hstep
        have hnvg : lookupS s2.fs_ready ("/dev/" ++ vg.name) = none := by
          by_contra h0
          exact hP2.2 ("/dev/" ++ vg.name) h0 (hname ("/dev/" ++ vg.name)
            (List.mem_append.mpr (Or.inl (List.mem_map.mpr ⟨vg, hvgmem, rfl⟩))))
        cases hc : collect_valid_vg vg sys_fs_devs s2.sys_lvms s2.valids with
        | error e => rw [hc] at hstep; cases hstep
        | ok pr =>
          obtain ⟨sys, v⟩ := pr
          rw [hc] at hstep
          injection hstep with h2
          rw [← h2]
          refine ⟨?_, hP2.2⟩
          show tipsFree s2.fs_ready v
          have := foldE_inv_mem (vg_step vg sys_fs_devs)
            (fun pr2 => tipsFree s2.fs_ready pr2.2) vg.pvs
            (fun s b s' _ hPs hs => vg_step_free vg sys_fs_devs s2.fs_ready s s' b hnvg hPs hs)
            (s2.sys_lvms, s2.valids) (sys, v) hP2.1 hc
          exact this
      cases hf2 : foldE (fun st4 vg =>
          match collect_valid_vg vg sys_fs_devs st4.sys_lvms st4.valids with
          | .error e => .error e
          | .ok (sys, v) => .ok (⟨st4.fs_ready, sys, v⟩ : VState)) st3 (lvm.vgs.getD []) with
      | error e =>
        exact absurd hok (by simp [collect_dm, hf1, hf2])
      | ok st5 =>
        have hP5 : tipsFree st5.fs_ready st5.valids ∧ keysSub st5.fs_ready fr0 :=
          foldE_inv_mem _ (fun s => tipsFree s.fs_ready s.valids ∧ keysSub s.fs_ready fr0)
            (lvm.vgs.getD []) (fun s b s' hb hPs hs => hvg_pres s b s' hb hPs hs)
            st3 st5 hP3 hf2
        have hlv_pres : ∀ (s2 : VState) (lv : ManifestLvmLv) (s3 : VState),
            lv ∈ lvm.lvs.getD [] →
            (tipsFree s2.fs_ready s2.valids ∧ keysSub s2.fs_ready fr0) →
            ((match lv_collect_valid lv sys_fs_devs s2.sys_lvms s2.valids with
             | .error e => .error e
             | .ok (sys, v) => .ok ⟨s2.fs_ready, sys, v⟩ : Except VErr VState)) = .ok s3 →
            tipsFree s3.fs_ready s3.valids ∧ keysSub s3.fs_ready fr0 := by
          intro s2 lv s3 hlvmem hP2 hstep
          have hnlv : lookupS s2.fs_ready ((vg_lv_name lv).2) = none := by
            by_contra h0
            exact hP2.2 ((vg_lv_name lv).2) h0 (hname ((vg_lv_name lv).2)
              (List.mem_append.mpr (Or.inr (List.mem_map.mpr ⟨lv, hlvmem, rfl⟩))))
          cases hc : lv_collect_valid lv sys_fs_devs s2.sys_lvms s2.valids with
          | error e => rw [hc] at hstep; cases hstep
          | ok pr =>
            obtain ⟨sys, v⟩ := pr
            rw [hc] at hstep
            injection hstep with h2
            rw [← h2]
            refine ⟨?_, hP2.2⟩
            show tipsFree s2.fs_ready v
            exact lv_collect_valid_free lv sys_fs_devs s2.fs_ready s2.sys_lvms s2.valids
              sys v hnlv hP2.1 hc
        rw [show collect_dm hostFiles sys_fs_devs st (.lvm lvm) =
            foldE (fun st6 lv =>
              match lv_collect_valid lv sys_fs_devs st6.sys_lvms st6.valids with
              | .error e => .error e
              | .ok (sys, v) => .ok (⟨st6.fs_ready, sys, v⟩ : VState)) st5
              (lvm.lvs.getD []) by
          simp [collect_dm, hf1, hf2]] at hok
        exact foldE_inv_mem _
          (fun s => tipsFree s.fs_ready s.valids ∧ keysSub s.fs_ready fr0)
          (lvm.lvs.getD []) (fun s b s' hb hPs hs => hlv_pres s b s' hb hPs hs)
          st5 st' hP5 hok

/-- The disk stage keeps store tips off the fs-ready keys: it rejects any
synthesized partition name already present there. -/
theorem validate_one_disk_free (hostFiles : List String)
    (sys_fs_devs sys_fs_ready : List (String × BlockDevType))
    (valids v2 : BlockDevPaths) (d : ManifestDisk)
    (hfree : tipsFree sys_fs_ready valids)
    (hok : validate_one_disk hostFiles sys_fs_devs sys_fs_ready valids d = .ok v2) :
    tipsFree sys_fs_ready v2 := by
  by_cases hdev : d.device ∈ hostFiles
  · rw [show validate_one_disk hostFiles sys_fs_devs sys_fs_ready valids d =
        foldE (fun v i =>
          let partition_name := partNameBase d.device ++ toString (i + 1)
          if (lookupS sys_fs_ready partition_name).isSome then
            .error (.badManifest
              ("partition validation failed: partition " ++ partition_name ++
                " already exists on system"))
          else if (lookupS sys_fs_devs partition_name).isSome then
            .error (.badManifest
              ("partition validation failed: partition " ++ partition_name ++
                " is already used"))
          else .ok (v ++ [[⟨d.device, TYPE_DISK⟩] ++ [⟨partition_name, TYPE_PART⟩]]))
          valids (List.range d.partitions.length) by
        simp [validate_one_disk, hdev]] at hok
    refine foldE_inv_mem _ (tipsFree sys_fs_ready) (List.range d.partitions.length)
      ?_ valids v2 hfree hok
    intro acc i acc2 _ hP hstep
    by_cases h1 : (lookupS sys_fs_ready (partNameBase d.device ++ toString (i + 1))).isSome
    · exact absurd hstep (by simp [h1])
    · by_cases h2 : (lookupS sys_fs_devs (partNameBase d.device ++ toString (i + 1))).isSome
      · exact absurd hstep (by simp [h1, h2])
      · simp only [h1, h2, Bool.false_eq_true, if_false, Except.ok.injEq] at hstep
        rw [← hstep]
        intro p hp tm htm
        rcases List.mem_append.mp hp with h5 | h5
        · exact hP p h5 tm htm
        · rw [List.mem_singleton] at h5
          subst h5
          rw [List.getLast?_concat] at htm
          injection htm with h6
          rw [← h6]
          exact Option.not_isSome_iff_eq_none.mp h1
  · exact absurd hok (by simp [validate_one_disk, hdev])

/-- C5 (amended): after a successful validate_blk run, provided none of the
device names the manifest's DM entries synthesize (/dev/mapper/(name) for a
LUKS, /dev/(vg) for a VG, /dev/(vg)/(lv) for an LV) was a key of the initial
sys_fs_ready map, no store path's tip device is a key still present in the
remaining sys_fs_ready map: the disk stage rejects partition names present
there, and every base taken from sys_fs_ready is removed when consumed. -/
theorem c5_no_tip_in_fs_ready (m : Manifest) (hostFiles : List String)
    (sys_fs_devs sys_fs_ready : List (String × BlockDevType))
    (sys_lvms : List (String × BlockDevPaths)) (st : VState)
    (hname : ∀ d ∈ m.dm.getD [], ∀ n ∈ dm_target_names d,
      lookupS sys_fs_ready n = none)
    (hok : validate_blk m hostFiles sys_fs_devs sys_fs_ready sys_lvms = .ok st) :
    ∀ p ∈ st.valids, ∀ tm, p.getLast? = some tm →
      lookupS st.fs_ready tm.device = none := by
  cases hd : foldE (validate_one_disk hostFiles sys_fs_devs sys_fs_ready) []
      (m.disks.getD []) with
  | error e => exact absurd hok (by simp [validate_blk, hd])
  | ok valids0 =>
    have hv0 : tipsFree sys_fs_ready valids0 :=
      foldE_inv_mem _ (tipsFree sys_fs_ready) (m.disks.getD [])
        (fun s b s' _ hP hs =>
          validate_one_disk_free hostFiles sys_fs_devs sys_fs_ready s s' b hP hs)
        [] valids0 (by intro p hp; cases hp) hd
    cases hdm : foldE (collect_dm hostFiles sys_fs_devs)
        ⟨sys_fs_ready, sys_lvms, valids0⟩ (m.dm.getD []) with
    | error e => exact absurd hok (by simp [validate_blk, hd, hdm])
    | ok stDM =>
      have hP : tipsFree stDM.fs_ready stDM.valids ∧ keysSub stDM.fs_ready sys_fs_ready :=
        foldE_inv_mem _
          (fun s => tipsFree s.fs_ready s.valids ∧ keysSub s.fs_ready sys_fs_ready)
          (m.dm.getD [])
          (fun s b s' hb hPs hs =>
            collect_dm_free hostFiles sys_fs_devs sys_fs_ready s s' b (hname b hb) hPs hs)
          ⟨sys_fs_ready, sys_lvms, valids0⟩ stDM ⟨hv0, fun x hx => hx⟩ hdm
      cases hb : build_fs_ready_from_ready [] stDM.fs_ready with
      | error e => exact absurd hok (by simp [validate_blk, hd, hdm, hb])
      | ok s0 =>
        cases hat : add_valids_tips (add_sys_tips s0 stDM.sys_lvms) stDM.valids with
        | error e => exact absurd hok (by simp [validate_blk, hd, hdm, hb, hat])
        | ok s2 =>
          cases hcf : check_fs_declarations s2 m.rootfs.device
              (m.filesystems.getD []) (m.swap.getD []) with
          | error e => exact absurd hok (by simp [validate_blk, hd, hdm, hb, hat, hcf])
          | ok u =>
            cases u
            rw [show validate_blk m hostFiles sys_fs_devs sys_fs_ready sys_lvms =
                .ok stDM by simp [validate_blk, hd, hdm, hb, hat, hcf]] at hok
            injection hok with h
            rw [← h]
            exact hP.1

/-- C5 counterexample: without the name side condition the claim is false.
The manifest turns /dev/sda1 into a PV, a VG /dev/myvg and an LV, while the
system's fs-ready map happens to hold a key "/dev/myvg"; validation accepts,
yet "/dev/myvg" is both the tip of a store path and still a key of the
remaining fs-ready map: the VG name is never checked against sys_fs_ready. -/
theorem c5_counterexample :
    validate_blk c5cexM [] [] c5cexFr [] = .ok c5cexSt ∧
    [⟨"/dev/sda1", TYPE_UNKNOWN⟩, ⟨"/dev/sda1", TYPE_PV⟩, ⟨"/dev/myvg", TYPE_VG⟩]
      ∈ c5cexSt.valids ∧
    ([⟨"/dev/sda1", TYPE_UNKNOWN⟩, ⟨"/dev/sda1", TYPE_PV⟩,
      ⟨"/dev/myvg", TYPE_VG⟩] : BlockDevPath).getLast? =
      some ⟨"/dev/myvg", TYPE_VG⟩ ∧
    lookupS c5cexSt.fs_ready "/dev/myvg" = some TYPE_PART := by
  refine ⟨by decide, by decide, by decide, by decide⟩

theorem c5_witness :
    lookupS (VState.mk [] []
      [[⟨"/dev/sda", TYPE_DISK⟩, ⟨"/dev/sda1", TYPE_PART⟩]]).fs_ready
      "/dev/sda1" = none :=
  c5_no_tip_in_fs_ready c1wM ["/dev/sda"] [] [] []
    (VState.mk [] [] [[⟨"/dev/sda", TYPE_DISK⟩, ⟨"/dev/sda1", TYPE_PART⟩]])
    (by intro d hd; cases hd) (by decide)
    [⟨"/dev/sda", TYPE_DISK⟩, ⟨"/dev/sda1", TYPE_PART⟩] (by decide)
    ⟨"/dev/sda1", TYPE_PART⟩ (by decide)
